import Mathlib

/-!
# FitTrack Pro: record codec, account store and derived metrics

A shallow embedding of the data engine of `src/main.cpp` (class `FitTrackPro`):
the line codec of `saveData` / `loadData`, the calculators `calcCardioCal` and
`calcStrCal`, the logging actions `saveCardio` and `saveStrength` with their
goal updates, and the computations of `refresh`: the seven-day series, the
weekly totals, the two progress bars and the BMI labels.

Conventions of the embedding
* a `QString` is a list of characters;
* a C++ `int` is an `Int`; `toInt` applies the 32-bit range check of the
  library, and the round-trip results ask for `int` values; an addition on a
  stored counter wraps around (`wrapInt`) and a conversion from `double` has no
  value outside the range of `int` (`castInt`);
* a C++ `double` is a rational number. The calculators and the sums that are
  stated as formulas are taken exactly; wherever the outcome is discrete (a
  label, a rounded percentage, a stored progress, the comparison of two
  computed totals) every operation is rounded to the nearest `double` by `fl`.
  A division whose divisor the program guards is written with `fdiv`, which
  fails on zero;
* the text of a number is the one Qt produces with the settings the program
  leaves at their defaults: `QTextStream << double` keeps six significant
  digits (`showReal`), `toDouble` and `toInt` return 0 for a text that is not a
  number;
* a backing file is `none` when it cannot be opened and otherwise the list of
  its lines, in the order `QTextStream::readLine` returns them; `fileText` is
  the text written for a list of lines and `readLines` the lines read from a
  text;
* a valid `QDate` is its Julian day number, an invalid one is `none`; the
  current date read by `refresh` is the parameter `today`;
* a `QVector<double>` is a list, updated in place by `addAt` (`addAtD` with
  the rounding).
-/

namespace FitTrackPro

/-! ## Text layer (the Qt calls the codec relies on) -/

/-- Text values of the program. -/
abbrev QString := List Char

/-- The call `s.split(sep)` of `QString` for a one-character separator: every
occurrence of the separator ends a part, empty parts are kept, and a text
without the separator is returned as the single part. -/
def split (sep : Char) : QString → List QString
  | [] => [[]]
  | c :: cs =>
    if c = sep then [] :: split sep cs
    else
      match split sep cs with
      | [] => [[c]]
      | p :: ps => (c :: p) :: ps

/-- Indexing `p[i]` of a part list; every use in the program is guarded by a
size test, the empty text stands for an index that is out of range. -/
def part (p : List QString) (i : Nat) : QString := p.getD i []

/-- The decimal digit character of a digit value. -/
def digitChar (d : Nat) : Char :=
  match d with
  | 0 => '0' | 1 => '1' | 2 => '2' | 3 => '3' | 4 => '4'
  | 5 => '5' | 6 => '6' | 7 => '7' | 8 => '8' | _ => '9'

/-- The value of a decimal digit character. -/
def digitVal (c : Char) : Option Nat :=
  if c = '0' then some 0 else if c = '1' then some 1 else if c = '2' then some 2
  else if c = '3' then some 3 else if c = '4' then some 4 else if c = '5' then some 5
  else if c = '6' then some 6 else if c = '7' then some 7 else if c = '8' then some 8
  else if c = '9' then some 9 else none

/-- Digits of `n`, most significant first, pushed in front of `acc`. -/
def showNatAux : Nat → Nat → QString → QString
  | 0, _, acc => acc
  | fuel + 1, n, acc =>
    if n < 10 then digitChar n :: acc
    else showNatAux fuel (n / 10) (digitChar (n % 10) :: acc)

/-- Decimal text of a natural number. -/
def showNat (n : Nat) : QString := showNatAux (n + 1) n []

/-- The text `QTextStream << int` writes: decimal, with a minus sign for a
negative value. -/
def showInt (n : Int) : QString :=
  if n < 0 then '-' :: showNat n.natAbs else showNat n.natAbs

/-- Value of a run of decimal digits read after the value `acc`; `none` when a
character is not a digit. -/
def parseDigits : QString → Nat → Option Nat
  | [], acc => some acc
  | c :: cs, acc =>
    match digitVal c with
    | some d => parseDigits cs (acc * 10 + d)
    | none => none

/-- A non-empty run of decimal digits. -/
def parseNat (s : QString) : Option Nat :=
  match s with
  | [] => none
  | _ :: _ => parseDigits s 0

/-- White space in the sense of `QChar::isSpace`, which `QString::trimmed` and
the number parsers apply: the characters U+0009 to U+000D, the space U+0020,
U+0085, U+00A0 and the characters of the general categories Zs, Zl and Zp
(U+1680, U+2000 to U+200A, U+2028, U+2029, U+202F, U+205F and U+3000; Unicode
6.3 and later). -/
def isSpace (c : Char) : Bool :=
  (9 ≤ c.toNat && c.toNat ≤ 13) || c.toNat = 32 || c.toNat = 133 || c.toNat = 160 ||
    c.toNat = 5760 || (8192 ≤ c.toNat && c.toNat ≤ 8202) || c.toNat = 8232 ||
    c.toNat = 8233 || c.toNat = 8239 || c.toNat = 8287 || c.toNat = 12288

/-- Text without leading and trailing white space (`QString::trimmed`). -/
def trimmed (s : QString) : QString :=
  ((s.dropWhile isSpace).reverse.dropWhile isSpace).reverse

/-- An optional sign in front of a number text: whether it is a minus sign,
and the rest of the text. -/
def signOf (s : QString) : Bool × QString :=
  match s with
  | '-' :: r => (true, r)
  | '+' :: r => (false, r)
  | r => (false, r)

/-- The call `s.toInt()`: an optional sign and decimal digits, white space
around them ignored; the result is 0 when the text is not of that form or the
value does not fit a 32-bit `int`. -/
def toInt (s : QString) : Int :=
  let t := signOf (trimmed s)
  match parseNat t.2 with
  | some n =>
    let i : Int := if t.1 then - (n : Int) else (n : Int)
    if -2147483648 ≤ i ∧ i ≤ 2147483647 then i else 0
  | none => 0

/-- Whether `10 ^ e ≤ n / d`, for `d > 0`. -/
def scaleLE (n d : Nat) (e : Int) : Bool :=
  if 0 ≤ e then decide (d * 10 ^ e.toNat ≤ n) else decide (d ≤ n * 10 ^ (-e).toNat)

/-- Decimal exponent of the positive fraction `n / d`: the `e` with
`10 ^ e ≤ n / d < 10 ^ (e + 1)`. -/
def decExp (n d : Nat) : Int :=
  let e : Int := ((showNat n).length : Int) - ((showNat d).length : Int)
  if scaleLE n d e then e else e - 1

/-- The fraction `n / d` times `10 ^ k`, rounded to the nearest natural number
(a tie goes up). -/
def roundScaled (n d : Nat) (k : Int) : Nat :=
  if 0 ≤ k then (2 * (n * 10 ^ k.toNat) + d) / (2 * d)
  else (2 * n + d * 10 ^ (-k).toNat) / (2 * (d * 10 ^ (-k).toNat))

/-- A digit text without its trailing zeros. -/
def stripZeros (s : QString) : QString :=
  (s.reverse.dropWhile (fun c => c = '0')).reverse

/-- A fraction part: nothing when it is empty, else a point and the digits. -/
def fracPart (s : QString) : QString :=
  match s with
  | [] => []
  | _ :: _ => '.' :: s

/-- Exponent suffix of the scientific form: `e`, a sign and at least two
digits. -/
def expPart (e : Int) : QString :=
  let ds := showNat e.natAbs
  'e' :: (if e < 0 then '-' else '+') :: (if ds.length < 2 then '0' :: ds else ds)

/-- The significant digits `ds` of a positive number with decimal exponent `e`
laid out the way `%g` does with precision 6: scientific form when `e < -4` or
`e ≥ 6`, fixed form otherwise, trailing zeros of the fraction removed. -/
def layoutG (ds : QString) (e : Int) : QString :=
  if e < -4 ∨ 6 ≤ e then
    ds.take 1 ++ fracPart (stripZeros (ds.drop 1)) ++ expPart e
  else if 0 ≤ e then
    ds.take (e.toNat + 1) ++ fracPart (stripZeros (ds.drop (e.toNat + 1)))
  else
    '0' :: '.' :: (List.replicate ((-e).toNat - 1) '0' ++ stripZeros ds)

/-- The text `QTextStream << double` writes with the stream defaults the
program never changes (C locale, smart notation, real-number precision 6):
the value rounded to six significant digits, as `printf("%g")` prints it. -/
def showReal (q : ℚ) : QString :=
  if q = 0 then ['0']
  else
    let n := q.num.natAbs
    let d := q.den
    let e := decExp n d
    let m := roundScaled n d (5 - e)
    let body := if m = 1000000 then layoutG (showNat 100000) (e + 1) else layoutG (showNat m) e
    if q < 0 then '-' :: body else body

/-- Whether a character is a decimal digit. -/
def isDigit (c : Char) : Bool := (digitVal c).isSome

/-- Value of a run of digits, 0 for the empty run. -/
def digitsValue (s : QString) : Nat := (parseDigits s 0).getD 0

/-- The exponent suffix of a real-number text: empty, or `e`/`E`, an optional
sign and a non-empty run of digits. -/
def parseExp (s : QString) : Option Int :=
  match s with
  | [] => some 0
  | c :: r =>
    if c = 'e' ∨ c = 'E' then
      (parseNat (signOf r).2).map (fun n => if (signOf r).1 then - (n : Int) else (n : Int))
    else none

/-- The digits of the fraction part at the head of a text: those after a
point, none when the text does not start with a point. -/
def fracDigits (s : QString) : QString :=
  match s with
  | '.' :: r => r.takeWhile isDigit
  | _ => []

/-- The text after the fraction part at its head. -/
def afterFrac (s : QString) : QString :=
  match s with
  | '.' :: r => r.dropWhile isDigit
  | _ => s

/-- Unsigned real-number text: digits, an optional point and digits (at least
one digit in all), an optional exponent. -/
def parseUReal (s : QString) : Option ℚ :=
  let ip := s.takeWhile isDigit
  let s1 := s.dropWhile isDigit
  let fp := fracDigits s1
  if ip = [] ∧ fp = [] then none
  else
    match parseExp (afterFrac s1) with
    | none => none
    | some x =>
      let mant : ℚ := (digitsValue (ip ++ fp) : ℚ) / (10 ^ fp.length : ℚ)
      some (if 0 ≤ x then mant * (10 ^ x.toNat : ℚ) else mant / (10 ^ (-x).toNat : ℚ))

/-- The call `s.toDouble()`: the decimal number the text denotes, white space
around it ignored, and 0 when the text is not a number. -/
def toDouble (s : QString) : ℚ :=
  let t := signOf (trimmed s)
  match parseUReal t.2 with
  | some x => if t.1 then - x else x
  | none => 0

/-- The call `QString::number(x, 'f', 1)`: fixed notation with one decimal,
the value rounded to the nearest tenth (a tie goes away from zero). -/
def numberF1 (q : ℚ) : QString :=
  let m := roundScaled q.num.natAbs q.den 1
  let body := showNat (m / 10) ++ ['.', digitChar (m % 10)]
  if q < 0 then '-' :: body else body

/-- The simple case folding of Unicode 14.0 (the mappings of status C and S of
`CaseFolding.txt`), in rows `(first, last, step, offset)`: the code points
`first`, `first + step`, ..., `last` fold to themselves plus `offset`, and a
code point that no row holds folds to itself. -/
def caseFoldRows : List (Nat × Nat × Nat × Int) :=
  [(65, 90, 1, 32), (181, 181, 1, 775), (192, 214, 1, 32), (216, 222, 1, 32), (256, 302, 2, 1),
   (306, 310, 2, 1), (313, 327, 2, 1), (330, 374, 2, 1), (376, 376, 1, -121), (377, 381, 2, 1),
   (383, 383, 1, -268), (385, 385, 1, 210), (386, 388, 2, 1), (390, 390, 1, 206),
   (391, 391, 1, 1), (393, 394, 1, 205), (395, 395, 1, 1), (398, 398, 1, 79), (399, 399, 1, 202),
   (400, 400, 1, 203), (401, 401, 1, 1), (403, 403, 1, 205), (404, 404, 1, 207),
   (406, 406, 1, 211), (407, 407, 1, 209), (408, 408, 1, 1), (412, 412, 1, 211),
   (413, 413, 1, 213), (415, 415, 1, 214), (416, 420, 2, 1), (422, 422, 1, 218),
   (423, 423, 1, 1), (425, 425, 1, 218), (428, 428, 1, 1), (430, 430, 1, 218), (431, 431, 1, 1),
   (433, 434, 1, 217), (435, 437, 2, 1), (439, 439, 1, 219), (440, 440, 1, 1), (444, 444, 1, 1),
   (452, 452, 1, 2), (453, 453, 1, 1), (455, 455, 1, 2), (456, 456, 1, 1), (458, 458, 1, 2),
   (459, 475, 2, 1), (478, 494, 2, 1), (497, 497, 1, 2), (498, 500, 2, 1), (502, 502, 1, -97),
   (503, 503, 1, -56), (504, 542, 2, 1), (544, 544, 1, -130), (546, 562, 2, 1),
   (570, 570, 1, 10795), (571, 571, 1, 1), (573, 573, 1, -163), (574, 574, 1, 10792),
   (577, 577, 1, 1), (579, 579, 1, -195), (580, 580, 1, 69), (581, 581, 1, 71), (582, 590, 2, 1),
   (837, 837, 1, 116), (880, 882, 2, 1), (886, 886, 1, 1), (895, 895, 1, 116), (902, 902, 1, 38),
   (904, 906, 1, 37), (908, 908, 1, 64), (910, 911, 1, 63), (913, 929, 1, 32), (931, 939, 1, 32),
   (962, 962, 1, 1), (975, 975, 1, 8), (976, 976, 1, -30), (977, 977, 1, -25),
   (981, 981, 1, -15), (982, 982, 1, -22), (984, 1006, 2, 1), (1008, 1008, 1, -54),
   (1009, 1009, 1, -48), (1012, 1012, 1, -60), (1013, 1013, 1, -64), (1015, 1015, 1, 1),
   (1017, 1017, 1, -7), (1018, 1018, 1, 1), (1021, 1023, 1, -130), (1024, 1039, 1, 80),
   (1040, 1071, 1, 32), (1120, 1152, 2, 1), (1162, 1214, 2, 1), (1216, 1216, 1, 15),
   (1217, 1229, 2, 1), (1232, 1326, 2, 1), (1329, 1366, 1, 48), (4256, 4293, 1, 7264),
   (4295, 4295, 1, 7264), (4301, 4301, 1, 7264), (5112, 5117, 1, -8), (7296, 7296, 1, -6222),
   (7297, 7297, 1, -6221), (7298, 7298, 1, -6212), (7299, 7300, 1, -6210),
   (7301, 7301, 1, -6211), (7302, 7302, 1, -6204), (7303, 7303, 1, -6180),
   (7304, 7304, 1, 35267), (7312, 7354, 1, -3008), (7357, 7359, 1, -3008), (7680, 7828, 2, 1),
   (7835, 7835, 1, -58), (7838, 7838, 1, -7615), (7840, 7934, 2, 1), (7944, 7951, 1, -8),
   (7960, 7965, 1, -8), (7976, 7983, 1, -8), (7992, 7999, 1, -8), (8008, 8013, 1, -8),
   (8025, 8031, 2, -8), (8040, 8047, 1, -8), (8072, 8079, 1, -8), (8088, 8095, 1, -8),
   (8104, 8111, 1, -8), (8120, 8121, 1, -8), (8122, 8123, 1, -74), (8124, 8124, 1, -9),
   (8126, 8126, 1, -7173), (8136, 8139, 1, -86), (8140, 8140, 1, -9), (8152, 8153, 1, -8),
   (8154, 8155, 1, -100), (8168, 8169, 1, -8), (8170, 8171, 1, -112), (8172, 8172, 1, -7),
   (8184, 8185, 1, -128), (8186, 8187, 1, -126), (8188, 8188, 1, -9), (8486, 8486, 1, -7517),
   (8490, 8490, 1, -8383), (8491, 8491, 1, -8262), (8498, 8498, 1, 28), (8544, 8559, 1, 16),
   (8579, 8579, 1, 1), (9398, 9423, 1, 26), (11264, 11311, 1, 48), (11360, 11360, 1, 1),
   (11362, 11362, 1, -10743), (11363, 11363, 1, -3814), (11364, 11364, 1, -10727),
   (11367, 11371, 2, 1), (11373, 11373, 1, -10780), (11374, 11374, 1, -10749),
   (11375, 11375, 1, -10783), (11376, 11376, 1, -10782), (11378, 11378, 1, 1),
   (11381, 11381, 1, 1), (11390, 11391, 1, -10815), (11392, 11490, 2, 1), (11499, 11501, 2, 1),
   (11506, 11506, 1, 1), (42560, 42604, 2, 1), (42624, 42650, 2, 1), (42786, 42798, 2, 1),
   (42802, 42862, 2, 1), (42873, 42875, 2, 1), (42877, 42877, 1, -35332), (42878, 42886, 2, 1),
   (42891, 42891, 1, 1), (42893, 42893, 1, -42280), (42896, 42898, 2, 1), (42902, 42920, 2, 1),
   (42922, 42922, 1, -42308), (42923, 42923, 1, -42319), (42924, 42924, 1, -42315),
   (42925, 42925, 1, -42305), (42926, 42926, 1, -42308), (42928, 42928, 1, -42258),
   (42929, 42929, 1, -42282), (42930, 42930, 1, -42261), (42931, 42931, 1, 928),
   (42932, 42946, 2, 1), (42948, 42948, 1, -48), (42949, 42949, 1, -42307),
   (42950, 42950, 1, -35384), (42951, 42953, 2, 1), (42960, 42960, 1, 1), (42966, 42968, 2, 1),
   (42997, 42997, 1, 1), (43888, 43967, 1, -38864), (65313, 65338, 1, 32), (66560, 66599, 1, 40),
   (66736, 66771, 1, 40), (66928, 66964, 2, 39), (66929, 66938, 1, 39), (66941, 66954, 1, 39),
   (66957, 66962, 1, 39), (66965, 66965, 1, 39), (68736, 68786, 1, 64), (71840, 71871, 1, 32),
   (93760, 93791, 1, 32), (125184, 125217, 1, 34)]

/-- The case folding of one character (`QChar::toCaseFolded`). -/
def foldChar (c : Char) : Char :=
  match caseFoldRows.find?
      (fun r => r.1 ≤ c.toNat && c.toNat ≤ r.2.1 && (c.toNat - r.1) % r.2.2.1 = 0) with
  | some r => Char.ofNat ((c.toNat : Int) + r.2.2.2).toNat
  | none => c

/-- Case folding of a text, character by character: two texts are equal under
`Qt::CaseInsensitive` comparison when their foldings are equal. -/
def foldCase (s : QString) : QString := s.map foldChar

/-! ## Data structures -/

/-- One set of an exercise (`struct ExerciseSet`). -/
structure ExerciseSet where
  reps : Int
  weight : ℚ
deriving DecidableEq

/-- A named exercise with its sets (`struct Exercise`). -/
structure Exercise where
  name : QString
  sets : List ExerciseSet
deriving DecidableEq

/-- A strength workout (`struct StrengthWorkout`). -/
structure StrengthWorkout where
  date : QString
  exercises : List Exercise
  calories : ℚ
deriving DecidableEq

/-- A cardio workout (`struct CardioWorkout`). -/
structure CardioWorkout where
  date : QString
  type : QString
  duration : Int
  distance : ℚ
  calories : ℚ
  avgSpeed : ℚ
deriving DecidableEq

/-- A bodyweight entry (`struct BodyweightLog`). -/
structure BodyweightLog where
  date : QString
  weight : ℚ
deriving DecidableEq

/-- A goal (`struct Goal`), with the member initialisers of the source as
defaults. -/
structure Goal where
  name : QString := []
  type : QString := []
  target : ℚ := 0
  progress : ℚ := 0
  targetTime : Int := 0
  progressTime : Int := 0
  exerciseName : QString := []
  exWeight : ℚ := 0
  exSets : Int := 0
  exReps : Int := 0
deriving DecidableEq

/-- The profile of the account (`struct UserProfile`). -/
structure UserProfile where
  username : QString := []
  name : QString := []
  gender : QString := []
  weight : ℚ := 0
  targetBodyweight : ℚ := 0
  height : ℚ := 0
  age : Int := 0
deriving DecidableEq

/-- The data members of `FitTrackPro` that the engine reads and writes: the
profile, the four collections, the exercises of the workout being entered and
the pending user of the sign-up flow. -/
structure State where
  user : UserProfile := {}
  cardio : List CardioWorkout := []
  strength : List StrengthWorkout := []
  weightLogs : List BodyweightLog := []
  goals : List Goal := []
  curEx : List Exercise := []
  pUser : QString := []
  pName : QString := []
deriving DecidableEq

/-- The backing files: for a file name, `none` when the file cannot be opened
for reading, else its lines. -/
abbrev Files := QString → Option (List QString)

/-- The file `kind_<username>.dat`. -/
def fileName (kind : QString) (u : QString) : QString := kind ++ u ++ ".dat".data

/-! ## saveData: the lines written -/

/-- The profile line `gender|weight|targetBodyweight|height|age`. -/
def profileLine (u : UserProfile) : QString :=
  u.gender ++ ['|'] ++ showReal u.weight ++ ['|'] ++ showReal u.targetBodyweight
    ++ ['|'] ++ showReal u.height ++ ['|'] ++ showInt u.age

/-- The cardio line `date|type|duration|distance|calories|avgSpeed`. -/
def cardioLine (w : CardioWorkout) : QString :=
  w.date ++ ['|'] ++ w.type ++ ['|'] ++ showInt w.duration ++ ['|']
    ++ showReal w.distance ++ ['|'] ++ showReal w.calories ++ ['|'] ++ showReal w.avgSpeed

/-- One set entry `REPSxWEIGHT`. -/
def setText (s : ExerciseSet) : QString := showInt s.reps ++ ['x'] ++ showReal s.weight

/-- The sets of an exercise, a comma after every entry but the last. -/
def setsText : List ExerciseSet → QString
  | [] => []
  | [s] => setText s
  | s :: t => setText s ++ [','] ++ setsText t

/-- One exercise entry `name:sets`. -/
def exerciseText (ex : Exercise) : QString := ex.name ++ [':'] ++ setsText ex.sets

/-- The exercises of a workout, a semicolon after every entry but the last. -/
def exercisesText : List Exercise → QString
  | [] => []
  | [e] => exerciseText e
  | e :: t => exerciseText e ++ [';'] ++ exercisesText t

/-- The strength line `date|calories|exercises`. -/
def strengthLine (w : StrengthWorkout) : QString :=
  w.date ++ ['|'] ++ showReal w.calories ++ ['|'] ++ exercisesText w.exercises

/-- The bodyweight line `date|weight`. -/
def weightLine (b : BodyweightLog) : QString := b.date ++ ['|'] ++ showReal b.weight

/-- The goal line, always in the ten-field shape. -/
def goalLine (g : Goal) : QString :=
  g.name ++ ['|'] ++ g.type ++ ['|'] ++ showReal g.target ++ ['|']
    ++ showReal g.progress ++ ['|'] ++ showInt g.targetTime ++ ['|']
    ++ showInt g.progressTime ++ ['|'] ++ g.exerciseName ++ ['|']
    ++ showReal g.exWeight ++ ['|'] ++ showInt g.exSets ++ ['|'] ++ showInt g.exReps

/-- The text `saveData` writes to a file opened without text translation:
every line followed by a line feed (`out << ... << "\n"`). -/
def fileText (lines : List QString) : QString :=
  lines.foldr (fun l t => l ++ '\n' :: t) []

/-- Replace the content of one file. -/
def writeFile (fs : Files) (name : QString) (lines : List QString) : Files :=
  fun n => if n = name then some lines else fs n

/-- The function `saveData`: every backing file of the account is rewritten in
full from the in-memory state. -/
def saveData (st : State) (fs : Files) : Files :=
  let u := st.user.username
  let fs1 := writeFile fs (fileName "profile_".data u) [profileLine st.user]
  let fs2 := writeFile fs1 (fileName "cardio_".data u) (st.cardio.map cardioLine)
  let fs3 := writeFile fs2 (fileName "strength_".data u) (st.strength.map strengthLine)
  let fs4 := writeFile fs3 (fileName "weight_".data u) (st.weightLogs.map weightLine)
  writeFile fs4 (fileName "goals_".data u) (st.goals.map goalLine)

/-! ## loadData: the loop bodies -/

/-- Body of the profile branch of `loadData`: the first line of the file sets
five profile fields when it has at least five parts. -/
def loadProfileLine (user : UserProfile) (line : QString) : UserProfile :=
  let p := split '|' line
  if 5 ≤ p.length then
    { user with gender := part p 0, weight := toDouble (part p 1),
                targetBodyweight := toDouble (part p 2), height := toDouble (part p 3),
                age := toInt (part p 4) }
  else user

/-- Body of the cardio loop of `loadData` for one line. -/
def loadCardioLine (cardio : List CardioWorkout) (line : QString) : List CardioWorkout :=
  let p := split '|' line
  if 6 ≤ p.length then
    cardio ++ [{ date := part p 0, type := part p 1, duration := toInt (part p 2),
                 distance := toDouble (part p 3), calories := toDouble (part p 4),
                 avgSpeed := toDouble (part p 5) }]
  else cardio

/-- Body of the innermost strength loop: one set entry. -/
def loadSetEntry (sets : List ExerciseSet) (ss : QString) : List ExerciseSet :=
  let sp := split 'x' ss
  if 2 ≤ sp.length then sets ++ [{ reps := toInt (part sp 0), weight := toDouble (part sp 1) }]
  else sets

/-- Body of the exercise loop: one exercise entry. -/
def loadExerciseEntry (exercises : List Exercise) (es : QString) : List Exercise :=
  let ep := split ':' es
  if 2 ≤ ep.length then
    exercises ++ [{ name := part ep 0, sets := (split ',' (part ep 1)).foldl loadSetEntry [] }]
  else exercises

/-- Body of the strength loop of `loadData` for one line (the inner tests
`p.size() >= 2` and `p.size() >= 3` of the source hold under the outer one). -/
def loadStrengthLine (strength : List StrengthWorkout) (line : QString) : List StrengthWorkout :=
  let p := split '|' line
  if 3 ≤ p.length then
    strength ++ [{ date := part p 0, calories := toDouble (part p 1),
                   exercises := (split ';' (part p 2)).foldl loadExerciseEntry [] }]
  else strength

/-- Body of the bodyweight loop of `loadData` for one line. -/
def loadWeightLine (weightLogs : List BodyweightLog) (line : QString) : List BodyweightLog :=
  let p := split '|' line
  if 2 ≤ p.length then weightLogs ++ [{ date := part p 0, weight := toDouble (part p 1) }]
  else weightLogs

/-- Body of the goal loop of `loadData` for one line: the ten-field shape is
tried first, then the six-field one. -/
def loadGoalLine (goals : List Goal) (line : QString) : List Goal :=
  let p := split '|' line
  if 10 ≤ p.length then
    goals ++ [{ name := part p 0, type := part p 1, target := toDouble (part p 2),
                progress := toDouble (part p 3), targetTime := toInt (part p 4),
                progressTime := toInt (part p 5), exerciseName := part p 6,
                exWeight := toDouble (part p 7), exSets := toInt (part p 8),
                exReps := toInt (part p 9) }]
  else if 6 ≤ p.length then
    goals ++ [{ name := part p 0, type := part p 1, target := toDouble (part p 2),
                progress := toDouble (part p 3), targetTime := toInt (part p 4),
                progressTime := toInt (part p 5) }]
  else goals

/-- The end of a line as `QTextStream::readLine` returns it: a carriage return
right before the line feed, or at the end of the text, is dropped with it. -/
def dropCR (l : QString) : QString := if l.getLast? = some '\r' then l.dropLast else l

/-- The read loop `while (!in.atEnd()) in.readLine()` on the rest of a text,
`cur` being the part of the current line already read: a line feed ends the
line, and text after the last line feed is a last line. -/
def readLinesFrom : QString → QString → List QString
  | cur, [] => if cur = [] then [] else [dropCR cur]
  | cur, c :: t =>
    if c = '\n' then dropCR cur :: readLinesFrom [] t else readLinesFrom (cur ++ [c]) t

/-- The lines that the read loops of `loadData` get from the text of a file. -/
def readLines (text : QString) : List QString := readLinesFrom [] text

/-- A read loop over a file: nothing when the file cannot be opened, else the
body applied to each line in file order, starting from the cleared
collection. -/
def readAll {α : Type} (body : List α → QString → List α) (file : Option (List QString)) :
    List α :=
  match file with
  | none => []
  | some lines => lines.foldl body []

/-- The function `loadData`. -/
def loadData (fs : Files) (st : State) : State :=
  let u := st.user.username
  let user :=
    match fs (fileName "profile_".data u) with
    | none => st.user
    | some lines => loadProfileLine st.user (lines.headD [])
  { st with
    user := user
    cardio := readAll loadCardioLine (fs (fileName "cardio_".data u))
    strength := readAll loadStrengthLine (fs (fileName "strength_".data u))
    weightLogs := readAll loadWeightLine (fs (fileName "weight_".data u))
    goals := readAll loadGoalLine (fs (fileName "goals_".data u)) }

/-! ## Arithmetic of `double` and `int` -/

/-- Number of halvings that bring `n` below 2, with `fuel` steps allowed. -/
def log2Aux : Nat → Nat → Nat
  | 0, _ => 0
  | fuel + 1, n => if n < 2 then 0 else log2Aux fuel (n / 2) + 1

/-- The binary logarithm of a positive natural number, rounded down. -/
def ilog2 (n : Nat) : Nat := log2Aux n n

/-- The power `2 ^ k` for an integer exponent. -/
def pow2 (k : Int) : ℚ :=
  if 0 ≤ k then ((2 ^ k.toNat : Nat) : ℚ) else 1 / ((2 ^ (-k).toNat : Nat) : ℚ)

/-- Binary exponent of a rational number other than 0: the `e` with
`2 ^ e ≤ |q| < 2 ^ (e + 1)`. -/
def binExp (q : ℚ) : Int :=
  let e : Int := (ilog2 q.num.natAbs : Int) - (ilog2 q.den : Int)
  if pow2 e ≤ |q| then e else e - 1

/-- Rounding to the nearest integer, a tie going to the even one. -/
def rne (y : ℚ) : Int :=
  if y - ⌊y⌋ < 1 / 2 then ⌊y⌋
  else if 1 / 2 < y - ⌊y⌋ then ⌊y⌋ + 1
  else if ⌊y⌋ % 2 = 0 then ⌊y⌋ else ⌊y⌋ + 1

/-- Exponent of the unit in the last place of the `double` nearest to `q`: 52
below the binary exponent, which is taken as -1022 at least (subnormal
numbers). -/
def ulpExp (q : ℚ) : Int := max (binExp q) (-1022) - 52

/-- The `double` (IEEE 754 binary64) nearest to the real number `q`, a tie
going to the even significand: the value every `double` operation of the
program returns for the exact result `q`. The exponent has no upper bound here:
a result of magnitude `2 ^ 1024` or more is an infinity in the program and is
outside the embedding, so the results on `fl` bound the values they round. -/
def fl (q : ℚ) : ℚ := if q = 0 then 0 else (rne (q / pow2 (ulpExp q)) : ℚ) * pow2 (ulpExp q)

/-- The value an `int` holds after an addition whose exact result is `n`:
the result reduced to 32 bits in two's complement. C++ leaves an overflow of
`int` undefined; the reduction is what the processors Qt runs on produce. -/
def wrapInt (n : Int) : Int := (n + 2147483648) % 4294967296 - 2147483648

/-- The conversion `(int)x` of a `double`: truncation toward zero, and `none`
when the truncated value is not an `int` (the conversion is undefined then). -/
def castInt (x : ℚ) : Option Int :=
  if -2147483648 ≤ (if 0 ≤ x then Int.floor x else Int.ceil x) ∧
      (if 0 ≤ x then Int.floor x else Int.ceil x) ≤ 2147483647 then
    some (if 0 ≤ x then Int.floor x else Int.ceil x)
  else none

/-! ## Calculators and logging actions -/

/-- Division as the program performs it, with a zero divisor made visible:
`none` stands for a division by zero. -/
def fdiv (a b : ℚ) : Option ℚ := if b = 0 then none else some (a / b)

/-- The function `calcCardioCal`, reading the profile weight. -/
def calcCardioCal (user : UserProfile) (t : QString) (d : Int) : ℚ :=
  let met : ℚ :=
    if t = "Running".data then 9.8
    else if t = "Swimming".data then 8.0
    else if t = "Walking".data then 3.5 else 7.5
  met * (if user.weight > 0 then user.weight else 70) * ((d : ℚ) / 60.0)

/-- The function `calcStrCal`, reading the profile weight. -/
def calcStrCal (user : UserProfile) (v : ℚ) : ℚ :=
  5.0 * (if user.weight > 0 then user.weight else 70) * 0.15 + v * 0.01

/-- The volume loop `for e : exercises, for s : e.sets, v += s.reps * s.weight`
started from `v`. -/
def addVolume (v : ℚ) (exercises : List Exercise) : ℚ :=
  exercises.foldl (fun v e => e.sets.foldl (fun v s => v + (s.reps : ℚ) * s.weight) v) v

/-- The expression stored as `avgSpeed` by `saveCardio`. -/
def avgSpeedOf (distance : ℚ) (duration : Int) : Option ℚ :=
  if duration > 0 then fdiv (distance * 60.0) (duration : ℚ) else some 0.0

/-- Body of the goal loop of `saveCardio` for one goal: `progress` is a
`double` and `progressTime` an `int`, and the two additions are those of the
machine. -/
def cardioGoalUpdate (w : CardioWorkout) (g : Goal) : Goal :=
  if g.type = "cardio_km".data then
    let g1 := { g with progress := fl (g.progress + w.distance) }
    if g1.targetTime > 0 then
      { g1 with progressTime := wrapInt (g1.progressTime + w.duration) }
    else g1
  else g

/-- The flag `achievedThisWorkout` of `saveStrength` for one goal: some exercise
of the workout carries the goal's exercise name up to case, has at least
`exSets` sets and a set that reaches both `exReps` and `exWeight`. -/
def achievedThisWorkout (w : StrengthWorkout) (g : Goal) : Bool :=
  w.exercises.any (fun e =>
    decide (foldCase e.name = foldCase g.exerciseName) &&
      (decide (g.exSets ≤ (e.sets.length : Int)) &&
        e.sets.any (fun s => decide (g.exReps ≤ s.reps) && decide (g.exWeight ≤ s.weight))))

/-- Body of the goal loop of `saveStrength` for one goal; the addition is that
of `double`. -/
def strengthGoalUpdate (w : StrengthWorkout) (g : Goal) : Goal :=
  if g.type = "strength_exercise".data ∧ g.exerciseName ≠ [] then
    if achievedThisWorkout w g then { g with progress := fl (g.progress + 1) } else g
  else g

/-- The action `saveCardio` on the entered date text, type, duration and
distance: the new state and files, or `none` if a division by zero were
evaluated. -/
def saveCardio (date type : QString) (duration : Int) (distance : ℚ) (st : State) (fs : Files) :
    Option (State × Files) :=
  match avgSpeedOf distance duration with
  | none => none
  | some avg =>
    let w : CardioWorkout :=
      { date := date, type := type, duration := duration, distance := distance,
        calories := calcCardioCal st.user type duration, avgSpeed := avg }
    let st1 := { st with cardio := st.cardio ++ [w], goals := st.goals.map (cardioGoalUpdate w) }
    some (st1, saveData st1 fs)

/-- The action `saveStrength` on the entered date text; with no exercise in
the current workout it warns and changes nothing. -/
def saveStrength (date : QString) (st : State) (fs : Files) : State × Files :=
  match st.curEx with
  | [] => (st, fs)
  | _ :: _ =>
    let w : StrengthWorkout :=
      { date := date, exercises := st.curEx, calories := calcStrCal st.user (addVolume 0 st.curEx) }
    let st1 := { st with strength := st.strength ++ [w],
                         goals := st.goals.map (strengthGoalUpdate w), curEx := [] }
    (st1, saveData st1 fs)

/-! ## refresh: the BMI labels -/

/-- Specification of the BMI as C10 words it: `weight / (height / 100) ^ 2`. -/
def bmiClaimed (user : UserProfile) : ℚ := user.weight / (user.height / 100) ^ 2

/-- The value `bmi` of `refresh`, each of the four operations of
`user.weight / ((user.height/100)*(user.height/100))` rounded to a `double`;
`none` stands for a division by zero. -/
def refreshBmi (user : UserProfile) : Option ℚ :=
  if user.height > 0 then
    (fdiv user.weight (fl (fl (user.height / 100) * fl (user.height / 100)))).map fl
  else some 0

/-- The text set on `bmiLbl` for a value of `bmi`. -/
def bmiLblText (bmi : ℚ) : QString := if bmi > 0 then numberF1 bmi else "--".data

/-- The local `cat` of `refresh` for a value of `bmi`. -/
def bmiCategory (bmi : ℚ) : QString :=
  if bmi > 0 then
    if bmi < 18.5 then "Underweight".data
    else if bmi < 25 then "Normal".data
    else if bmi < 30 then "Overweight".data
    else "Obese".data
  else "N/A".data

/-- The texts `refresh` sets on `bmiLbl` and `bmiCat`; `none` stands for a
division by zero. -/
def refreshBmiLabels (user : UserProfile) : Option (QString × QString) :=
  match refreshBmi user with
  | none => none
  | some bmi => some (bmiLblText bmi, "Category: ".data ++ bmiCategory bmi)

/-! ## Validity of records, as the specification words it -/

/-- The shape `yyyy-MM-dd` of an ISO date text: ten characters, digits except
for the two hyphens. -/
def isIsoDate (s : QString) : Bool :=
  match s with
  | [y1, y2, y3, y4, h1, m1, m2, h2, d1, d2] =>
    isDigit y1 && isDigit y2 && isDigit y3 && isDigit y4 && decide (h1 = '-') &&
      isDigit m1 && isDigit m2 && decide (h2 = '-') && isDigit d1 && isDigit d2
  | _ => false

/-- A value of C++ type `int`. -/
def isInt32 (n : Int) : Prop := -2147483648 ≤ n ∧ n ≤ 2147483647

/-- Characters of a number text. -/
def isNumChar (c : Char) : Bool :=
  isDigit c || c = '.' || c = '-' || c = '+' || c = 'e'

/-- A real value that the six-significant-digit text form gives back
unchanged. -/
def survivesText (x : ℚ) : Prop := toDouble (showReal x) = x

instance (x : ℚ) : Decidable (survivesText x) :=
  inferInstanceAs (Decidable (toDouble (showReal x) = x))

/-- A real of at most six significant decimal digits: plus or minus a natural
number below one million times a power of ten. -/
def atMostSixDigits (x : ℚ) : Prop :=
  ∃ (m : Nat) (k : Int), m < 1000000 ∧ (x = (m : ℚ) * (10 : ℚ) ^ k ∨ x = -((m : ℚ) * (10 : ℚ) ^ k))

/-- The sum of `reps * weight` over all sets of all exercises. -/
def volume (exercises : List Exercise) : ℚ :=
  (exercises.map (fun e => (e.sets.map (fun s => (s.reps : ℚ) * s.weight)).sum)).sum

/-- A set that the strength line gives back: `reps` is an `int` and the
weight survives the text form. -/
def setSafe (s : ExerciseSet) : Prop := isInt32 s.reps ∧ survivesText s.weight

/-- An exercise that the strength line gives back: no separator of the
enclosing levels in its name, and safe sets. -/
def exerciseSafe (e : Exercise) : Prop :=
  '|' ∉ e.name ∧ ';' ∉ e.name ∧ ':' ∉ e.name ∧ ∀ s ∈ e.sets, setSafe s

/-- A strength workout that its line gives back. -/
def strengthSafe (w : StrengthWorkout) : Prop :=
  '|' ∉ w.date ∧ survivesText w.calories ∧ ∀ e ∈ w.exercises, exerciseSafe e

/-- A valid strength workout in the words of the specification: an ISO date,
non-empty exercise names, `reps ≥ 0` and `weight ≥ 0` in every set. -/
def validStrength (w : StrengthWorkout) : Prop :=
  isIsoDate w.date = true ∧
    ∀ e ∈ w.exercises, e.name ≠ [] ∧ ∀ s ∈ e.sets, 0 ≤ s.reps ∧ 0 ≤ s.weight

/-- A cardio workout that its line gives back: no `|` in the texts, an `int`
duration, real fields that survive the text form. -/
def cardioSafe (r : CardioWorkout) : Prop :=
  '|' ∉ r.date ∧ '|' ∉ r.type ∧ isInt32 r.duration ∧ survivesText r.distance ∧
    survivesText r.calories ∧ survivesText r.avgSpeed

/-- A valid cardio workout in the words of the specification: an ISO date, one
of the four types, `duration > 0` and `distance > 0`. -/
def validCardio (r : CardioWorkout) : Prop :=
  isIsoDate r.date = true ∧
    (r.type = "Running".data ∨ r.type = "Cycling".data ∨ r.type = "Swimming".data ∨
      r.type = "Walking".data) ∧ 0 < r.duration ∧ 0 < r.distance

/-- A goal that its line gives back: no `|` in the three texts, `int` counters,
real fields that survive the text form. -/
def goalSafe (g : Goal) : Prop :=
  '|' ∉ g.name ∧ '|' ∉ g.type ∧ '|' ∉ g.exerciseName ∧
    survivesText g.target ∧ survivesText g.progress ∧ survivesText g.exWeight ∧
    isInt32 g.targetTime ∧ isInt32 g.progressTime ∧ isInt32 g.exSets ∧ isInt32 g.exReps

/-- A valid goal in the words of the specification: one of the two types, and
`int` values in the integer fields. -/
def validGoal (g : Goal) : Prop :=
  (g.type = "cardio_km".data ∨ g.type = "strength_exercise".data) ∧
    isInt32 g.targetTime ∧ isInt32 g.progressTime ∧ isInt32 g.exSets ∧ isInt32 g.exReps

instance (n : Int) : Decidable (isInt32 n) :=
  inferInstanceAs (Decidable (-2147483648 ≤ n ∧ n ≤ 2147483647))

instance (w : StrengthWorkout) : Decidable (validStrength w) :=
  inferInstanceAs (Decidable (isIsoDate w.date = true ∧
    ∀ e ∈ w.exercises, e.name ≠ [] ∧ ∀ s ∈ e.sets, 0 ≤ s.reps ∧ 0 ≤ s.weight))

instance (r : CardioWorkout) : Decidable (validCardio r) :=
  inferInstanceAs (Decidable (isIsoDate r.date = true ∧
    (r.type = "Running".data ∨ r.type = "Cycling".data ∨ r.type = "Swimming".data ∨
      r.type = "Walking".data) ∧ 0 < r.duration ∧ 0 < r.distance))

instance (g : Goal) : Decidable (validGoal g) :=
  inferInstanceAs (Decidable ((g.type = "cardio_km".data ∨ g.type = "strength_exercise".data) ∧
    isInt32 g.targetTime ∧ isInt32 g.progressTime ∧ isInt32 g.exSets ∧ isInt32 g.exReps))

/-! ## The codec of the specification, for comparison with the loops -/

/-- Specification, cardio grammar `date|type|duration|distance|calories|avgSpeed`:
the record read from the parts of a line. -/
def decodeCardio (p : List QString) : CardioWorkout :=
  { date := part p 0, type := part p 1, duration := toInt (part p 2),
    distance := toDouble (part p 3), calories := toDouble (part p 4),
    avgSpeed := toDouble (part p 5) }

/-- Specification, strength grammar `date|calories|exercises`: the record read
from the parts of a line, the exercises by the nested loops of the source. -/
def decodeStrength (p : List QString) : StrengthWorkout :=
  { date := part p 0, calories := toDouble (part p 1),
    exercises := (split ';' (part p 2)).foldl loadExerciseEntry [] }

/-- Specification, bodyweight grammar `date|weight`. -/
def decodeWeight (p : List QString) : BodyweightLog :=
  { date := part p 0, weight := toDouble (part p 1) }

/-- Specification, full goal shape: ten fields
`name|type|target|progress|targetTime|progressTime|exerciseName|exWeight|exSets|exReps`. -/
def fullGoal (p : List QString) : Goal :=
  { name := part p 0, type := part p 1, target := toDouble (part p 2),
    progress := toDouble (part p 3), targetTime := toInt (part p 4),
    progressTime := toInt (part p 5), exerciseName := part p 6,
    exWeight := toDouble (part p 7), exSets := toInt (part p 8), exReps := toInt (part p 9) }

/-- Specification, legacy goal shape: six fields
`name|type|target|progress|targetTime|progressTime`, the strength-specific
fields defaulted to empty and zero. -/
def legacyGoal (p : List QString) : Goal :=
  { name := part p 0, type := part p 1, target := toDouble (part p 2),
    progress := toDouble (part p 3), targetTime := toInt (part p 4),
    progressTime := toInt (part p 5), exerciseName := [], exWeight := 0, exSets := 0,
    exReps := 0 }

/-- Specification: the ten-field shape is tried first, then the six-field
one. -/
def decodeGoal (p : List QString) : Goal :=
  if 10 ≤ p.length then fullGoal p else legacyGoal p

/-! ## Dates (the `QDate` calls of `refresh`) -/

/-- Leap years of the Gregorian calendar. -/
def isLeapYear (y : Nat) : Bool := y % 4 = 0 && (y % 100 ≠ 0 || y % 400 = 0)

/-- Number of days of a month, 0 for a month number outside 1..12. -/
def daysInMonth (y m : Nat) : Nat :=
  match m with
  | 1 => 31 | 2 => if isLeapYear y then 29 else 28 | 3 => 31 | 4 => 30 | 5 => 31 | 6 => 30
  | 7 => 31 | 8 => 31 | 9 => 30 | 10 => 31 | 11 => 30 | 12 => 31 | _ => 0

/-- Julian day number of a Gregorian date with `y ≥ 1`, the value a `QDate`
stores. -/
def julianDay (y m d : Nat) : Int :=
  let a := (14 - m) / 12
  let yy := y + 4800 - a
  let mm := m + 12 * a - 3
  ((d + (153 * mm + 2) / 5 + 365 * yy + yy / 4 + yy / 400 : Nat) : Int) - ((yy / 100 : Nat) : Int)
    - 32045

/-- The call `QDate::fromString(s, "yyyy-MM-dd")`: `none` for an invalid date,
else the Julian day of the date. The text must be four year digits, a hyphen,
two month digits, a hyphen and two day digits, and name a day that exists. -/
def fromString (s : QString) : Option Int :=
  match s with
  | [y1, y2, y3, y4, h1, m1, m2, h2, d1, d2] =>
    if h1 = '-' ∧ h2 = '-' then
      match parseDigits [y1, y2, y3, y4] 0, parseDigits [m1, m2] 0, parseDigits [d1, d2] 0 with
      | some y, some m, some d =>
        if 1 ≤ y ∧ 1 ≤ m ∧ m ≤ 12 ∧ 1 ≤ d ∧ d ≤ daysInMonth y m then some (julianDay y m d)
        else none
      | _, _, _ => none
    else none
  | _ => none

/-- The call `d.daysTo(today)` on Julian days. The program stores it in an
`int`; the dates `fromString` accepts have four-digit years, so for any current
date within five million years of them the difference fits and the narrowing
is left out. -/
def daysTo (d today : Int) : Int := today - d

/-- The call `today.addDays(n)`. -/
def addDays (today n : Int) : Int := today + n

/-! ## refresh: weekly aggregation -/

/-- The update `v[idx] += x` of a vector. -/
def addAt : List ℚ → Nat → ℚ → List ℚ
  | [], _, _ => []
  | a :: t, 0, x => (a + x) :: t
  | a :: t, i + 1, x => a :: addAt t i x

/-- The locals of the cardio loop of `refresh`. -/
structure CardioWeek where
  cardioPerDay : List ℚ
  cardioKmWeek : ℚ
  cardioCaloriesWeek : ℚ
deriving DecidableEq

/-- Body of the cardio loop of `refresh` for one record. -/
def cardioStep (today : Int) (a : CardioWeek) (w : CardioWorkout) : CardioWeek :=
  match fromString w.date with
  | none => a
  | some d =>
    let days := daysTo d today
    let a1 : CardioWeek :=
      if 0 ≤ days ∧ days < 7 then
        { a with cardioPerDay := addAt a.cardioPerDay (6 - days).toNat w.distance }
      else a
    if addDays today (-6) ≤ d ∧ d ≤ today then
      { a1 with cardioKmWeek := a1.cardioKmWeek + w.distance,
                cardioCaloriesWeek := a1.cardioCaloriesWeek + w.calories }
    else a1

/-- The cardio loop of `refresh`, from seven zero buckets and zero totals. -/
def refreshCardio (today : Int) (cardio : List CardioWorkout) : CardioWeek :=
  cardio.foldl (cardioStep today)
    { cardioPerDay := List.replicate 7 0, cardioKmWeek := 0, cardioCaloriesWeek := 0 }

/-- The locals of the strength loop of `refresh`. -/
structure StrengthWeek where
  strengthPerDay : List ℚ
  strengthWorkoutsWeek : Int
  strengthVolumeWeek : ℚ
  strengthCaloriesWeek : ℚ
deriving DecidableEq

/-- Body of the strength loop of `refresh` for one workout. -/
def strengthStep (today : Int) (a : StrengthWeek) (w : StrengthWorkout) : StrengthWeek :=
  match fromString w.date with
  | none => a
  | some d =>
    let days := daysTo d today
    let a1 : StrengthWeek :=
      if 0 ≤ days ∧ days < 7 then
        { a with strengthPerDay :=
                   addAt a.strengthPerDay (6 - days).toNat (addVolume 0 w.exercises) }
      else a
    if addDays today (-6) ≤ d ∧ d ≤ today then
      { a1 with strengthWorkoutsWeek := a1.strengthWorkoutsWeek + 1,
                strengthVolumeWeek := addVolume a1.strengthVolumeWeek w.exercises,
                strengthCaloriesWeek := a1.strengthCaloriesWeek + w.calories }
    else a1

/-- The strength loop of `refresh`. -/
def refreshStrength (today : Int) (strength : List StrengthWorkout) : StrengthWeek :=
  strength.foldl (strengthStep today)
    { strengthPerDay := List.replicate 7 0, strengthWorkoutsWeek := 0, strengthVolumeWeek := 0,
      strengthCaloriesWeek := 0 }

/-- The loop `for (double v : l) s += v` started from 0. -/
def sumD (l : List ℚ) : ℚ := l.foldl (fun s v => fl (s + v)) 0

/-- The update `v[idx] += x` of a vector of `double`. -/
def addAtD : List ℚ → Nat → ℚ → List ℚ
  | [], _, _ => []
  | a :: t, 0, x => fl (a + x) :: t
  | a :: t, i + 1, x => a :: addAtD t i x

/-- Body of the cardio loop of `refresh` for one record, every addition
rounded to a `double` as the program rounds it. -/
def cardioStepD (today : Int) (a : CardioWeek) (w : CardioWorkout) : CardioWeek :=
  match fromString w.date with
  | none => a
  | some d =>
    let days := daysTo d today
    let a1 : CardioWeek :=
      if 0 ≤ days ∧ days < 7 then
        { a with cardioPerDay := addAtD a.cardioPerDay (6 - days).toNat w.distance }
      else a
    if addDays today (-6) ≤ d ∧ d ≤ today then
      { a1 with cardioKmWeek := fl (a1.cardioKmWeek + w.distance),
                cardioCaloriesWeek := fl (a1.cardioCaloriesWeek + w.calories) }
    else a1

/-- The cardio loop of `refresh` in `double` arithmetic, from seven zero
buckets and zero totals. -/
def refreshCardioD (today : Int) (cardio : List CardioWorkout) : CardioWeek :=
  cardio.foldl (cardioStepD today)
    { cardioPerDay := List.replicate 7 0, cardioKmWeek := 0, cardioCaloriesWeek := 0 }

/-- The volume loop `for e : exercises, for s : e.sets, v += s.reps * s.weight`
started from `v`, the product and the sum rounded to a `double`. -/
def addVolumeD (v : ℚ) (exercises : List Exercise) : ℚ :=
  exercises.foldl
    (fun v e => e.sets.foldl (fun v s => fl (v + fl ((s.reps : ℚ) * s.weight))) v) v

/-- Body of the strength loop of `refresh` for one workout, in `double`
arithmetic. -/
def strengthStepD (today : Int) (a : StrengthWeek) (w : StrengthWorkout) : StrengthWeek :=
  match fromString w.date with
  | none => a
  | some d =>
    let days := daysTo d today
    let a1 : StrengthWeek :=
      if 0 ≤ days ∧ days < 7 then
        { a with strengthPerDay :=
                   addAtD a.strengthPerDay (6 - days).toNat (addVolumeD 0 w.exercises) }
      else a
    if addDays today (-6) ≤ d ∧ d ≤ today then
      { a1 with strengthWorkoutsWeek := a1.strengthWorkoutsWeek + 1,
                strengthVolumeWeek := addVolumeD a1.strengthVolumeWeek w.exercises,
                strengthCaloriesWeek := fl (a1.strengthCaloriesWeek + w.calories) }
    else a1

/-- The strength loop of `refresh` in `double` arithmetic. -/
def refreshStrengthD (today : Int) (strength : List StrengthWorkout) : StrengthWeek :=
  strength.foldl (strengthStepD today)
    { strengthPerDay := List.replicate 7 0, strengthWorkoutsWeek := 0, strengthVolumeWeek := 0,
      strengthCaloriesWeek := 0 }

/-- Body of the loop that fills the map `weightByDate`: an entry with a valid
date overwrites the value stored for its date. -/
def weightByDateStep (m : Int → Option ℚ) (b : BodyweightLog) : Int → Option ℚ :=
  match fromString b.date with
  | none => m
  | some d => fun k => if k = d then some b.weight else m k

/-- The map `weightByDate` of `refresh`. -/
def weightByDate (weightLogs : List BodyweightLog) : Int → Option ℚ :=
  weightLogs.foldl weightByDateStep (fun _ => none)

/-- The vector `weightPerDay` of `refresh`: for `i` from 0 to 6 the value
stored for `today.addDays(i - 6)`, 0 when the map has none. -/
def weightPerDay (today : Int) (weightLogs : List BodyweightLog) : List ℚ :=
  (List.range 7).map (fun (i : Nat) =>
    match weightByDate weightLogs (addDays today ((i : Int) - 6)) with
    | some w => w
    | none => 0.0)

/-- The function `qRound`: `int(d + 0.5)` for `d ≥ 0`, the sum being a
`double`; below 0 the branch `int(d - 0.5)` of Qt 6, which no result here
relies on. -/
def qRound (d : ℚ) : Option Int :=
  if 0 ≤ d then castInt (fl (d + 0.5)) else castInt (fl (d - 0.5))

/-- The function `qBound(min, val, max)`. -/
def qBound (lo val hi : Int) : Int := max lo (min hi val)

/-- The local `cardioTarget` of `refresh`. -/
def cardioTargetOf (goals : List Goal) : ℚ :=
  goals.foldl (fun cardioTarget g =>
    if g.type = "cardio_km".data then (if g.target > 0 then g.target else cardioTarget)
    else cardioTarget) 20.0

/-- The local `cardioSum` of `refresh`: the buckets added up from 0. -/
def cardioSumOf (cardioPerDay : List ℚ) : ℚ := sumD cardioPerDay

/-- The quotient `cardioSum * 100.0 / cardioTarget` of `refresh`, a `double`. -/
def cardioQuot (cardioSum cardioTarget : ℚ) : ℚ := fl (fl (cardioSum * 100.0) / cardioTarget)

/-- The local `cardioPct` of `refresh`, the value of the cardio progress bar;
`none` stands for a conversion to `int` that is undefined. -/
def cardioPct (today : Int) (cardio : List CardioWorkout) (goals : List Goal) : Option Int :=
  let cardioTarget := cardioTargetOf goals
  let cardioSum := cardioSumOf (refreshCardioD today cardio).cardioPerDay
  if cardioTarget > 0 then
    (qRound (cardioQuot cardioSum cardioTarget)).map (fun r => qBound 0 r 100)
  else some 0

/-- The local `strengthTarget` of `refresh`; `none` stands for the result of a
conversion `(int)g.target` that is undefined. -/
def strengthTargetOf (goals : List Goal) : Option Int :=
  goals.foldl (fun strengthTarget g =>
    if g.type = "strength_exercise".data then
      (if g.target > 0 then castInt g.target else strengthTarget).map (fun t => max 1 t)
    else strengthTarget) (some 3)

/-- The local `strengthPct` of `refresh`, the value of the strength progress
bar; `none` stands for a conversion to `int` that is undefined. -/
def strengthPct (today : Int) (strength : List StrengthWorkout) (goals : List Goal) :
    Option Int :=
  (strengthTargetOf goals).bind (fun strengthTarget =>
    let n := (refreshStrengthD today strength).strengthWorkoutsWeek
    if strengthTarget > 0 then
      (qRound (fl (fl ((n : ℚ) * 100.0) / (strengthTarget : ℚ)))).map
        (fun r => qBound 0 r 100)
    else some 0)

/-! ## The weekly percentages of the specification, for comparison -/

/-- Specification: a record is dated within `[today - 6, today]` when its date
text is a valid date in that inclusive range. -/
def inWeek (today : Int) (date : QString) : Bool :=
  match fromString date with
  | some d => decide (today - 6 ≤ d ∧ d ≤ today)
  | none => false

/-- Specification of the cardio percentage as C17 words it:
`round(min(100, 100 * S / T))` on the sum `S` and the target `T`. -/
def cardioPctClaimed (s t : ℚ) : Int := round (min (100 : ℚ) (100 * s / t))

/-- Specification of the strength target as C18 words it: 3 when no
`strength_exercise` goal has a positive target, else `max(1, target)` of the
last such goal in list order. -/
def strengthTargetClaimed (goals : List Goal) : ℚ :=
  (((goals.filter
      (fun g => decide (g.type = "strength_exercise".data ∧ 0 < g.target))).getLast?).map
      (fun g => max 1 g.target)).getD 3

/-- Specification of the strength percentage as C18 words it:
`round(min(100, 100 * N / T))` with `N` the number of workouts dated within
the week and `T` the claimed target. -/
def strengthPctClaimed (today : Int) (strength : List StrengthWorkout) (goals : List Goal) :
    Int :=
  round (min (100 : ℚ)
    (100 * ((strength.filter (fun w => inWeek today w.date)).length : ℚ)
      / strengthTargetClaimed goals))

/-! ## The remaining actions -/

/-- The action `saveBodyweight` on the entered date text and weight: the entry
is appended and the profile weight is set to the logged weight. -/
def saveBodyweight (date : QString) (weight : ℚ) (st : State) (fs : Files) : State × Files :=
  let b : BodyweightLog := { date := date, weight := weight }
  let st1 := { st with weightLogs := st.weightLogs ++ [b],
                       user := { st.user with weight := b.weight } }
  (st1, saveData st1 fs)

/-- The action `delCardio` on the current row `r` of the table (-1 when no row
is selected). -/
def delCardio (r : Int) (st : State) (fs : Files) : State × Files :=
  if 0 ≤ r ∧ r < (st.cardio.length : Int) then
    let st1 := { st with cardio := st.cardio.eraseIdx r.toNat }
    (st1, saveData st1 fs)
  else (st, fs)

/-- The action `delStrength` on the current row `r`. -/
def delStrength (r : Int) (st : State) (fs : Files) : State × Files :=
  if 0 ≤ r ∧ r < (st.strength.length : Int) then
    let st1 := { st with strength := st.strength.eraseIdx r.toNat }
    (st1, saveData st1 fs)
  else (st, fs)

/-- The action `delBodyweight` on the current row `r`. -/
def delBodyweight (r : Int) (st : State) (fs : Files) : State × Files :=
  if 0 ≤ r ∧ r < (st.weightLogs.length : Int) then
    let st1 := { st with weightLogs := st.weightLogs.eraseIdx r.toNat }
    (st1, saveData st1 fs)
  else (st, fs)

/-- The action `delGoal` on the current row `r`. -/
def delGoal (r : Int) (st : State) (fs : Files) : State × Files :=
  if 0 ≤ r ∧ r < (st.goals.length : Int) then
    let st1 := { st with goals := st.goals.eraseIdx r.toNat }
    (st1, saveData st1 fs)
  else (st, fs)

/-- The set built by `addExercise` from one row of the sets table: the value
of the reps widget (0 when the cell holds none) and the common weight, replaced
by the row's own weight when per-set weights are switched on and the cell holds
a weight widget. -/
def rowSet (exWeight : ℚ) (perSet : Bool) (row : Option Int × Option ℚ) : ExerciseSet :=
  { reps := row.1.getD 0,
    weight := if perSet then row.2.getD exWeight else exWeight }

/-- The action `addExercise` on the text of the name field, the rows of the
sets table, the common weight and the per-set switch; with a name that is empty
after trimming it warns and changes nothing. It does not call `saveData`. -/
def addExercise (exName : QString) (rows : List (Option Int × Option ℚ)) (exWeight : ℚ)
    (perSet : Bool) (st : State) : State :=
  let n := trimmed exName
  match n with
  | [] => st
  | _ :: _ =>
    let ex : Exercise :=
      { name := n,
        sets := rows.foldl (fun sets row => sets ++ [rowSet exWeight perSet row]) [] }
    { st with curEx := st.curEx ++ [ex] }

/-- The action `addGoal` on the values of the goal form: the text of the name
field, the index of the type box (0 for Cardio), the target and time limit
(cardio), and the exercise-name text, weight, sets and reps (strength). It
warns and changes nothing when the name, or for a strength goal the exercise
name, is empty after trimming. -/
def addGoal (goalName : QString) (idx : Int) (target : ℚ) (targetTime : Int)
    (goalExName : QString) (goalExWeight : ℚ) (goalExSets goalExReps : Int)
    (st : State) (fs : Files) : State × Files :=
  let n := trimmed goalName
  match n with
  | [] => (st, fs)
  | _ :: _ =>
    let g : Goal := { name := n, progress := 0, targetTime := 0, progressTime := 0 }
    if idx = 0 then
      let g1 := { g with type := "cardio_km".data, target := target, targetTime := targetTime }
      let st1 := { st with goals := st.goals ++ [g1] }
      (st1, saveData st1 fs)
    else
      let g1 := { g with type := "strength_exercise".data, exerciseName := trimmed goalExName }
      match g1.exerciseName with
      | [] => (st, fs)
      | _ :: _ =>
        let g2 := { g1 with exWeight := goalExWeight, exSets := goalExSets,
                            exReps := goalExReps, target := 1 }
        let st1 := { st with goals := st.goals ++ [g2] }
        (st1, saveData st1 fs)

/-- The action `doCompleteProfile` on the values of the profile form; the
account is the pending one of the sign-up. -/
def doCompleteProfile (gender : QString) (weight targetBodyweight height : ℚ) (age : Int)
    (st : State) (fs : Files) : State × Files :=
  let st1 := { st with user := { username := st.pUser, name := st.pName, gender := gender,
                                 weight := weight, targetBodyweight := targetBodyweight,
                                 height := height, age := age } }
  (st1, saveData st1 fs)

/-- The action `updateProfile` on the values of the edit form. -/
def updateProfile (gender : QString) (weight targetBodyweight height : ℚ) (age : Int)
    (st : State) (fs : Files) : State × Files :=
  let st1 := { st with user := { st.user with gender := gender, weight := weight,
                                              targetBodyweight := targetBodyweight,
                                              height := height, age := age } }
  (st1, saveData st1 fs)

/-! ## refresh: the goals table and the chart widget -/

/-- Specification of the goal percentage as C21 words it:
`min(100, round(100 * progress / target))` for a positive target, 0 otherwise. -/
def goalPctClaimed (g : Goal) : Int :=
  if g.target > 0 then min 100 (round (100 * g.progress / g.target)) else 0

/-- The quotient `g.progress * 100 / g.target` of the goals table, a `double`;
`none` stands for a division by zero. -/
def goalQuot (g : Goal) : Option ℚ := (fdiv (fl (g.progress * 100)) g.target).map fl

/-- The local `pct` of the goals table of `refresh`; `none` stands for a
division by zero or for a conversion to `int` that is undefined. -/
def goalPct (g : Goal) : Option Int :=
  if g.target > 0 then ((goalQuot g).bind castInt).map (fun t => min 100 t) else some 0

/-- The format text of the progress bar of a goal: `Done` from 100 percent on,
else the percentage followed by a percent sign. -/
def goalStatus (g : Goal) : Option QString :=
  (goalPct g).map (fun pct => if pct ≥ 100 then "Done".data else showInt pct ++ ['%'])

/-- The indices `7 - vals.size() + i` that the loop of
`WeeklyBarChart::setData` writes for an input that has not seven elements, in
loop order (`i` from 0 while `i < vals.size()` and `i < 7`). -/
def setDataIndices (vals : List ℚ) : List Int :=
  (List.range (min vals.length 7)).map (fun (i : Nat) => 7 - (vals.length : Int) + (i : Int))

/-- One write `data[idx] = x`; `none` stands for a write outside the vector. -/
def writeAt (data : List ℚ) (idx : Int) (x : ℚ) : Option (List ℚ) :=
  if 0 ≤ idx ∧ idx < (data.length : Int) then some (data.set idx.toNat x) else none

/-- The function `WeeklyBarChart::setData`: the new value of `data`, or `none`
when a write falls outside the vector. -/
def setData (vals : List ℚ) : Option (List ℚ) :=
  if vals.length = 7 then some vals
  else
    (List.range (min vals.length 7)).foldl
      (fun (data : Option (List ℚ)) (i : Nat) =>
        data.bind (fun d => writeAt d (7 - (vals.length : Int) + (i : Int)) (vals.getD i 0)))
      (some (List.replicate 7 0.0))

/-- Specification: a goal after a logging action is the same goal with
progress and `progressTime` not smaller than before; every other field is
unchanged. -/
def goalGrew (g g1 : Goal) : Prop :=
  g1.name = g.name ∧ g1.type = g.type ∧ g1.target = g.target ∧ g1.targetTime = g.targetTime ∧
    g1.exerciseName = g.exerciseName ∧ g1.exWeight = g.exWeight ∧ g1.exSets = g.exSets ∧
    g1.exReps = g.exReps ∧ g.progress ≤ g1.progress ∧ g.progressTime ≤ g1.progressTime

/-- Specification of delete by index: with `0 ≤ r < length` the element at
position `r` is removed and the others keep their order, otherwise the list is
unchanged. -/
def removeAt {α : Type} (l : List α) (r : Int) : List α :=
  if 0 ≤ r ∧ r < (l.length : Int) then l.take r.toNat ++ l.drop (r.toNat + 1) else l

/-! ## Lemmas on the text layer -/

theorem split_ne_nil (sep : Char) (s : QString) : split sep s ≠ [] := by
  induction s with
  | nil => simp [split]
  | cons c cs ih =>
    unfold split
    split_ifs
    · simp
    · cases h : split sep cs with
      | nil => exact absurd h ih
      | cons p ps => simp

theorem split_of_not_mem (sep : Char) (s : QString) (h : sep ∉ s) : split sep s = [s] := by
  induction s with
  | nil => rfl
  | cons c cs ih =>
    have hc : c ≠ sep := fun e => h (by simp [e])
    have hcs : sep ∉ cs := fun m => h (List.mem_cons_of_mem _ m)
    simp [split, hc, ih hcs]

theorem split_append_sep (sep : Char) (a b : QString) (h : sep ∉ a) :
    split sep (a ++ sep :: b) = a :: split sep b := by
  induction a with
  | nil => simp [split]
  | cons c cs ih =>
    have hc : c ≠ sep := fun e => h (by simp [e])
    have hcs : sep ∉ cs := fun m => h (List.mem_cons_of_mem _ m)
    simp [split, hc, ih hcs]

theorem digitVal_digitChar (d : Nat) (h : d < 10) : digitVal (digitChar d) = some d := by
  interval_cases d <;> rfl

theorem isDigit_digitChar (d : Nat) : isDigit (digitChar d) = true := by
  unfold digitChar
  split <;> rfl

theorem showNatAux_isDigit (fuel n : Nat) (acc : QString) (h : ∀ c ∈ acc, isDigit c = true) :
    ∀ c ∈ showNatAux fuel n acc, isDigit c = true := by
  induction fuel generalizing n acc with
  | zero => simpa [showNatAux] using h
  | succ f ih =>
    unfold showNatAux
    split_ifs
    · intro c hc
      rcases List.mem_cons.1 hc with rfl | hc
      · exact isDigit_digitChar n
      · exact h c hc
    · apply ih
      intro c hc
      rcases List.mem_cons.1 hc with rfl | hc
      · exact isDigit_digitChar _
      · exact h c hc

theorem showNat_isDigit (n : Nat) : ∀ c ∈ showNat n, isDigit c = true :=
  showNatAux_isDigit _ _ _ (by simp)

theorem showNatAux_append (fuel n : Nat) (acc : QString) :
    showNatAux fuel n acc = showNatAux fuel n [] ++ acc := by
  induction fuel generalizing n acc with
  | zero => simp [showNatAux]
  | succ f ih =>
    unfold showNatAux
    split_ifs
    · simp
    · rw [ih (n / 10) (digitChar (n % 10) :: acc), ih (n / 10) [digitChar (n % 10)]]
      simp

theorem showNatAux_fuel (fuel n : Nat) (acc : QString) (h : n < fuel) :
    showNatAux fuel n acc = showNatAux (n + 1) n acc := by
  induction fuel using Nat.strong_induction_on generalizing n acc with
  | _ fuel ih =>
    cases fuel with
    | zero => omega
    | succ f =>
      by_cases hn : n < 10
      · simp [showNatAux, hn]
      · have h1 : n / 10 < f := by omega
        have h2 : n / 10 < n := by omega
        simp only [showNatAux, hn, if_false]
        rw [ih f (by omega) (n / 10) _ h1]
        rw [ih n (by omega) (n / 10) _ h2]

theorem showNat_lt_ten (n : Nat) (h : n < 10) : showNat n = [digitChar n] := by
  simp [showNat, showNatAux, h]

theorem showNat_ge_ten (n : Nat) (h : ¬ n < 10) :
    showNat n = showNat (n / 10) ++ [digitChar (n % 10)] := by
  have h2 : n / 10 < n := by omega
  unfold showNat
  rw [showNatAux]
  simp only [h, if_false]
  rw [showNatAux_append, showNatAux_fuel n (n / 10) [] h2]

theorem showNat_ne_nil (n : Nat) : showNat n ≠ [] := by
  by_cases h : n < 10
  · simp [showNat_lt_ten n h]
  · simp [showNat_ge_ten n h]

theorem parseDigits_append_single (s : QString) (c : Char) (a : Nat) :
    parseDigits (s ++ [c]) a =
      (parseDigits s a).bind (fun v => (digitVal c).map (fun d => v * 10 + d)) := by
  induction s generalizing a with
  | nil =>
    simp only [List.nil_append, parseDigits, Option.some_bind]
    cases digitVal c <;> simp [parseDigits]
  | cons x xs ih =>
    simp only [List.cons_append, parseDigits]
    cases digitVal x with
    | none => simp
    | some d => simpa using ih (a * 10 + d)

theorem parseDigits_showNat (n : Nat) : parseDigits (showNat n) 0 = some n := by
  induction n using Nat.strong_induction_on with
  | _ n ih =>
    by_cases h : n < 10
    · rw [showNat_lt_ten n h]
      simp [parseDigits, digitVal_digitChar n h]
    · rw [showNat_ge_ten n h, parseDigits_append_single, ih (n / 10) (by omega)]
      simp only [Option.some_bind, digitVal_digitChar (n % 10) (Nat.mod_lt _ (by norm_num)),
        Option.map_some']
      congr 1
      omega

theorem parseNat_of_ne_nil (s : QString) (h : s ≠ []) : parseNat s = parseDigits s 0 := by
  cases s with
  | nil => exact absurd rfl h
  | cons c cs => rfl

theorem parseNat_showNat (n : Nat) : parseNat (showNat n) = some n := by
  rw [parseNat_of_ne_nil _ (showNat_ne_nil n), parseDigits_showNat]

theorem isDigit_mem (c : Char) (h : isDigit c = true) : c ∈ "0123456789".data := by
  unfold isDigit digitVal at h
  split_ifs at h <;> first | (subst c; decide) | (simp at h)

theorem isNumChar_mem (c : Char) (h : isNumChar c = true) : c ∈ "0123456789.-+e".data := by
  unfold isNumChar at h
  simp only [Bool.or_eq_true, decide_eq_true_eq] at h
  rcases h with (((h | h) | h) | h) | h
  · have := isDigit_mem c h
    simp only [List.mem_cons] at this ⊢
    tauto
  all_goals (subst c; decide)

theorem isNumChar_of_isDigit (c : Char) (h : isDigit c = true) : isNumChar c = true := by
  simp [isNumChar, h]

theorem dropWhile_of_all_false (p : Char → Bool) (s : QString) (h : ∀ c ∈ s, p c = false) :
    s.dropWhile p = s := by
  cases s with
  | nil => rfl
  | cons c cs => simp [List.dropWhile, h c (by simp)]

theorem trimmed_of_no_space (s : QString) (h : ∀ c ∈ s, isSpace c = false) : trimmed s = s := by
  unfold trimmed
  rw [dropWhile_of_all_false _ s h, dropWhile_of_all_false _ s.reverse (by simpa using h)]
  simp

theorem isSpace_of_isNumChar (c : Char) (h : isNumChar c = true) : isSpace c = false := by
  have hm := isNumChar_mem c h
  simp only [List.mem_cons, List.mem_nil_iff, or_false] at hm
  rcases hm with h | h | h | h | h | h | h | h | h | h | h | h | h | h <;> (subst c; decide)

theorem showInt_isNumChar (n : Int) : ∀ c ∈ showInt n, isNumChar c = true := by
  intro c hc
  unfold showInt at hc
  split_ifs at hc
  · rcases List.mem_cons.1 hc with rfl | hc
    · decide
    · exact isNumChar_of_isDigit c (showNat_isDigit _ c hc)
  · exact isNumChar_of_isDigit c (showNat_isDigit _ c hc)

/-- The sign-free branch of the number parsers is taken on a digit text. -/
theorem head_digit_ne_sign (c : Char) (h : isDigit c = true) : c ≠ '-' ∧ c ≠ '+' := by
  have hm := isDigit_mem c h
  simp only [List.mem_cons, List.mem_nil_iff, or_false] at hm
  rcases hm with h | h | h | h | h | h | h | h | h | h <;> (subst c; decide)

theorem signOf_digit (c : Char) (cs : QString) (h : isDigit c = true) :
    signOf (c :: cs) = (false, c :: cs) := by
  obtain ⟨h1, h2⟩ := head_digit_ne_sign c h
  unfold signOf
  split
  · rename_i heq; simp at heq; exact absurd heq.1 h1
  · rename_i heq; simp at heq; exact absurd heq.1 h2
  · rfl

theorem toInt_showInt (n : Int) (h : isInt32 n) : toInt (showInt n) = n := by
  unfold toInt
  rw [trimmed_of_no_space _ (fun c hc => isSpace_of_isNumChar c (showInt_isNumChar n c hc))]
  unfold isInt32 at h
  by_cases hn : n < 0
  · have e : (-(n.natAbs : Int)) = n := by omega
    have hs : signOf (showInt n) = (true, showNat n.natAbs) := by simp [showInt, hn, signOf]
    simp only [hs, parseNat_showNat, if_true, e]
    simp [h.1, h.2]
  · have e : ((n.natAbs : Int)) = n := by omega
    have hs : signOf (showInt n) = (false, showNat n.natAbs) := by
      simp only [showInt, hn, if_false]
      cases hs : showNat n.natAbs with
      | nil => exact absurd hs (showNat_ne_nil _)
      | cons c cs =>
        exact signOf_digit c cs (showNat_isDigit n.natAbs c (by simp [hs]))
    simp only [hs, parseNat_showNat, e]
    simp [h.1, h.2]

theorem mem_stripZeros (s : QString) (c : Char) (h : c ∈ stripZeros s) : c ∈ s := by
  unfold stripZeros at h
  rw [List.mem_reverse] at h
  exact List.mem_reverse.1 ((List.dropWhile_sublist _).subset h)

theorem fracPart_isNumChar (s : QString) (h : ∀ c ∈ s, isNumChar c = true) :
    ∀ c ∈ fracPart s, isNumChar c = true := by
  intro c hc
  cases s with
  | nil => simp [fracPart] at hc
  | cons x xs =>
    simp only [fracPart, List.mem_cons] at hc
    rcases hc with rfl | rfl | hc
    · decide
    · exact h _ (by simp)
    · exact h _ (by simp [hc])

theorem expPart_isNumChar (e : Int) : ∀ c ∈ expPart e, isNumChar c = true := by
  intro c hc
  have hd : ∀ c ∈ showNat e.natAbs, isNumChar c = true :=
    fun c hc => isNumChar_of_isDigit c (showNat_isDigit _ c hc)
  unfold expPart at hc
  simp only [List.mem_cons] at hc
  rcases hc with rfl | hc | hc
  · decide
  · split_ifs at hc <;> (subst c; decide)
  · split_ifs at hc
    · rcases List.mem_cons.1 hc with rfl | hc
      · decide
      · exact hd c hc
    · exact hd c hc

theorem layoutG_isNumChar (ds : QString) (e : Int) (h : ∀ c ∈ ds, isDigit c = true) :
    ∀ c ∈ layoutG ds e, isNumChar c = true := by
  have hn : ∀ c ∈ ds, isNumChar c = true := fun c hc => isNumChar_of_isDigit c (h c hc)
  intro c hc
  unfold layoutG at hc
  split_ifs at hc
  · simp only [List.mem_append] at hc
    rcases hc with (hc | hc) | hc
    · exact hn c (List.mem_of_mem_take hc)
    · exact fracPart_isNumChar _
        (fun x hx => hn x (List.mem_of_mem_drop (mem_stripZeros _ x hx))) c hc
    · exact expPart_isNumChar e c hc
  · simp only [List.mem_append] at hc
    rcases hc with hc | hc
    · exact hn c (List.mem_of_mem_take hc)
    · exact fracPart_isNumChar _
        (fun x hx => hn x (List.mem_of_mem_drop (mem_stripZeros _ x hx))) c hc
  · simp only [List.mem_cons, List.mem_append, List.mem_replicate] at hc
    rcases hc with rfl | rfl | ⟨_, rfl⟩ | hc
    · decide
    · decide
    · decide
    · exact hn c (mem_stripZeros _ c hc)

theorem showReal_isNumChar (q : ℚ) : ∀ c ∈ showReal q, isNumChar c = true := by
  intro c hc
  have key : ∀ m e, c ∈ layoutG (showNat m) e ∨ c ∈ '-' :: layoutG (showNat m) e →
      isNumChar c = true := by
    intro m e h
    rcases h with h | h
    · exact layoutG_isNumChar _ _ (showNat_isDigit _) c h
    · rcases List.mem_cons.1 h with rfl | h
      · decide
      · exact layoutG_isNumChar _ _ (showNat_isDigit _) c h
  unfold showReal at hc
  simp only [] at hc
  split_ifs at hc
  · simp only [List.mem_singleton] at hc
    subst c
    decide
  all_goals first
    | exact key _ _ (Or.inr hc)
    | exact key _ _ (Or.inl hc)

/-- A character that is no number character does not occur in a number text. -/
theorem not_mem_showReal (sep : Char) (h : isNumChar sep = false) (q : ℚ) : sep ∉ showReal q :=
  fun hm => by simp [showReal_isNumChar q sep hm] at h

theorem not_mem_showInt (sep : Char) (h : isNumChar sep = false) (n : Int) : sep ∉ showInt n :=
  fun hm => by simp [showInt_isNumChar n sep hm] at h

/-! ## Strength line: what the decoder recovers -/

theorem loadSetEntry_nil (acc : List ExerciseSet) : loadSetEntry acc [] = acc := by
  simp [loadSetEntry, split]

theorem loadSetEntry_setText (acc : List ExerciseSet) (s : ExerciseSet) (h : setSafe s) :
    loadSetEntry acc (setText s) = acc ++ [s] := by
  have hx : split 'x' (setText s) = [showInt s.reps, showReal s.weight] := by
    unfold setText
    rw [List.append_assoc, List.singleton_append,
      split_append_sep _ _ _ (not_mem_showInt 'x' (by decide) _),
      split_of_not_mem _ _ (not_mem_showReal 'x' (by decide) _)]
  unfold loadSetEntry
  simp only [hx, part, List.length_cons, List.length_nil, List.getD_cons_zero,
    List.getD_cons_succ]
  rw [toInt_showInt _ h.1, h.2]
  simp

theorem setText_chars (s : ExerciseSet) : ∀ c ∈ setText s, isNumChar c = true ∨ c = 'x' := by
  intro c hc
  unfold setText at hc
  simp only [List.mem_append, List.mem_singleton] at hc
  rcases hc with (hc | hc) | hc
  · exact Or.inl (showInt_isNumChar _ c hc)
  · exact Or.inr hc
  · exact Or.inl (showReal_isNumChar _ c hc)

theorem setsText_chars (sets : List ExerciseSet) :
    ∀ c ∈ setsText sets, isNumChar c = true ∨ c = 'x' ∨ c = ',' := by
  induction sets with
  | nil => simp [setsText]
  | cons s t ih =>
    intro c hc
    cases t with
    | nil =>
      rcases setText_chars s c (by simpa [setsText] using hc) with h | h
      · exact Or.inl h
      · exact Or.inr (Or.inl h)
    | cons s2 t2 =>
      simp only [setsText, List.mem_append, List.mem_singleton] at hc
      rcases hc with (hc | hc) | hc
      · rcases setText_chars s c hc with h | h
        · exact Or.inl h
        · exact Or.inr (Or.inl h)
      · exact Or.inr (Or.inr hc)
      · exact ih c hc

theorem comma_not_mem_setText (s : ExerciseSet) : ',' ∉ setText s := by
  intro h
  rcases setText_chars s _ h with h | h
  · exact absurd h (by decide)
  · exact absurd h (by decide)

theorem split_setsText (s : ExerciseSet) (t : List ExerciseSet) :
    split ',' (setsText (s :: t)) = (s :: t).map setText := by
  induction t generalizing s with
  | nil => simp [setsText, split_of_not_mem _ _ (comma_not_mem_setText s)]
  | cons s2 t2 ih =>
    simp only [setsText, List.append_assoc, List.singleton_append, List.map_cons]
    rw [split_append_sep _ _ _ (comma_not_mem_setText s)]
    have := ih s2
    simp only [List.map_cons] at this
    rw [this]

theorem foldl_loadSetEntry (l : List ExerciseSet) (acc : List ExerciseSet)
    (h : ∀ s ∈ l, setSafe s) : (l.map setText).foldl loadSetEntry acc = acc ++ l := by
  induction l generalizing acc with
  | nil => simp
  | cons s t ih =>
    simp only [List.map_cons, List.foldl_cons]
    rw [loadSetEntry_setText acc s (h s (by simp)), ih _ (fun x hx => h x (by simp [hx]))]
    simp

theorem load_setsText (sets : List ExerciseSet) (h : ∀ s ∈ sets, setSafe s) :
    (split ',' (setsText sets)).foldl loadSetEntry [] = sets := by
  cases sets with
  | nil => simp [setsText, split, loadSetEntry_nil]
  | cons s t =>
    rw [split_setsText, foldl_loadSetEntry _ _ h]
    simp

theorem not_mem_setsText (sep : Char) (h1 : isNumChar sep = false) (h2 : sep ≠ 'x')
    (h3 : sep ≠ ',') (sets : List ExerciseSet) : sep ∉ setsText sets := by
  intro h
  rcases setsText_chars sets sep h with h | h | h
  · simp [h] at h1
  · exact h2 h
  · exact h3 h

theorem loadExerciseEntry_nil (acc : List Exercise) : loadExerciseEntry acc [] = acc := by
  simp [loadExerciseEntry, split]

theorem loadExerciseEntry_exerciseText (acc : List Exercise) (e : Exercise)
    (h : exerciseSafe e) : loadExerciseEntry acc (exerciseText e) = acc ++ [e] := by
  obtain ⟨_, _, hc, hs⟩ := h
  have hx : split ':' (exerciseText e) = [e.name, setsText e.sets] := by
    unfold exerciseText
    rw [List.append_assoc, List.singleton_append, split_append_sep _ _ _ hc,
      split_of_not_mem _ _ (not_mem_setsText ':' (by decide) (by decide) (by decide) _)]
  unfold loadExerciseEntry
  simp only [hx, part, List.length_cons, List.length_nil, List.getD_cons_zero,
    List.getD_cons_succ]
  rw [load_setsText _ hs]
  simp

theorem not_mem_exerciseText (sep : Char) (h1 : isNumChar sep = false) (h2 : sep ≠ 'x')
    (h3 : sep ≠ ',') (h4 : sep ≠ ':') (e : Exercise) (hn : sep ∉ e.name) :
    sep ∉ exerciseText e := by
  unfold exerciseText
  simp only [List.mem_append, List.mem_singleton, not_or]
  exact ⟨⟨hn, h4⟩, not_mem_setsText sep h1 h2 h3 _⟩

theorem split_exercisesText (e : Exercise) (t : List Exercise)
    (h : ∀ x ∈ e :: t, ';' ∉ x.name) :
    split ';' (exercisesText (e :: t)) = (e :: t).map exerciseText := by
  have hsep : ∀ x ∈ e :: t, ';' ∉ exerciseText x := fun x hx =>
    not_mem_exerciseText ';' (by decide) (by decide) (by decide) (by decide) x (h x hx)
  induction t generalizing e with
  | nil => simp [exercisesText, split_of_not_mem _ _ (hsep e (by simp))]
  | cons e2 t2 ih =>
    simp only [exercisesText, List.append_assoc, List.singleton_append, List.map_cons]
    rw [split_append_sep _ _ _ (hsep e (by simp))]
    have := ih e2 (fun x hx => h x (by simp [List.mem_cons.1 hx]))
      (fun x hx => hsep x (by simp [List.mem_cons.1 hx]))
    simp only [List.map_cons] at this
    rw [this]

theorem foldl_loadExerciseEntry (l : List Exercise) (acc : List Exercise)
    (h : ∀ e ∈ l, exerciseSafe e) :
    (l.map exerciseText).foldl loadExerciseEntry acc = acc ++ l := by
  induction l generalizing acc with
  | nil => simp
  | cons e t ih =>
    simp only [List.map_cons, List.foldl_cons]
    rw [loadExerciseEntry_exerciseText acc e (h e (by simp)),
      ih _ (fun x hx => h x (by simp [hx]))]
    simp

theorem load_exercisesText (l : List Exercise) (h : ∀ e ∈ l, exerciseSafe e) :
    (split ';' (exercisesText l)).foldl loadExerciseEntry [] = l := by
  cases l with
  | nil => simp [exercisesText, split, loadExerciseEntry_nil]
  | cons e t =>
    rw [split_exercisesText e t (fun x hx => (h x hx).2.1), foldl_loadExerciseEntry _ _ h]
    simp

theorem bar_not_mem_exercisesText (l : List Exercise) (h : ∀ e ∈ l, '|' ∉ e.name) :
    '|' ∉ exercisesText l := by
  have hsep : ∀ x ∈ l, '|' ∉ exerciseText x := fun x hx =>
    not_mem_exerciseText '|' (by decide) (by decide) (by decide) (by decide) x (h x hx)
  induction l with
  | nil => simp [exercisesText]
  | cons e t ih =>
    cases t with
    | nil => simpa [exercisesText] using hsep e (by simp)
    | cons e2 t2 =>
      simp only [exercisesText, List.mem_append, List.mem_singleton, not_or]
      refine ⟨⟨hsep e (by simp), by decide⟩, ?_⟩
      exact ih (fun x hx => h x (by simp [hx])) (fun x hx => hsep x (by simp [hx]))

/-- An ISO date text holds no field separator. -/
theorem isIsoDate_bar (s : QString) (h : isIsoDate s = true) : '|' ∉ s := by
  intro hm
  have key : ∀ c, (isDigit c = true ∨ c = '-') → c ≠ '|' := by
    intro c hc
    rcases hc with hc | hc
    · intro e; subst e; exact absurd hc (by decide)
    · intro e; subst e; exact absurd hc (by decide)
  unfold isIsoDate at h
  split at h
  · simp only [Bool.and_eq_true, decide_eq_true_eq] at h
    simp only [List.mem_cons, List.mem_nil_iff, or_false] at hm
    obtain ⟨⟨⟨⟨⟨⟨⟨⟨⟨a1, a2⟩, a3⟩, a4⟩, a5⟩, a6⟩, a7⟩, a8⟩, a9⟩, a10⟩ := h
    rcases hm with e | e | e | e | e | e | e | e | e | e
    · exact key _ (Or.inl a1) e.symm
    · exact key _ (Or.inl a2) e.symm
    · exact key _ (Or.inl a3) e.symm
    · exact key _ (Or.inl a4) e.symm
    · exact key _ (Or.inr a5) e.symm
    · exact key _ (Or.inl a6) e.symm
    · exact key _ (Or.inl a7) e.symm
    · exact key _ (Or.inr a8) e.symm
    · exact key _ (Or.inl a9) e.symm
    · exact key _ (Or.inl a10) e.symm
  · simp at h

/-! ## Goal lines: the two shapes -/

theorem split_append_cons (sep : Char) (a b : QString) :
    split sep (a ++ sep :: b) = split sep a ++ split sep b := by
  induction a with
  | nil => simp [split]
  | cons c cs ih =>
    by_cases hc : c = sep
    · simp [split, hc, ih]
    · cases hs : split sep cs with
      | nil => exact absurd hs (split_ne_nil sep cs)
      | cons p ps =>
        have ih2 : split sep (cs ++ sep :: b) = p :: (ps ++ split sep b) := by
          rw [ih, hs]; rfl
        simp [split, hc, ih2, hs]

/-- C4. A goal line of exactly six `|`-separated fields is decoded to the goal
whose first six fields come from the six parts and whose `exerciseName` is
empty and `exWeight`, `exSets`, `exReps` are 0, and that is the goal decoded
from the ten-field line obtained by appending `||0|0|0`; a line of ten or more
fields is decoded by the ten-field shape. -/
theorem legacy_goal_compat (L : QString) (acc : List Goal) :
    ((split '|' L).length = 6 →
      loadGoalLine acc L
          = acc ++ [{ name := part (split '|' L) 0, type := part (split '|' L) 1,
                      target := toDouble (part (split '|' L) 2),
                      progress := toDouble (part (split '|' L) 3),
                      targetTime := toInt (part (split '|' L) 4),
                      progressTime := toInt (part (split '|' L) 5),
                      exerciseName := [], exWeight := 0, exSets := 0, exReps := 0 }] ∧
        (split '|' (L ++ "||0|0|0".data)).length = 10 ∧
        loadGoalLine acc (L ++ "||0|0|0".data) = loadGoalLine acc L) ∧
    (10 ≤ (split '|' L).length →
      loadGoalLine acc L = acc ++ [fullGoal (split '|' L)]) := by
  constructor
  · intro h
    have happ : split '|' (L ++ "||0|0|0".data)
        = split '|' L ++ [[], ['0'], ['0'], ['0']] := by
      have e : "||0|0|0".data = '|' :: "|0|0|0".data := rfl
      rw [e, split_append_cons]
      rfl
    have hd0 : toDouble ['0'] = 0 := by decide!
    have hi0 : toInt ['0'] = 0 := by decide
    rcases hq : split '|' L with _ | ⟨a, _ | ⟨b, _ | ⟨c, _ | ⟨d, _ | ⟨e, _ | ⟨f, _ | ⟨g, t⟩⟩⟩⟩⟩⟩⟩
    all_goals rw [hq] at h; simp at h
    refine ⟨?_, ?_, ?_⟩
    · simp [loadGoalLine, hq, part]
    · rw [happ, hq]; rfl
    · simp [loadGoalLine, happ, hq, part, hd0, hi0]
  · intro h
    simp [loadGoalLine, h, fullGoal]

/-- Witness for C4: a six-field legacy line and a ten-field line. -/
theorem legacy_goal_compat_witness :
    loadGoalLine [] "Run|cardio_km|10|5|60|25".data
        = [{ name := "Run".data, type := "cardio_km".data, target := 10, progress := 5,
             targetTime := 60, progressTime := 25, exerciseName := [], exWeight := 0,
             exSets := 0, exReps := 0 }] ∧
      loadGoalLine [] "Run|cardio_km|10|5|60|25||0|0|0".data
        = loadGoalLine [] "Run|cardio_km|10|5|60|25".data ∧
      loadGoalLine [] "Bench|strength_exercise|1|2|0|0|Bench Press|60|3|8".data
        = [fullGoal (split '|' "Bench|strength_exercise|1|2|0|0|Bench Press|60|3|8".data)] := by
  have h := legacy_goal_compat "Run|cardio_km|10|5|60|25".data []
  have h6 := h.1 (by decide)
  have h10 := (legacy_goal_compat
    "Bench|strength_exercise|1|2|0|0|Bench Press|60|3|8".data []).2 (by decide)
  refine ⟨?_, h6.2.2, h10⟩
  rw [h6.1]
  decide!

/-! ## loadData: tolerant decoding and idempotence -/

theorem foldl_filter_map {α : Type} (body : List α → QString → List α) (keep : QString → Bool)
    (f : QString → α)
    (h : ∀ acc l, body acc l = if keep l = true then acc ++ [f l] else acc)
    (lines : List QString) (acc : List α) :
    lines.foldl body acc = acc ++ (lines.filter keep).map f := by
  induction lines generalizing acc with
  | nil => simp
  | cons l t ih =>
    rw [List.foldl_cons, ih, h]
    by_cases hk : keep l = true
    · simp [hk]
    · simp [hk]

theorem readAll_cardio (lines : List QString) :
    readAll loadCardioLine (some lines)
      = (lines.filter (fun l => decide (6 ≤ (split '|' l).length))).map
          (fun l => decodeCardio (split '|' l)) := by
  simpa [readAll] using foldl_filter_map loadCardioLine _ _
    (fun acc l => by simp [loadCardioLine, decodeCardio]) lines []

theorem readAll_strength (lines : List QString) :
    readAll loadStrengthLine (some lines)
      = (lines.filter (fun l => decide (3 ≤ (split '|' l).length))).map
          (fun l => decodeStrength (split '|' l)) := by
  simpa [readAll] using foldl_filter_map loadStrengthLine _ _
    (fun acc l => by simp [loadStrengthLine, decodeStrength]) lines []

theorem readAll_weight (lines : List QString) :
    readAll loadWeightLine (some lines)
      = (lines.filter (fun l => decide (2 ≤ (split '|' l).length))).map
          (fun l => decodeWeight (split '|' l)) := by
  simpa [readAll] using foldl_filter_map loadWeightLine _ _
    (fun acc l => by simp [loadWeightLine, decodeWeight]) lines []

theorem readAll_goals (lines : List QString) :
    readAll loadGoalLine (some lines)
      = (lines.filter (fun l => decide (6 ≤ (split '|' l).length))).map
          (fun l => decodeGoal (split '|' l)) := by
  simpa [readAll] using foldl_filter_map loadGoalLine _ _
    (fun acc l => by
      by_cases h10 : 10 ≤ (split '|' l).length
      · have h6 : 6 ≤ (split '|' l).length := by omega
        simp [loadGoalLine, decodeGoal, fullGoal, h10, h6]
      · by_cases h6 : 6 ≤ (split '|' l).length
        · simp [loadGoalLine, decodeGoal, legacyGoal, h10, h6]
        · simp [loadGoalLine, decodeGoal, h10, h6]) lines []

/-- C5. For every list of lines of a backing file, the collection `loadData`
produces from it holds, in file order, the records decoded from exactly the
lines that split on `|` into at least the minimum number of parts (6 for
cardio, 3 for strength, 2 for bodyweight, 6 for goals); a shorter line
contributes nothing and later lines are still read. -/
theorem load_skips_short_lines (fs : Files) (st : State) (lines : List QString) :
    (fs (fileName "cardio_".data st.user.username) = some lines →
      (loadData fs st).cardio
        = (lines.filter (fun l => decide (6 ≤ (split '|' l).length))).map
            (fun l => decodeCardio (split '|' l))) ∧
    (fs (fileName "strength_".data st.user.username) = some lines →
      (loadData fs st).strength
        = (lines.filter (fun l => decide (3 ≤ (split '|' l).length))).map
            (fun l => decodeStrength (split '|' l))) ∧
    (fs (fileName "weight_".data st.user.username) = some lines →
      (loadData fs st).weightLogs
        = (lines.filter (fun l => decide (2 ≤ (split '|' l).length))).map
            (fun l => decodeWeight (split '|' l))) ∧
    (fs (fileName "goals_".data st.user.username) = some lines →
      (loadData fs st).goals
        = (lines.filter (fun l => decide (6 ≤ (split '|' l).length))).map
            (fun l => decodeGoal (split '|' l))) := by
  refine ⟨?_, ?_, ?_, ?_⟩
  · intro h
    show readAll loadCardioLine (fs (fileName "cardio_".data st.user.username)) = _
    rw [h, readAll_cardio]
  · intro h
    show readAll loadStrengthLine (fs (fileName "strength_".data st.user.username)) = _
    rw [h, readAll_strength]
  · intro h
    show readAll loadWeightLine (fs (fileName "weight_".data st.user.username)) = _
    rw [h, readAll_weight]
  · intro h
    show readAll loadGoalLine (fs (fileName "goals_".data st.user.username)) = _
    rw [h, readAll_goals]

/-- Witness for C5: a cardio file of four lines, the second and third too
short; the two full lines are loaded, in file order. -/
theorem load_skips_short_lines_witness :
    (loadData
        (fun n => if n = "cardio_bob.dat".data then
            some ["2024-01-01|Running|30|5|343|10".data, "2024-01-02|Walking".data, [],
                  "2024-01-03|Walking|60|4|245|4".data]
          else none)
        { user := { username := "bob".data } }).cardio
      = [{ date := "2024-01-01".data, type := "Running".data, duration := 30, distance := 5,
           calories := 343, avgSpeed := 10 },
         { date := "2024-01-03".data, type := "Walking".data, duration := 60, distance := 4,
           calories := 245, avgSpeed := 4 }] := by
  rw [(load_skips_short_lines
    (fun n => if n = "cardio_bob.dat".data then
        some ["2024-01-01|Running|30|5|343|10".data, "2024-01-02|Walking".data, [],
              "2024-01-03|Walking|60|4|245|4".data]
      else none)
    { user := { username := "bob".data } }
    ["2024-01-01|Running|30|5|343|10".data, "2024-01-02|Walking".data, [],
     "2024-01-03|Walking|60|4|245|4".data]).1 (by decide)]
  decide!

theorem loadData_user (fs : Files) (st : State) :
    (loadData fs st).user =
      match fs (fileName "profile_".data st.user.username) with
      | none => st.user
      | some lines => loadProfileLine st.user (lines.headD []) := rfl

theorem loadProfileLine_username (u : UserProfile) (l : QString) :
    (loadProfileLine u l).username = u.username := by
  unfold loadProfileLine
  simp only
  split_ifs <;> rfl

theorem loadProfileLine_twice (u : UserProfile) (l : QString) :
    loadProfileLine (loadProfileLine u l) l = loadProfileLine u l := by
  unfold loadProfileLine
  simp only
  split_ifs <;> rfl

theorem loadData_username (fs : Files) (st : State) :
    (loadData fs st).user.username = st.user.username := by
  rw [loadData_user]
  cases fs (fileName "profile_".data st.user.username) with
  | none => rfl
  | some lines => exact loadProfileLine_username _ _

/-- C6. Running `loadData` twice on the same backing files gives the state that
running it once gives, whatever the prior state: profile and the four
collections are identical, so no record is duplicated. -/
theorem load_idempotent (fs : Files) (st : State) :
    loadData fs (loadData fs st) = loadData fs st := by
  have hu := loadData_username fs st
  have huser : (loadData fs (loadData fs st)).user = (loadData fs st).user := by
    rw [loadData_user fs (loadData fs st), hu, loadData_user fs st]
    cases fs (fileName "profile_".data st.user.username) with
    | none => rfl
    | some lines => exact loadProfileLine_twice _ _
  have key : ∀ a b : State, a.user = b.user → a.cardio = b.cardio → a.strength = b.strength →
      a.weightLogs = b.weightLogs → a.goals = b.goals → a.curEx = b.curEx →
      a.pUser = b.pUser → a.pName = b.pName → a = b := by
    intro a b h1 h2 h3 h4 h5 h6 h7 h8
    cases a; cases b; simp_all
  apply key
  · exact huser
  all_goals first
    | rfl
    | (show readAll _ (fs (fileName _ (loadData fs st).user.username)) = _; rw [hu]; rfl)

/-! ## Rounding to a `double` -/

theorem log2Aux_spec (fuel n : Nat) (hn : 0 < n) (hf : n ≤ fuel) :
    2 ^ log2Aux fuel n ≤ n ∧ n < 2 ^ (log2Aux fuel n + 1) := by
  induction fuel generalizing n with
  | zero => omega
  | succ f ih =>
    unfold log2Aux
    by_cases h : n < 2
    · rw [if_pos h]
      simp
      omega
    · rw [if_neg h]
      obtain ⟨h1, h2⟩ := ih (n / 2) (by omega) (by omega)
      constructor
      · rw [pow_succ]
        omega
      · rw [pow_succ]
        omega

theorem ilog2_spec (n : Nat) (hn : 0 < n) : 2 ^ ilog2 n ≤ n ∧ n < 2 ^ (ilog2 n + 1) :=
  log2Aux_spec n n hn (le_refl n)

theorem pow2_eq (k : Int) : pow2 k = (2 : ℚ) ^ k := by
  unfold pow2
  by_cases hk : 0 ≤ k
  · obtain ⟨j, rfl⟩ := Int.eq_ofNat_of_zero_le hk
    simp
  · obtain ⟨j, hj⟩ : ∃ j : Nat, k = -(j : Int) := ⟨(-k).toNat, by omega⟩
    subst hj
    simp [hk]

theorem pow2_pos (k : Int) : 0 < pow2 k := by
  rw [pow2_eq]
  positivity

theorem zpow_two_window (a b : Int) (x : ℚ) (h1 : (2 : ℚ) ^ a ≤ x) (h2 : x < (2 : ℚ) ^ b) :
    a < b := by
  have h : (2 : ℚ) ^ a < (2 : ℚ) ^ b := lt_of_le_of_lt h1 h2
  exact (zpow_lt_zpow_iff_right₀ (by norm_num : (1 : ℚ) < 2)).1 h

theorem abs_eq_natAbs_div_den (q : ℚ) : |q| = (q.num.natAbs : ℚ) / (q.den : ℚ) := by
  have hd : (0 : ℚ) < (q.den : ℚ) := by exact_mod_cast q.den_pos
  conv_lhs => rw [← Rat.num_div_den q]
  rw [abs_div, abs_of_pos hd, Nat.cast_natAbs]
  simp

theorem binExp_spec (q : ℚ) (hq : q ≠ 0) :
    (2 : ℚ) ^ binExp q ≤ |q| ∧ |q| < (2 : ℚ) ^ (binExp q + 1) := by
  have hn : 0 < q.num.natAbs := Int.natAbs_pos.2 (Rat.num_ne_zero.2 hq)
  have hd : 0 < q.den := q.den_pos
  have hdq : (0 : ℚ) < (q.den : ℚ) := by exact_mod_cast hd
  have h2 : (2 : ℚ) ≠ 0 := by norm_num
  obtain ⟨na, nb⟩ := ilog2_spec _ hn
  obtain ⟨da, db⟩ := ilog2_spec _ hd
  set a := ilog2 q.num.natAbs with ha
  set b := ilog2 q.den with hb
  have naq : (2 : ℚ) ^ (a : Int) ≤ (q.num.natAbs : ℚ) := by
    rw [zpow_natCast]; exact_mod_cast na
  have nbq : (q.num.natAbs : ℚ) < (2 : ℚ) ^ ((a : Int) + 1) := by
    have e1 : ((a : Int) + 1) = ((a + 1 : Nat) : Int) := by omega
    rw [e1, zpow_natCast]; exact_mod_cast nb
  have daq : (2 : ℚ) ^ (b : Int) ≤ (q.den : ℚ) := by
    rw [zpow_natCast]; exact_mod_cast da
  have dbq : (q.den : ℚ) < (2 : ℚ) ^ ((b : Int) + 1) := by
    have e1 : ((b : Int) + 1) = ((b + 1 : Nat) : Int) := by omega
    rw [e1, zpow_natCast]; exact_mod_cast db
  have habs := abs_eq_natAbs_div_den q
  have hup : |q| < (2 : ℚ) ^ ((a : Int) - b + 1) := by
    rw [habs, div_lt_iff₀ hdq]
    have hp : (0 : ℚ) < (2 : ℚ) ^ ((a : Int) - b + 1) := by positivity
    calc (q.num.natAbs : ℚ) < (2 : ℚ) ^ ((a : Int) + 1) := nbq
      _ = (2 : ℚ) ^ ((a : Int) - b + 1) * (2 : ℚ) ^ (b : Int) := by
          rw [← zpow_add₀ h2]; congr 1; omega
      _ ≤ (2 : ℚ) ^ ((a : Int) - b + 1) * (q.den : ℚ) :=
          mul_le_mul_of_nonneg_left daq hp.le
  have hlo : (2 : ℚ) ^ ((a : Int) - b - 1) < |q| := by
    rw [habs, lt_div_iff₀ hdq]
    have hp : (0 : ℚ) < (2 : ℚ) ^ ((a : Int) - b - 1) := by positivity
    calc (2 : ℚ) ^ ((a : Int) - b - 1) * (q.den : ℚ)
        < (2 : ℚ) ^ ((a : Int) - b - 1) * (2 : ℚ) ^ ((b : Int) + 1) :=
          mul_lt_mul_of_pos_left dbq hp
      _ = (2 : ℚ) ^ (a : Int) := by
          rw [← zpow_add₀ h2]; congr 1; omega
      _ ≤ (q.num.natAbs : ℚ) := naq
  unfold binExp
  simp only [← ha, ← hb, pow2_eq]
  by_cases hs : (2 : ℚ) ^ ((a : Int) - b) ≤ |q|
  · rw [if_pos hs]
    exact ⟨hs, hup⟩
  · rw [if_neg hs]
    refine ⟨hlo.le, ?_⟩
    have e1 : (a : Int) - b - 1 + 1 = (a : Int) - b := by omega
    rw [e1]
    exact not_le.1 hs

theorem binExp_unique (q : ℚ) (e : Int) (h1 : (2 : ℚ) ^ e ≤ |q|) (h2 : |q| < (2 : ℚ) ^ (e + 1)) :
    binExp q = e := by
  have hq : q ≠ 0 := by
    intro h
    rw [h, abs_zero] at h1
    have : (0 : ℚ) < (2 : ℚ) ^ e := by positivity
    linarith
  obtain ⟨s1, s2⟩ := binExp_spec q hq
  have c1 := zpow_two_window _ _ _ s1 h2
  have c2 := zpow_two_window _ _ _ h1 s2
  omega

theorem rne_floor_le (y : ℚ) : ⌊y⌋ ≤ rne y := by
  unfold rne
  split_ifs <;> omega

theorem rne_le_floor_succ (y : ℚ) : rne y ≤ ⌊y⌋ + 1 := by
  unfold rne
  split_ifs <;> omega

theorem rne_err (y : ℚ) : |((rne y : Int) : ℚ) - y| ≤ 1 / 2 := by
  have h1 := Int.floor_le y
  have h2 := Int.lt_floor_add_one y
  unfold rne
  rw [abs_le]
  split_ifs with a b c
  · constructor <;> linarith
  · push_cast; constructor <;> linarith
  · constructor <;> linarith
  · push_cast; constructor <;> linarith

theorem rne_intCast (m : Int) : rne (m : ℚ) = m := by
  unfold rne
  simp

theorem le_rne (y : ℚ) (m : Int) (h : (m : ℚ) ≤ y) : m ≤ rne y :=
  le_trans (Int.le_floor.2 h) (rne_floor_le y)

theorem rne_le (y : ℚ) (m : Int) (h : y ≤ (m : ℚ)) : rne y ≤ m := by
  by_cases hy : y = ((⌊y⌋ : Int) : ℚ)
  · have : rne y = ⌊y⌋ := by
      unfold rne
      rw [if_pos (by rw [← hy]; norm_num)]
    rw [this]
    exact_mod_cast (le_trans (Int.floor_le y) h)
  · have h1 : ((⌊y⌋ : Int) : ℚ) < y := lt_of_le_of_ne (Int.floor_le y) (Ne.symm hy)
    have h2 : ((⌊y⌋ : Int) : ℚ) < (m : ℚ) := lt_of_lt_of_le h1 h
    have h3 : ⌊y⌋ < m := by exact_mod_cast h2
    have := rne_le_floor_succ y
    omega

theorem rne_neg (y : ℚ) : rne (-y) = - rne y := by
  by_cases hy : y = ((⌊y⌋ : Int) : ℚ)
  · have e : -y = ((-⌊y⌋ : Int) : ℚ) := by push_cast; rw [← hy]
    rw [e, rne_intCast]
    conv_rhs => rw [hy, rne_intCast]
  · have h1 : ((⌊y⌋ : Int) : ℚ) < y := lt_of_le_of_ne (Int.floor_le y) (Ne.symm hy)
    have h2 := Int.lt_floor_add_one y
    have hf : ⌊-y⌋ = -⌊y⌋ - 1 := by
      rw [Int.floor_eq_iff]
      push_cast
      constructor <;> linarith
    unfold rne
    rw [hf]
    push_cast
    split_ifs <;> first | omega | (exfalso; linarith)

theorem fl_zero : fl 0 = 0 := by simp [fl]

theorem fl_eq (q : ℚ) (hq : q ≠ 0) :
    fl q = (rne (q / (2 : ℚ) ^ ulpExp q) : ℚ) * (2 : ℚ) ^ ulpExp q := by
  unfold fl
  rw [if_neg hq, pow2_eq]

theorem binExp_neg (q : ℚ) : binExp (-q) = binExp q := by
  unfold binExp
  simp

theorem ulpExp_neg (q : ℚ) : ulpExp (-q) = ulpExp q := by
  unfold ulpExp
  rw [binExp_neg]

theorem fl_neg (q : ℚ) : fl (-q) = - fl q := by
  by_cases hq : q = 0
  · simp [hq, fl_zero]
  · rw [fl_eq _ (neg_ne_zero.2 hq), fl_eq _ hq, ulpExp_neg, neg_div, rne_neg]
    push_cast
    ring

theorem fl_abs_err (q : ℚ) (hq : q ≠ 0) : |fl q - q| ≤ (2 : ℚ) ^ ulpExp q / 2 := by
  have hp : (0 : ℚ) < (2 : ℚ) ^ ulpExp q := by positivity
  have h := rne_err (q / (2 : ℚ) ^ ulpExp q)
  rw [fl_eq q hq]
  have e : (rne (q / (2 : ℚ) ^ ulpExp q) : ℚ) * (2 : ℚ) ^ ulpExp q - q
      = ((rne (q / (2 : ℚ) ^ ulpExp q) : ℚ) - q / (2 : ℚ) ^ ulpExp q) * (2 : ℚ) ^ ulpExp q := by
    field_simp
  rw [e, abs_mul, abs_of_pos hp]
  calc |(rne (q / (2 : ℚ) ^ ulpExp q) : ℚ) - q / (2 : ℚ) ^ ulpExp q| * (2 : ℚ) ^ ulpExp q
      ≤ 1 / 2 * (2 : ℚ) ^ ulpExp q := mul_le_mul_of_nonneg_right h hp.le
    _ = (2 : ℚ) ^ ulpExp q / 2 := by ring

/-- In the normal range a rounding changes a value by at most the fraction
`2 ^ (-53)` of it. -/
theorem fl_err (q : ℚ) (hq : (2 : ℚ) ^ (-1022 : Int) ≤ |q|) :
    |fl q - q| ≤ |q| * (2 : ℚ) ^ (-53 : Int) := by
  have hq0 : q ≠ 0 := by
    intro h
    rw [h, abs_zero] at hq
    have : (0 : ℚ) < (2 : ℚ) ^ (-1022 : Int) := by positivity
    linarith
  obtain ⟨s1, s2⟩ := binExp_spec q hq0
  have c := zpow_two_window _ _ _ hq s2
  have hu : ulpExp q = binExp q - 52 := by
    unfold ulpExp
    rw [max_eq_left (by omega)]
  have h := fl_abs_err q hq0
  rw [hu] at h
  have e : (2 : ℚ) ^ (binExp q - 52) / 2 = (2 : ℚ) ^ binExp q * (2 : ℚ) ^ (-53 : Int) := by
    rw [← zpow_add₀ (by norm_num : (2 : ℚ) ≠ 0)]
    have : binExp q + -53 = (binExp q - 52) + (-1) := by omega
    rw [this, zpow_add₀ (by norm_num : (2 : ℚ) ≠ 0)]
    norm_num
    ring
  rw [e] at h
  exact le_trans h (mul_le_mul_of_nonneg_right s1 (by positivity))

theorem fl_exact (m k : Int) (hm : |m| < 2 ^ 53) (hk : -1074 ≤ k) :
    fl ((m : ℚ) * (2 : ℚ) ^ k) = (m : ℚ) * (2 : ℚ) ^ k := by
  by_cases hm0 : m = 0
  · simp [hm0, fl_zero]
  have h2 : (2 : ℚ) ≠ 0 := by norm_num
  obtain ⟨q, hqdef⟩ : ∃ q : ℚ, q = (m : ℚ) * (2 : ℚ) ^ k := ⟨_, rfl⟩
  rw [← hqdef]
  have hq : q ≠ 0 := by
    have : (m : ℚ) ≠ 0 := by exact_mod_cast hm0
    rw [hqdef]
    positivity
  obtain ⟨s1, s2⟩ := binExp_spec q hq
  have hmq : |(m : ℚ)| < (2 : ℚ) ^ (53 : Int) := by
    have := (Int.cast_lt (R := ℚ)).2 hm
    push_cast at this
    have e53 : (2 : ℚ) ^ (53 : Int) = (2 : ℚ) ^ (53 : Nat) := by norm_cast
    rw [e53]
    exact this
  have hlt : |q| < (2 : ℚ) ^ (53 + k) := by
    rw [hqdef, abs_mul, abs_of_pos (by positivity : (0 : ℚ) < (2 : ℚ) ^ k), zpow_add₀ h2]
    exact mul_lt_mul_of_pos_right hmq (by positivity)
  have c := zpow_two_window _ _ _ s1 hlt
  have hu : ulpExp q ≤ k := by
    unfold ulpExp
    have := max_le (by omega : binExp q ≤ k + 52) (by omega : (-1022 : Int) ≤ k + 52)
    omega
  obtain ⟨j, hj⟩ : ∃ j : Nat, k = ulpExp q + (j : Int) := ⟨(k - ulpExp q).toNat, by omega⟩
  have hpu : (0 : ℚ) < (2 : ℚ) ^ ulpExp q := by positivity
  have hqj : q = ((m * 2 ^ j : Int) : ℚ) * (2 : ℚ) ^ ulpExp q := by
    calc q = (m : ℚ) * (2 : ℚ) ^ k := hqdef
      _ = ((m * 2 ^ j : Int) : ℚ) * (2 : ℚ) ^ ulpExp q := by
          rw [hj, zpow_add₀ h2, zpow_natCast]
          push_cast
          ring
  have e : q / (2 : ℚ) ^ ulpExp q = ((m * 2 ^ j : Int) : ℚ) := by
    rw [div_eq_iff hpu.ne']
    exact hqj
  rw [fl_eq q hq, e, rne_intCast]
  exact hqj.symm

theorem fl_intCast (n : Int) (hn : |n| < 2 ^ 53) : fl (n : ℚ) = n := by
  have := fl_exact n 0 hn (by norm_num)
  simpa using this

theorem fl_nonneg (q : ℚ) (hq : 0 ≤ q) : 0 ≤ fl q := by
  by_cases h0 : q = 0
  · simp [h0, fl_zero]
  · rw [fl_eq q h0]
    have hp : (0 : ℚ) < (2 : ℚ) ^ ulpExp q := by positivity
    have : (0 : Int) ≤ rne (q / (2 : ℚ) ^ ulpExp q) :=
      le_rne _ 0 (by push_cast; positivity)
    have : (0 : ℚ) ≤ (rne (q / (2 : ℚ) ^ ulpExp q) : ℚ) := by exact_mod_cast this
    positivity

theorem binExp_mono (p y : ℚ) (hp : 0 < p) (hpy : p ≤ y) : binExp p ≤ binExp y := by
  obtain ⟨p1, p2⟩ := binExp_spec p hp.ne'
  obtain ⟨y1, y2⟩ := binExp_spec y (lt_of_lt_of_le hp hpy).ne'
  rw [abs_of_pos hp] at p1 p2
  rw [abs_of_pos (lt_of_lt_of_le hp hpy)] at y1 y2
  have := zpow_two_window _ _ _ p1 (lt_of_le_of_lt hpy y2)
  omega

/-- A positive `double` below `y` is at most the rounding of `y`. -/
theorem le_fl_pos (p y : ℚ) (hp : 0 < p) (hpy : p ≤ y) (hd : fl p = p) : p ≤ fl y := by
  have hy : 0 < y := lt_of_lt_of_le hp hpy
  have h2 : (2 : ℚ) ≠ 0 := by norm_num
  have hm := binExp_mono p y hp hpy
  obtain ⟨y1, y2⟩ := binExp_spec y hy.ne'
  obtain ⟨p1, p2⟩ := binExp_spec p hp.ne'
  rw [abs_of_pos hp] at p1 p2
  rw [abs_of_pos hy] at y1 y2
  have hpu : (0 : ℚ) < (2 : ℚ) ^ ulpExp y := by positivity
  rw [fl_eq y hy.ne']
  by_cases hk : ulpExp p = ulpExp y
  · have hpe := fl_eq p hp.ne'
    rw [hd, hk] at hpe
    have : rne (p / (2 : ℚ) ^ ulpExp y) ≤ rne (y / (2 : ℚ) ^ ulpExp y) := by
      apply le_rne
      have h1 : (rne (p / (2 : ℚ) ^ ulpExp y) : ℚ) = p / (2 : ℚ) ^ ulpExp y := by
        rw [eq_div_iff hpu.ne']
        exact hpe.symm
      rw [h1]
      exact div_le_div_of_nonneg_right hpy hpu.le
    have hq : (rne (p / (2 : ℚ) ^ ulpExp y) : ℚ) ≤ (rne (y / (2 : ℚ) ^ ulpExp y) : ℚ) := by
      exact_mod_cast this
    calc p = (rne (p / (2 : ℚ) ^ ulpExp y) : ℚ) * (2 : ℚ) ^ ulpExp y := hpe
      _ ≤ (rne (y / (2 : ℚ) ^ ulpExp y) : ℚ) * (2 : ℚ) ^ ulpExp y :=
          mul_le_mul_of_nonneg_right hq hpu.le
  · have hlt : binExp p < binExp y ∧ -1022 < binExp y := by
      unfold ulpExp at hk
      rcases le_total (binExp p) (-1022) with a | a <;>
        rcases le_total (binExp y) (-1022) with b | b
      · rw [max_eq_right a, max_eq_right b] at hk
        exact absurd rfl hk
      · rw [max_eq_right a, max_eq_left b] at hk
        constructor <;> omega
      · rw [max_eq_left a, max_eq_right b] at hk
        constructor <;> omega
      · rw [max_eq_left a, max_eq_left b] at hk
        constructor <;> omega
    have hu : ulpExp y = binExp y - 52 := by
      unfold ulpExp
      rw [max_eq_left (by omega)]
    have h52 : ((2 ^ 52 : Int) : ℚ) = (2 : ℚ) ^ (52 : Int) := by norm_num
    have hge : ((2 ^ 52 : Int) : ℚ) ≤ y / (2 : ℚ) ^ ulpExp y := by
      rw [le_div_iff₀ hpu, hu, h52, ← zpow_add₀ h2]
      have : (52 : Int) + (binExp y - 52) = binExp y := by omega
      rw [this]
      exact y1
    have hr := le_rne _ _ hge
    have hrq : ((2 ^ 52 : Int) : ℚ) ≤ (rne (y / (2 : ℚ) ^ ulpExp y) : ℚ) := by exact_mod_cast hr
    have hpow : p ≤ (2 : ℚ) ^ binExp y := by
      have : (2 : ℚ) ^ (binExp p + 1) ≤ (2 : ℚ) ^ binExp y :=
        zpow_le_zpow_right₀ (by norm_num) (by omega)
      linarith
    calc p ≤ (2 : ℚ) ^ binExp y := hpow
      _ = ((2 ^ 52 : Int) : ℚ) * (2 : ℚ) ^ ulpExp y := by
          rw [hu, h52, ← zpow_add₀ h2]
          congr 1
          omega
      _ ≤ (rne (y / (2 : ℚ) ^ ulpExp y) : ℚ) * (2 : ℚ) ^ ulpExp y :=
          mul_le_mul_of_nonneg_right hrq hpu.le

/-- A `double` above a positive `y` is at least the rounding of `y`. -/
theorem fl_le_pos (p y : ℚ) (hy : 0 < y) (hyp : y ≤ p) (hd : fl p = p) : fl y ≤ p := by
  have hp : 0 < p := lt_of_lt_of_le hy hyp
  have h2 : (2 : ℚ) ≠ 0 := by norm_num
  have hm := binExp_mono y p hy hyp
  obtain ⟨y1, y2⟩ := binExp_spec y hy.ne'
  obtain ⟨p1, p2⟩ := binExp_spec p hp.ne'
  rw [abs_of_pos hp] at p1 p2
  rw [abs_of_pos hy] at y1 y2
  have hpu : (0 : ℚ) < (2 : ℚ) ^ ulpExp y := by positivity
  rw [fl_eq y hy.ne']
  by_cases hk : ulpExp p = ulpExp y
  · have hpe := fl_eq p hp.ne'
    rw [hd, hk] at hpe
    have : rne (y / (2 : ℚ) ^ ulpExp y) ≤ rne (p / (2 : ℚ) ^ ulpExp y) := by
      apply rne_le
      have h1 : (rne (p / (2 : ℚ) ^ ulpExp y) : ℚ) = p / (2 : ℚ) ^ ulpExp y := by
        rw [eq_div_iff hpu.ne']
        exact hpe.symm
      rw [h1]
      exact div_le_div_of_nonneg_right hyp hpu.le
    have hq : (rne (y / (2 : ℚ) ^ ulpExp y) : ℚ) ≤ (rne (p / (2 : ℚ) ^ ulpExp y) : ℚ) := by
      exact_mod_cast this
    calc (rne (y / (2 : ℚ) ^ ulpExp y) : ℚ) * (2 : ℚ) ^ ulpExp y
        ≤ (rne (p / (2 : ℚ) ^ ulpExp y) : ℚ) * (2 : ℚ) ^ ulpExp y :=
          mul_le_mul_of_nonneg_right hq hpu.le
      _ = p := hpe.symm
  · have hlt : binExp y < binExp p ∧ -1022 < binExp p := by
      unfold ulpExp at hk
      rcases le_total (binExp p) (-1022) with a | a <;>
        rcases le_total (binExp y) (-1022) with b | b
      · rw [max_eq_right a, max_eq_right b] at hk
        exact absurd rfl hk
      · rw [max_eq_right a, max_eq_left b] at hk
        constructor <;> omega
      · rw [max_eq_left a, max_eq_right b] at hk
        constructor <;> omega
      · rw [max_eq_left a, max_eq_left b] at hk
        constructor <;> omega
    -- the rounded value is at most 2 ^ (max (binExp y) (-1022) + 1)
    have h53 : ((2 ^ 53 : Int) : ℚ) = (2 : ℚ) ^ (53 : Int) := by norm_num
    have hle : y / (2 : ℚ) ^ ulpExp y ≤ ((2 ^ 53 : Int) : ℚ) := by
      rw [div_le_iff₀ hpu, h53, ← zpow_add₀ h2]
      have : (53 : Int) + ulpExp y = ulpExp y + 53 := by omega
      rw [this]
      have : (2 : ℚ) ^ (binExp y + 1) ≤ (2 : ℚ) ^ (ulpExp y + 53) :=
        zpow_le_zpow_right₀ (by norm_num) (by unfold ulpExp; have := le_max_left (binExp y) (-1022); omega)
      linarith
    have hr := rne_le _ _ hle
    have hrq : (rne (y / (2 : ℚ) ^ ulpExp y) : ℚ) ≤ ((2 ^ 53 : Int) : ℚ) := by exact_mod_cast hr
    calc (rne (y / (2 : ℚ) ^ ulpExp y) : ℚ) * (2 : ℚ) ^ ulpExp y
        ≤ ((2 ^ 53 : Int) : ℚ) * (2 : ℚ) ^ ulpExp y := mul_le_mul_of_nonneg_right hrq hpu.le
      _ = (2 : ℚ) ^ (ulpExp y + 53) := by
          rw [h53, ← zpow_add₀ h2]
          congr 1
          omega
      _ ≤ (2 : ℚ) ^ binExp p :=
          zpow_le_zpow_right₀ (by norm_num) (by
            unfold ulpExp
            rcases le_total (binExp y) (-1022) with b | b
            · rw [max_eq_right b]; omega
            · rw [max_eq_left b]; omega)
      _ ≤ p := p1

/-- Rounding never crosses a `double`. -/
theorem le_fl (p y : ℚ) (hpy : p ≤ y) (hd : fl p = p) : p ≤ fl y := by
  rcases lt_trichotomy p 0 with hp | hp | hp
  · by_cases hy : 0 ≤ y
    · exact le_trans hp.le (fl_nonneg y hy)
    · have hy' : y < 0 := not_le.1 hy
      have hd' : fl (-p) = -p := by rw [fl_neg, hd]
      have := fl_le_pos (-p) (-y) (by linarith) (by linarith) hd'
      rw [fl_neg] at this
      linarith
  · rw [hp] at hpy ⊢
    exact fl_nonneg y hpy
  · exact le_fl_pos p y hp hpy hd

theorem fl_le (p y : ℚ) (hyp : y ≤ p) (hd : fl p = p) : fl y ≤ p := by
  have hd' : fl (-p) = -p := by rw [fl_neg, hd]
  have := le_fl (-p) (-y) (by linarith) hd'
  rw [fl_neg] at this
  linarith

/-! ## Results computed in `double` arithmetic -/

/-- In the normal range the rounding of a positive value is the value times a
factor within `2 ^ (-53)` of 1. -/
theorem fl_factor (x : ℚ) (hx : 1 / 2 ^ 1022 ≤ x) :
    ∃ u : ℚ, fl x = x * u ∧ 1 - 1 / 2 ^ 53 ≤ u ∧ u ≤ 1 + 1 / 2 ^ 53 := by
  have hpos : 0 < x := lt_of_lt_of_le (by positivity) hx
  have e1 : (2 : ℚ) ^ (-1022 : Int) = 1 / 2 ^ 1022 := by
    rw [zpow_neg, one_div]
    norm_cast
  have e2 : (2 : ℚ) ^ (-53 : Int) = 1 / 2 ^ 53 := by
    rw [zpow_neg, one_div]
    norm_cast
  have h := fl_err x (by rw [abs_of_pos hpos, e1]; exact hx)
  rw [abs_of_pos hpos, abs_le, e2] at h
  refine ⟨fl x / x, by field_simp, ?_, ?_⟩
  · rw [le_div_iff₀ hpos]
    linarith [h.1]
  · rw [div_le_iff₀ hpos]
    linarith [h.2]

/-- In the normal range the rounding of a positive value lies between its half
and its double. -/
theorem fl_rough (x : ℚ) (hx : 1 / 2 ^ 1022 ≤ x) : x / 2 ≤ fl x ∧ fl x ≤ 2 * x := by
  have hpos : 0 < x := lt_of_lt_of_le (by positivity) hx
  obtain ⟨u, e, l, r⟩ := fl_factor x hx
  rw [e]
  have l2 : (1 : ℚ) / 2 ≤ u := le_trans (by norm_num) l
  have r2 : u ≤ 2 := le_trans r (by norm_num)
  constructor
  · nlinarith
  · nlinarith

/-- The conversion to `int` of a value from 0 to below `2 ^ 31` is its integer
part. -/
theorem castInt_of_nonneg (x : ℚ) (h0 : 0 ≤ x) (h1 : x < 2147483648) :
    castInt x = some (Int.floor x) := by
  have hf0 : 0 ≤ Int.floor x := Int.floor_nonneg.2 h0
  have hf1 : Int.floor x < 2147483648 := by
    apply Int.floor_lt.2
    push_cast
    exact h1
  unfold castInt
  simp only [h0, if_true]
  rw [if_pos ⟨by omega, by omega⟩]

/-- Clamping to 0..100 the integer part of a value plus one half is rounding
the value capped at 100, for a value that is not negative. -/
theorem qBound_floor_half (x : ℚ) (hx : 0 ≤ x) :
    qBound 0 (Int.floor (x + 1 / 2)) 100 = round (min (100 : ℚ) x) := by
  rw [← round_eq]
  unfold qBound
  have hr0 : 0 ≤ round x := by
    rw [round_eq]
    apply Int.floor_nonneg.2
    linarith
  by_cases h : x < 100
  · have hr : round x ≤ 100 := by
      rw [round_eq]
      have : Int.floor (x + 1 / 2) < 101 := by
        apply Int.floor_lt.2
        push_cast
        linarith
      omega
    rw [min_eq_right h.le, min_eq_right hr, max_eq_right hr0]
  · have h100 : (100 : ℚ) ≤ x := not_lt.1 h
    have hr : 100 ≤ round x := by
      rw [round_eq]
      apply Int.le_floor.2
      push_cast
      linarith
    rw [min_eq_left h100, min_eq_left hr]
    have : round (100 : ℚ) = 100 := by
      exact_mod_cast round_natCast (α := ℚ) 100
    rw [this]
    rfl

/-! ## Derived metrics -/

/-- C7. The function `calcCardioCal` returns `MET * W * (d / 60)` in exact
arithmetic, with MET 9.8 for `Running`, 8.0 for `Swimming`, 3.5 for `Walking`
and 7.5 for every other type text (`Cycling` included), and `W` the profile
weight when it is positive and 70 otherwise; a 30-minute run at 70 kg gives
343. -/
theorem calcCardioCal_formula (user : UserProfile) (t : QString) (d : Int) :
    calcCardioCal user "Running".data d
        = 9.8 * (if user.weight > 0 then user.weight else 70) * ((d : ℚ) / 60) ∧
      calcCardioCal user "Swimming".data d
        = 8.0 * (if user.weight > 0 then user.weight else 70) * ((d : ℚ) / 60) ∧
      calcCardioCal user "Walking".data d
        = 3.5 * (if user.weight > 0 then user.weight else 70) * ((d : ℚ) / 60) ∧
      calcCardioCal user "Cycling".data d
        = 7.5 * (if user.weight > 0 then user.weight else 70) * ((d : ℚ) / 60) ∧
      (t ≠ "Running".data → t ≠ "Swimming".data → t ≠ "Walking".data →
        calcCardioCal user t d
          = 7.5 * (if user.weight > 0 then user.weight else 70) * ((d : ℚ) / 60)) ∧
      calcCardioCal { weight := 70 } "Running".data 30 = 343 ∧
      calcCardioCal { weight := 0 } "Running".data 30 = 343 := by
  have h60 : (60.0 : ℚ) = 60 := by norm_num
  refine ⟨?_, ?_, ?_, ?_, ?_, by decide!, by decide!⟩
  · simp [calcCardioCal, h60]
  · have h : "Swimming".data ≠ "Running".data := by decide
    simp [calcCardioCal, h, h60]
  · have h1 : "Walking".data ≠ "Running".data := by decide
    have h2 : "Walking".data ≠ "Swimming".data := by decide
    simp [calcCardioCal, h1, h2, h60]
  · have h1 : "Cycling".data ≠ "Running".data := by decide
    have h2 : "Cycling".data ≠ "Swimming".data := by decide
    have h3 : "Cycling".data ≠ "Walking".data := by decide
    simp [calcCardioCal, h1, h2, h3, h60]
  · intro h1 h2 h3
    simp [calcCardioCal, h1, h2, h3, h60]

/-- Witness for C7: a type text outside the table, `Rowing`, 45 minutes at
80 kg. -/
theorem calcCardioCal_formula_witness :
    calcCardioCal { weight := 80 } "Rowing".data 45
      = 7.5 * (if (80 : ℚ) > 0 then 80 else 70) * (((45 : Int) : ℚ) / 60) :=
  (calcCardioCal_formula { weight := 80 } "Rowing".data 45).2.2.2.2.1
    (by decide) (by decide) (by decide)

/-- C8. For every entered date, type, duration `m` and distance `x`,
`saveCardio` completes without evaluating a division by zero and appends one
workout whose `avgSpeed` is `x * 60 / m` when `m > 0` and 0 when `m ≤ 0`. -/
theorem saveCardio_avgSpeed (date type : QString) (m : Int) (x : ℚ) (st : State) (fs : Files) :
    avgSpeedOf x m = some (if 0 < m then x * 60 / (m : ℚ) else 0) ∧
      ∃ w st1 fs1, saveCardio date type m x st fs = some (st1, fs1) ∧
        st1.cardio = st.cardio ++ [w] ∧ w.distance = x ∧ w.duration = m ∧
        w.avgSpeed = (if 0 < m then x * 60 / (m : ℚ) else 0) := by
  have h : avgSpeedOf x m = some (if 0 < m then x * 60 / (m : ℚ) else 0) := by
    unfold avgSpeedOf fdiv
    by_cases hm : 0 < m
    · have hne : (m : ℚ) ≠ 0 := by
        have : (0 : ℚ) < (m : ℚ) := by exact_mod_cast hm
        exact ne_of_gt this
      simp only [gt_iff_lt, hm, if_true, hne, if_false]
      norm_num
    · simp only [gt_iff_lt, hm, if_false]
      norm_num
  refine ⟨h, ?_⟩
  unfold saveCardio
  rw [h]
  exact ⟨_, _, _, rfl, rfl, rfl, rfl, rfl⟩

theorem foldl_add_eq_sum {α : Type} (f : α → ℚ) (l : List α) (v : ℚ) :
    l.foldl (fun v s => v + f s) v = v + (l.map f).sum := by
  induction l generalizing v with
  | nil => simp
  | cons a t ih => simp [ih, add_assoc]

theorem addVolume_eq (v : ℚ) (exercises : List Exercise) :
    addVolume v exercises = v + volume exercises := by
  unfold addVolume volume
  induction exercises generalizing v with
  | nil => simp
  | cons e t ih =>
    simp only [List.foldl_cons, List.map_cons, List.sum_cons]
    rw [ih, foldl_add_eq_sum (fun s : ExerciseSet => (s.reps : ℚ) * s.weight)]
    ring

/-- C9. When the current workout has at least one exercise, `saveStrength`
appends one workout, made of those exercises, whose calories are
`5.0 * W * 0.15 + V * 0.01` in exact arithmetic, `V` the sum of `reps * weight`
over all sets of all exercises and `W` the profile weight when it is positive
and 70 otherwise. -/
theorem saveStrength_calories (date : QString) (st : State) (fs : Files) (h : st.curEx ≠ []) :
    ∃ w, (saveStrength date st fs).1.strength = st.strength ++ [w] ∧
      w.exercises = st.curEx ∧
      w.calories = 5.0 * (if st.user.weight > 0 then st.user.weight else 70) * 0.15
        + volume st.curEx * 0.01 := by
  unfold saveStrength
  cases hc : st.curEx with
  | nil => exact absurd hc h
  | cons e t =>
    refine ⟨_, rfl, rfl, ?_⟩
    simp only [calcStrCal]
    rw [addVolume_eq]
    simp

/-- Witness for C9: three sets of bench press at 70 kg profile weight,
volume 1440, calories 66.9. -/
theorem saveStrength_calories_witness :
    ∃ w, (saveStrength "2024-01-01".data
            { user := { weight := 70 },
              curEx := [{ name := "Bench Press".data,
                          sets := [{ reps := 8, weight := 60 }, { reps := 8, weight := 60 },
                                   { reps := 8, weight := 60 }] }] }
            (fun _ => none)).1.strength = [] ++ [w] ∧
      w.exercises = [{ name := "Bench Press".data,
                       sets := [{ reps := 8, weight := 60 }, { reps := 8, weight := 60 },
                                { reps := 8, weight := 60 }] }] ∧
      w.calories = 5.0 * (if (70 : ℚ) > 0 then 70 else 70) * 0.15
        + volume [{ name := "Bench Press".data,
                    sets := [{ reps := 8, weight := 60 }, { reps := 8, weight := 60 },
                             { reps := 8, weight := 60 }] }] * 0.01 :=
  saveStrength_calories "2024-01-01".data
    { user := { weight := 70 },
      curEx := [{ name := "Bench Press".data,
                  sets := [{ reps := 8, weight := 60 }, { reps := 8, weight := 60 },
                           { reps := 8, weight := 60 }] }] }
    (fun _ => none) (by decide)

/-- The BMI of `refresh` for a weight and a height between `2 ^ (-100)` and
`2 ^ 100`: a positive finite `double` within the fraction `2 ^ (-50)` of the
exact quotient. -/
theorem refreshBmi_double (user : UserProfile)
    (hw1 : 1 / 2 ^ 100 ≤ user.weight) (hw2 : user.weight ≤ 2 ^ 100)
    (hh1 : 1 / 2 ^ 100 ≤ user.height) (hh2 : user.height ≤ 2 ^ 100) :
    ∃ bmi : ℚ, refreshBmi user = some bmi ∧ 0 < bmi ∧ bmi ≤ 2 ^ 400 ∧
      |bmi - bmiClaimed user| ≤ bmiClaimed user * (1 / 2 ^ 50) := by
  have hw : 0 < user.weight := lt_of_lt_of_le (by norm_num) hw1
  have hh : 0 < user.height := lt_of_lt_of_le (by norm_num) hh1
  obtain ⟨a, ha⟩ : ∃ a : ℚ, a = user.height / 100 := ⟨_, rfl⟩
  have ha0 : 0 < a := by rw [ha]; exact div_pos hh (by norm_num)
  have ha1 : 1 / 2 ^ 107 ≤ a := by
    rw [ha]
    calc (1 : ℚ) / 2 ^ 107 ≤ 1 / 2 ^ 100 / 100 := by norm_num
      _ ≤ user.height / 100 := div_le_div_of_nonneg_right hh1 (by norm_num)
  have ha2 : a ≤ 2 ^ 100 := by
    rw [ha]
    calc user.height / 100 ≤ user.height := by
          rw [div_le_iff₀ (by norm_num : (0 : ℚ) < 100)]
          linarith
      _ ≤ 2 ^ 100 := hh2
  obtain ⟨u1, e1, l1, r1⟩ := fl_factor a (le_trans (by norm_num) ha1)
  obtain ⟨f1l, f1r⟩ := fl_rough a (le_trans (by norm_num) ha1)
  have hf0 : 0 < fl a := lt_of_lt_of_le (half_pos ha0) f1l
  -- the square
  have hs1 : 1 / 2 ^ 216 ≤ fl a * fl a := by
    have : (1 : ℚ) / 2 ^ 108 ≤ fl a := by linarith
    calc (1 : ℚ) / 2 ^ 216 = 1 / 2 ^ 108 * (1 / 2 ^ 108) := by norm_num
      _ ≤ fl a * fl a := mul_le_mul this this (by positivity) hf0.le
  have hs2 : fl a * fl a ≤ 2 ^ 202 := by
    have : fl a ≤ 2 ^ 101 := by linarith
    calc fl a * fl a ≤ 2 ^ 101 * 2 ^ 101 := mul_le_mul this this hf0.le (by positivity)
      _ = 2 ^ 202 := by norm_num
  obtain ⟨u2, e2, l2, r2⟩ := fl_factor (fl a * fl a) (le_trans (by norm_num) hs1)
  obtain ⟨f2l, f2r⟩ := fl_rough (fl a * fl a) (le_trans (by norm_num) hs1)
  have hq0 : 0 < fl (fl a * fl a) := lt_of_lt_of_le (half_pos (mul_pos hf0 hf0)) f2l
  -- the quotient
  have hr1 : 1 / 2 ^ 303 ≤ user.weight / fl (fl a * fl a) := by
    rw [le_div_iff₀ hq0]
    have : fl (fl a * fl a) ≤ 2 ^ 203 := by linarith
    calc 1 / 2 ^ 303 * fl (fl a * fl a) ≤ 1 / 2 ^ 303 * 2 ^ 203 :=
          mul_le_mul_of_nonneg_left this (by positivity)
      _ = 1 / 2 ^ 100 := by norm_num
      _ ≤ user.weight := hw1
  obtain ⟨u3, e3, l3, r3⟩ := fl_factor _ (le_trans (by norm_num) hr1)
  obtain ⟨-, f3r⟩ := fl_rough _ (le_trans (by norm_num) hr1)
  have hr2 : user.weight / fl (fl a * fl a) ≤ 2 ^ 318 := by
    rw [div_le_iff₀ hq0]
    have : (1 : ℚ) / 2 ^ 217 ≤ fl (fl a * fl a) := by linarith
    calc user.weight ≤ 2 ^ 100 := hw2
      _ = 2 ^ 318 * (1 / 2 ^ 218) := by norm_num
      _ ≤ 2 ^ 318 * fl (fl a * fl a) :=
          mul_le_mul_of_nonneg_left (le_trans (by norm_num) this) (by norm_num)
  have hu1 : 0 < u1 := lt_of_lt_of_le (by norm_num) l1
  have hu2 : 0 < u2 := lt_of_lt_of_le (by norm_num) l2
  have hu3 : 0 < u3 := lt_of_lt_of_le (by norm_num) l3
  have hbmi : refreshBmi user = some (fl (user.weight / fl (fl a * fl a))) := by
    unfold refreshBmi fdiv
    rw [if_pos hh, ← ha, if_neg hq0.ne']
    rfl
  have hval : fl (user.weight / fl (fl a * fl a))
      = bmiClaimed user * (u3 / (u1 * u1 * u2)) := by
    rw [e3, e2, e1]
    unfold bmiClaimed
    rw [← ha]
    field_simp
    ring
  have hB : 0 < bmiClaimed user := by
    unfold bmiClaimed
    rw [← ha]
    exact div_pos hw (pow_pos ha0 2)
  -- the factor
  have hden_lo : (1 - 1 / 2 ^ 53) * (1 - 1 / 2 ^ 53) * (1 - 1 / 2 ^ 53) ≤ u1 * u1 * u2 :=
    mul_le_mul (mul_le_mul l1 l1 (by norm_num) hu1.le) l2 (by norm_num)
      (mul_pos hu1 hu1).le
  have hden_hi : u1 * u1 * u2 ≤ (1 + 1 / 2 ^ 53) * (1 + 1 / 2 ^ 53) * (1 + 1 / 2 ^ 53) :=
    mul_le_mul (mul_le_mul r1 r1 hu1.le (by norm_num)) r2 hu2.le (by norm_num)
  have hden0 : 0 < u1 * u1 * u2 := mul_pos (mul_pos hu1 hu1) hu2
  have hfac_hi : u3 / (u1 * u1 * u2) ≤ 1 + 1 / 2 ^ 50 := by
    calc u3 / (u1 * u1 * u2)
        ≤ (1 + 1 / 2 ^ 53) / ((1 - 1 / 2 ^ 53) * (1 - 1 / 2 ^ 53) * (1 - 1 / 2 ^ 53)) :=
          div_le_div₀ (by norm_num) r3 (by norm_num) hden_lo
      _ ≤ 1 + 1 / 2 ^ 50 := by norm_num
  have hfac_lo : 1 - 1 / 2 ^ 50 ≤ u3 / (u1 * u1 * u2) := by
    calc (1 : ℚ) - 1 / 2 ^ 50
        ≤ (1 - 1 / 2 ^ 53) / ((1 + 1 / 2 ^ 53) * (1 + 1 / 2 ^ 53) * (1 + 1 / 2 ^ 53)) := by
          norm_num
      _ ≤ u3 / (u1 * u1 * u2) := div_le_div₀ hu3.le l3 hden0 hden_hi
  obtain ⟨f, hf⟩ : ∃ f : ℚ, f = u3 / (u1 * u1 * u2) := ⟨_, rfl⟩
  rw [← hf] at hval hfac_hi hfac_lo
  have hf0 : 0 < f := by rw [hf]; exact div_pos hu3 hden0
  have k1 := mul_nonneg hB.le (sub_nonneg.2 hfac_lo)
  have k2 := mul_nonneg hB.le (sub_nonneg.2 hfac_hi)
  refine ⟨_, hbmi, ?_, ?_, ?_⟩
  · rw [hval]
    exact mul_pos hB hf0
  · calc fl (user.weight / fl (fl a * fl a)) ≤ 2 * (user.weight / fl (fl a * fl a)) := f3r
      _ ≤ 2 * 2 ^ 318 := mul_le_mul_of_nonneg_left hr2 (by norm_num)
      _ ≤ 2 ^ 400 := by norm_num
  · rw [hval, abs_le]
    constructor <;> linarith

/-- C10 (as amended). In `refresh`, for a profile whose weight and height lie
between `2 ^ (-100)` and `2 ^ 100`, the BMI is a positive finite `double` that
differs from `weight / (height / 100) ^ 2` by at most the fraction `2 ^ (-50)`
of it, and the labels show that `double`: its value to one decimal and its
category. A profile with `height ≤ 0` has no BMI: the label reads `--` and the
category `N/A`, and no division by zero is evaluated. -/
theorem refresh_bmi (user : UserProfile) :
    (1 / 2 ^ 100 ≤ user.weight → user.weight ≤ 2 ^ 100 →
      1 / 2 ^ 100 ≤ user.height → user.height ≤ 2 ^ 100 →
      ∃ bmi : ℚ, refreshBmi user = some bmi ∧ 0 < bmi ∧ bmi ≤ 2 ^ 400 ∧
        |bmi - bmiClaimed user| ≤ bmiClaimed user * (1 / 2 ^ 50) ∧
        refreshBmiLabels user
          = some (numberF1 bmi, "Category: ".data ++ bmiCategory bmi)) ∧
      (user.height ≤ 0 →
        refreshBmi user = some 0 ∧
        refreshBmiLabels user = some ("--".data, "Category: N/A".data)) := by
  constructor
  · intro hw1 hw2 hh1 hh2
    obtain ⟨bmi, hb, hpos, hfin, herr⟩ := refreshBmi_double user hw1 hw2 hh1 hh2
    refine ⟨bmi, hb, hpos, hfin, herr, ?_⟩
    unfold refreshBmiLabels
    rw [hb]
    simp [bmiLblText, hpos]
  · intro hh
    have hnon : refreshBmi user = some 0 := by
      simp [refreshBmi, not_lt.2 hh]
    refine ⟨hnon, ?_⟩
    unfold refreshBmiLabels
    rw [hnon]
    decide!

/-- Witness for C10: 70 kg at 170 cm, and a profile without height. -/
theorem refresh_bmi_witness :
    (∃ bmi : ℚ, refreshBmi { weight := 70, height := 170 } = some bmi ∧ 0 < bmi ∧
        bmi ≤ 2 ^ 400 ∧
        |bmi - bmiClaimed { weight := 70, height := 170 }|
          ≤ bmiClaimed { weight := 70, height := 170 } * (1 / 2 ^ 50) ∧
        refreshBmiLabels { weight := 70, height := 170 }
          = some (numberF1 bmi, "Category: ".data ++ bmiCategory bmi)) ∧
      refreshBmiLabels { weight := 70, height := 170 }
        = some ("24.2".data, "Category: Normal".data) ∧
      refreshBmiLabels { weight := 70, height := 0 }
        = some ("--".data, "Category: N/A".data) := by
  refine ⟨(refresh_bmi _).1 (by decide!) (by decide!) (by decide!) (by decide!), by decide!,
    ((refresh_bmi { weight := 70, height := 0 }).2 (by decide!)).2⟩

/-- C10 as stated fails. For 64 kg at 160 cm the formula gives 25, category
Overweight; `refresh` computes the `double` 24.999999999999996 (1.6 is not a
`double`, and 64 divided by the rounded square of its rounding is less than
25), shows it as 25.0 and puts it in the category Normal. -/
theorem refresh_bmi_fails :
    bmiClaimed { weight := 64, height := 160 } = 25 ∧
      bmiCategory (bmiClaimed { weight := 64, height := 160 }) = "Overweight".data ∧
      refreshBmi { weight := 64, height := 160 }
        = some (7036874417766399 / 281474976710656) ∧
      refreshBmiLabels { weight := 64, height := 160 }
        = some ("25.0".data, "Category: Normal".data) := by
  decide!

/-! ## Reals of at most six significant digits survive the text form -/

theorem showNat_length_bounds (n : Nat) (hn : 0 < n) :
    10 ^ ((showNat n).length - 1) ≤ n ∧ n < 10 ^ (showNat n).length := by
  induction n using Nat.strong_induction_on with
  | _ n ih =>
    by_cases h : n < 10
    · rw [showNat_lt_ten n h]
      simp
      omega
    · rw [showNat_ge_ten n h]
      have hpos : 0 < n / 10 := by omega
      obtain ⟨h1, h2⟩ := ih (n / 10) (by omega) hpos
      have hl : 0 < (showNat (n / 10)).length :=
        List.length_pos.2 (showNat_ne_nil _)
      simp only [List.length_append, List.length_singleton, Nat.add_sub_cancel]
      constructor
      · calc 10 ^ (showNat (n / 10)).length
            = 10 ^ ((showNat (n / 10)).length - 1) * 10 := by
              rw [← pow_succ]; congr 1; omega
          _ ≤ (n / 10) * 10 := Nat.mul_le_mul_right _ h1
          _ ≤ n := Nat.div_mul_le_self n 10
      · rw [pow_succ]
        omega

theorem scaleLE_iff (n d : Nat) (hd : 0 < d) (t : Int) :
    scaleLE n d t = true ↔ (10 : ℚ) ^ t ≤ (n : ℚ) / (d : ℚ) := by
  have hdq : (0 : ℚ) < (d : ℚ) := by exact_mod_cast hd
  unfold scaleLE
  by_cases ht : 0 ≤ t
  · obtain ⟨j, rfl⟩ := Int.eq_ofNat_of_zero_le ht
    simp only [ht, if_true, Int.toNat_ofNat, decide_eq_true_eq, zpow_natCast]
    rw [le_div_iff₀ hdq]
    constructor
    · intro h
      have : ((d * 10 ^ j : Nat) : ℚ) ≤ (n : ℚ) := by exact_mod_cast h
      push_cast at this
      linarith
    · intro h
      have : ((d * 10 ^ j : Nat) : ℚ) ≤ (n : ℚ) := by push_cast; linarith
      exact_mod_cast this
  · have hneg : t < 0 := not_le.1 ht
    obtain ⟨j, hj⟩ : ∃ j : Nat, t = -(j : Int) := ⟨(-t).toNat, by omega⟩
    subst hj
    simp only [ht, if_false, neg_neg, Int.toNat_ofNat, decide_eq_true_eq, zpow_neg,
      zpow_natCast]
    have hp : (0 : ℚ) < (10 : ℚ) ^ j := by positivity
    rw [le_div_iff₀ hdq, inv_mul_le_iff₀ hp]
    constructor
    · intro h
      have : ((d : Nat) : ℚ) ≤ ((n * 10 ^ j : Nat) : ℚ) := by exact_mod_cast h
      push_cast at this
      linarith
    · intro h
      have : ((d : Nat) : ℚ) ≤ ((n * 10 ^ j : Nat) : ℚ) := by push_cast; linarith
      exact_mod_cast this

theorem zpow_ten_window (a b : Int) (x : ℚ) (h1 : (10 : ℚ) ^ a ≤ x) (h2 : x < (10 : ℚ) ^ b) :
    a < b := by
  have h : (10 : ℚ) ^ a < (10 : ℚ) ^ b := lt_of_le_of_lt h1 h2
  exact (zpow_lt_zpow_iff_right₀ (by norm_num : (1 : ℚ) < 10)).1 h

theorem decExp_correct (n d : Nat) (hn : 0 < n) (hd : 0 < d) (e : Int)
    (h1 : (10 : ℚ) ^ e ≤ (n : ℚ) / (d : ℚ)) (h2 : (n : ℚ) / (d : ℚ) < (10 : ℚ) ^ (e + 1)) :
    decExp n d = e := by
  have hdq : (0 : ℚ) < (d : ℚ) := by exact_mod_cast hd
  have h10 : (10 : ℚ) ≠ 0 := by norm_num
  obtain ⟨na, nb⟩ := showNat_length_bounds n hn
  obtain ⟨da, db⟩ := showNat_length_bounds d hd
  have la : 0 < (showNat n).length := List.length_pos.2 (showNat_ne_nil _)
  have lb : 0 < (showNat d).length := List.length_pos.2 (showNat_ne_nil _)
  set a := (showNat n).length with ha
  set b := (showNat d).length with hb
  have naq : (10 : ℚ) ^ ((a : Int) - 1) ≤ (n : ℚ) := by
    have : ((10 ^ (a - 1) : Nat) : ℚ) ≤ (n : ℚ) := by exact_mod_cast na
    have e1 : ((a : Int) - 1) = ((a - 1 : Nat) : Int) := by omega
    rw [e1, zpow_natCast]
    exact_mod_cast this
  have nbq : (n : ℚ) < (10 : ℚ) ^ (a : Int) := by
    have : (n : ℚ) < ((10 ^ a : Nat) : ℚ) := by exact_mod_cast nb
    rw [zpow_natCast]
    exact_mod_cast this
  have daq : (10 : ℚ) ^ ((b : Int) - 1) ≤ (d : ℚ) := by
    have : ((10 ^ (b - 1) : Nat) : ℚ) ≤ (d : ℚ) := by exact_mod_cast da
    have e1 : ((b : Int) - 1) = ((b - 1 : Nat) : Int) := by omega
    rw [e1, zpow_natCast]
    exact_mod_cast this
  have dbq : (d : ℚ) < (10 : ℚ) ^ (b : Int) := by
    have : (d : ℚ) < ((10 ^ b : Nat) : ℚ) := by exact_mod_cast db
    rw [zpow_natCast]
    exact_mod_cast this
  have hup : (n : ℚ) / (d : ℚ) < (10 : ℚ) ^ ((a : Int) - b + 1) := by
    rw [div_lt_iff₀ hdq]
    have hp : (0 : ℚ) < (10 : ℚ) ^ ((a : Int) - b + 1) := by positivity
    calc (n : ℚ) < (10 : ℚ) ^ (a : Int) := nbq
      _ = (10 : ℚ) ^ ((a : Int) - b + 1) * (10 : ℚ) ^ ((b : Int) - 1) := by
          rw [← zpow_add₀ h10]; congr 1; omega
      _ ≤ (10 : ℚ) ^ ((a : Int) - b + 1) * (d : ℚ) := by
          exact mul_le_mul_of_nonneg_left daq hp.le
  have hlo : (10 : ℚ) ^ ((a : Int) - b - 1) < (n : ℚ) / (d : ℚ) := by
    rw [lt_div_iff₀ hdq]
    have hp : (0 : ℚ) < (10 : ℚ) ^ ((a : Int) - b - 1) := by positivity
    calc (10 : ℚ) ^ ((a : Int) - b - 1) * (d : ℚ)
        < (10 : ℚ) ^ ((a : Int) - b - 1) * (10 : ℚ) ^ (b : Int) := by
          exact mul_lt_mul_of_pos_left dbq hp
      _ = (10 : ℚ) ^ ((a : Int) - 1) := by
          rw [← zpow_add₀ h10]; congr 1; omega
      _ ≤ (n : ℚ) := naq
  unfold decExp
  simp only [← ha, ← hb]
  by_cases hs : scaleLE n d ((a : Int) - b) = true
  · rw [if_pos hs]
    have hs2 := (scaleLE_iff n d hd _).1 hs
    have c1 := zpow_ten_window _ _ _ hs2 h2
    have c2 := zpow_ten_window _ _ _ h1 hup
    omega
  · rw [if_neg hs]
    have hs2 : (n : ℚ) / (d : ℚ) < (10 : ℚ) ^ ((a : Int) - b) := by
      by_contra hc
      exact hs ((scaleLE_iff n d hd _).2 (not_lt.1 hc))
    have c1 := zpow_ten_window _ _ _ hlo.le h2
    have c2 := zpow_ten_window _ _ _ h1 hs2
    omega

theorem roundScaled_exact (n d M : Nat) (k : Int) (hd : 0 < d)
    (h : (n : ℚ) / (d : ℚ) * (10 : ℚ) ^ k = (M : ℚ)) : roundScaled n d k = M := by
  have hdq : (0 : ℚ) < (d : ℚ) := by exact_mod_cast hd
  unfold roundScaled
  by_cases hk : 0 ≤ k
  · obtain ⟨j, rfl⟩ := Int.eq_ofNat_of_zero_le hk
    simp only [hk, if_true, Int.toNat_ofNat]
    have hN : n * 10 ^ j = M * d := by
      have : ((n * 10 ^ j : Nat) : ℚ) = ((M * d : Nat) : ℚ) := by
        push_cast
        rw [zpow_natCast] at h
        field_simp at h
        linarith
      exact_mod_cast this
    rw [hN]
    apply Nat.div_eq_of_lt_le
    · nlinarith
    · nlinarith
  · have hneg : k < 0 := not_le.1 hk
    obtain ⟨j, hj⟩ : ∃ j : Nat, k = -(j : Int) := ⟨(-k).toNat, by omega⟩
    subst hj
    simp only [hk, if_false, neg_neg, Int.toNat_ofNat]
    have hp : (0 : ℚ) < (10 : ℚ) ^ j := by positivity
    have hN : n = M * (d * 10 ^ j) := by
      have : ((n : Nat) : ℚ) = ((M * (d * 10 ^ j) : Nat) : ℚ) := by
        push_cast
        rw [zpow_neg, zpow_natCast] at h
        field_simp at h
        linarith
      exact_mod_cast this
    have hD : 0 < d * 10 ^ j := Nat.mul_pos hd (by positivity)
    rw [hN]
    apply Nat.div_eq_of_lt_le
    · nlinarith
    · nlinarith

theorem digitVal_of_isDigit (c : Char) (h : isDigit c = true) : ∃ v, digitVal c = some v := by
  unfold isDigit at h
  exact Option.isSome_iff_exists.1 h

theorem parseDigits_of_digits (s : QString) (h : ∀ c ∈ s, isDigit c = true) (acc : Nat) :
    parseDigits s acc = some (acc * 10 ^ s.length + digitsValue s) := by
  induction s generalizing acc with
  | nil => simp [parseDigits, digitsValue]
  | cons c cs ih =>
    obtain ⟨v, hv⟩ := digitVal_of_isDigit c (h c (by simp))
    have hcs : ∀ x ∈ cs, isDigit x = true := fun x hx => h x (by simp [hx])
    have e1 : digitsValue (c :: cs) = v * 10 ^ cs.length + digitsValue cs := by
      unfold digitsValue
      simp only [parseDigits, hv, ih hcs, Option.getD_some]
      ring
    simp only [parseDigits, hv, ih hcs, e1, List.length_cons]
    congr 1
    ring

theorem parseDigits_append (a b : QString) (acc : Nat) :
    parseDigits (a ++ b) acc = (parseDigits a acc).bind (parseDigits b) := by
  induction a generalizing acc with
  | nil => simp [parseDigits]
  | cons c cs ih =>
    simp only [List.cons_append, parseDigits]
    cases digitVal c with
    | none => simp
    | some d => exact ih _

theorem digitsValue_append (a b : QString) (ha : ∀ c ∈ a, isDigit c = true)
    (hb : ∀ c ∈ b, isDigit c = true) :
    digitsValue (a ++ b) = digitsValue a * 10 ^ b.length + digitsValue b := by
  have h := parseDigits_append a b 0
  rw [parseDigits_of_digits a ha 0, Option.some_bind, parseDigits_of_digits b hb] at h
  unfold digitsValue at *
  rw [h]
  simp

theorem isDigit_replicate_zero (z : Nat) : ∀ c ∈ List.replicate z '0', isDigit c = true := by
  intro c hc
  rw [List.eq_of_mem_replicate hc]
  decide

theorem digitsValue_replicate_zero (z : Nat) : digitsValue (List.replicate z '0') = 0 := by
  induction z with
  | zero => rfl
  | succ k ih =>
    have h := digitsValue_append ['0'] (List.replicate k '0') (by decide)
      (isDigit_replicate_zero k)
    have e : ['0'] ++ List.replicate k '0' = List.replicate (k + 1) '0' := by
      simp [List.replicate_succ]
    rw [e] at h
    rw [h, ih]
    simp [digitsValue, parseDigits, digitVal]

theorem stripZeros_decomp (s : QString) :
    ∃ z, s = stripZeros s ++ List.replicate z '0' := by
  refine ⟨(s.reverse.takeWhile (fun c => decide (c = '0'))).length, ?_⟩
  have h := List.takeWhile_append_dropWhile (fun c => decide (c = '0')) s.reverse
  have hrep : s.reverse.takeWhile (fun c => decide (c = '0'))
      = List.replicate (s.reverse.takeWhile (fun c => decide (c = '0'))).length '0' := by
    rw [List.eq_replicate_iff]
    refine ⟨rfl, ?_⟩
    intro c hc
    simpa using List.mem_takeWhile_imp hc
  have h2 : s = (s.reverse.dropWhile (fun c => decide (c = '0'))).reverse
      ++ (s.reverse.takeWhile (fun c => decide (c = '0'))).reverse := by
    rw [← List.reverse_append, h, List.reverse_reverse]
  rw [hrep, List.reverse_replicate] at h2
  simpa [stripZeros] using h2

theorem stripZeros_isDigit (s : QString) (h : ∀ c ∈ s, isDigit c = true) :
    ∀ c ∈ stripZeros s, isDigit c = true :=
  fun c hc => h c (mem_stripZeros s c hc)

/-- Value of a digit text over its length, unchanged by removing trailing
zeros. -/
theorem stripZeros_value (a s : QString) (ha : ∀ c ∈ a, isDigit c = true)
    (hs : ∀ c ∈ s, isDigit c = true) :
    (digitsValue (a ++ stripZeros s) : ℚ) / (10 : ℚ) ^ (stripZeros s).length
      = (digitsValue (a ++ s) : ℚ) / (10 : ℚ) ^ s.length := by
  obtain ⟨z, hz⟩ := stripZeros_decomp s
  have hst := stripZeros_isDigit s hs
  have happ : ∀ c ∈ a ++ stripZeros s, isDigit c = true := by
    intro c hc
    rcases List.mem_append.1 hc with h | h
    · exact ha c h
    · exact hst c h
  have e1 : digitsValue (a ++ s) = digitsValue (a ++ stripZeros s) * 10 ^ z := by
    have : a ++ s = (a ++ stripZeros s) ++ List.replicate z '0' := by
      rw [List.append_assoc, ← hz]
    rw [this, digitsValue_append _ _ happ (isDigit_replicate_zero z),
      digitsValue_replicate_zero]
    simp
  have e2 : s.length = (stripZeros s).length + z := by
    conv_lhs => rw [hz]
    simp
  rw [e1, e2, pow_add]
  push_cast
  have hp : (10 : ℚ) ^ z ≠ 0 := by positivity
  have hq : (10 : ℚ) ^ (stripZeros s).length ≠ 0 := by positivity
  field_simp
  ring

theorem takeWhile_dropWhile_digits (a rest : QString) (ha : ∀ c ∈ a, isDigit c = true)
    (hr : ∀ c r, rest = c :: r → isDigit c = false) :
    (a ++ rest).takeWhile isDigit = a ∧ (a ++ rest).dropWhile isDigit = rest := by
  induction a with
  | nil =>
    cases rest with
    | nil => simp
    | cons c r => simp [List.takeWhile, List.dropWhile, hr c r rfl]
  | cons x xs ih =>
    have hx : isDigit x = true := ha x (by simp)
    obtain ⟨h1, h2⟩ := ih (fun c hc => ha c (by simp [hc]))
    simp [List.takeWhile, List.dropWhile, hx, h1, h2]

theorem parseExp_expPart (e : Int) : parseExp (expPart e) = some e := by
  have hp : parseNat (if (showNat e.natAbs).length < 2 then '0' :: showNat e.natAbs
      else showNat e.natAbs) = some e.natAbs := by
    split_ifs
    · have : parseNat ('0' :: showNat e.natAbs) = parseDigits (showNat e.natAbs) 0 := by
        simp [parseNat, parseDigits, digitVal]
      rw [this, parseDigits_showNat]
    · exact parseNat_showNat _
  unfold expPart parseExp
  by_cases he : e < 0
  · have e1 : (-(e.natAbs : Int)) = e := by omega
    simp [he, signOf, hp, abs_of_neg he]
  · have e1 : ((e.natAbs : Int)) = e := by omega
    have hs : signOf ('+' :: (if (showNat e.natAbs).length < 2 then '0' :: showNat e.natAbs
        else showNat e.natAbs)) = (false, (if (showNat e.natAbs).length < 2
          then '0' :: showNat e.natAbs else showNat e.natAbs)) := by
      simp [signOf]
    simp [he, hs, hp, abs_of_nonneg (not_lt.1 he)]

/-- The value `m * 10 ^ x` as `parseUReal` computes it. -/
theorem scale_eq_zpow (m : ℚ) (x : Int) :
    (if 0 ≤ x then m * (10 : ℚ) ^ x.toNat else m / (10 : ℚ) ^ (-x).toNat) = m * (10 : ℚ) ^ x := by
  by_cases hx : 0 ≤ x
  · obtain ⟨j, rfl⟩ := Int.eq_ofNat_of_zero_le hx
    simp
  · have hneg : x < 0 := not_le.1 hx
    obtain ⟨j, hj⟩ : ∃ j : Nat, x = -(j : Int) := ⟨(-x).toNat, by omega⟩
    subst hj
    simp only [hx, if_false, neg_neg, Int.toNat_ofNat, zpow_neg, zpow_natCast]
    rw [div_eq_mul_inv]

theorem fracDigits_of_exp (ex : QString) (hexh : ∀ c r, ex = c :: r → c = 'e') :
    fracDigits ex = [] ∧ afterFrac ex = ex := by
  cases ex with
  | nil => exact ⟨rfl, rfl⟩
  | cons c r =>
    have hc := hexh c r rfl
    subst hc
    exact ⟨rfl, rfl⟩

theorem parseUReal_form (ip fp ex : QString) (E : Int) (hip : ∀ c ∈ ip, isDigit c = true)
    (hfp : ∀ c ∈ fp, isDigit c = true) (hne : ip ≠ [])
    (hex : parseExp ex = some E) (hexh : ∀ c r, ex = c :: r → c = 'e') :
    parseUReal (ip ++ fracPart fp ++ ex)
      = some ((digitsValue (ip ++ fp) : ℚ) / (10 : ℚ) ^ fp.length * (10 : ℚ) ^ E) := by
  have hexd : ∀ c r, ex = c :: r → isDigit c = false := by
    intro c r h
    rw [hexh c r h]
    decide
  cases fp with
  | nil =>
    obtain ⟨h1, h2⟩ := takeWhile_dropWhile_digits ip ex hip hexd
    obtain ⟨h3, h4⟩ := fracDigits_of_exp ex hexh
    unfold parseUReal
    simp only [fracPart, List.append_nil, h1, h2, h3, h4, hex]
    simp only [hne, false_and, if_false]
    rw [scale_eq_zpow]
  | cons f fs =>
    have hdot : ∀ c r, '.' :: ((f :: fs) ++ ex) = c :: r → isDigit c = false := by
      intro c r h
      simp only [List.cons.injEq] at h
      rw [← h.1]
      decide
    obtain ⟨h1, h2⟩ := takeWhile_dropWhile_digits ip ('.' :: ((f :: fs) ++ ex)) hip hdot
    obtain ⟨h3, h4⟩ := takeWhile_dropWhile_digits (f :: fs) ex hfp hexd
    have htxt : ip ++ fracPart (f :: fs) ++ ex = ip ++ '.' :: ((f :: fs) ++ ex) := by
      simp [fracPart]
    unfold parseUReal
    rw [htxt]
    simp only [h1, h2, fracDigits, afterFrac, h3, h4, hex]
    simp only [hne, false_and, if_false]
    rw [scale_eq_zpow]

theorem zpow_split (m : ℚ) (n : Nat) (E e : Int) (h : e - 5 = E - (n : Int)) :
    m / (10 : ℚ) ^ n * (10 : ℚ) ^ E = m * (10 : ℚ) ^ (e - 5) := by
  have h10 : (10 : ℚ) ≠ 0 := by norm_num
  rw [h, zpow_sub₀ h10, zpow_natCast]
  ring

theorem showNat_six (M : Nat) (h1 : 100000 ≤ M) (h2 : M < 1000000) :
    (showNat M).length = 6 ∧ digitsValue (showNat M) = M := by
  obtain ⟨a, b⟩ := showNat_length_bounds M (by omega)
  have hl : 0 < (showNat M).length := List.length_pos.2 (showNat_ne_nil _)
  refine ⟨?_, by simp [digitsValue, parseDigits_showNat]⟩
  by_contra hne
  rcases Nat.lt_or_gt_of_ne hne with hlt | hgt
  · have : 10 ^ (showNat M).length ≤ 10 ^ 5 :=
      Nat.pow_le_pow_right (by norm_num) (by omega)
    omega
  · have : 10 ^ 6 ≤ 10 ^ ((showNat M).length - 1) :=
      Nat.pow_le_pow_right (by norm_num) (by omega)
    omega

theorem stripZeros_ne_nil (s : QString) (hv : 0 < digitsValue s) : stripZeros s ≠ [] := by
  intro h
  obtain ⟨z, hz⟩ := stripZeros_decomp s
  rw [h, List.nil_append] at hz
  rw [hz, digitsValue_replicate_zero] at hv
  exact absurd hv (lt_irrefl 0)

theorem parseUReal_layoutG (M : Nat) (e : Int) (h1 : 100000 ≤ M) (h2 : M < 1000000) :
    parseUReal (layoutG (showNat M) e) = some ((M : ℚ) * (10 : ℚ) ^ (e - 5)) ∧
      ∃ c r, layoutG (showNat M) e = c :: r ∧ isDigit c = true := by
  obtain ⟨hlen, hval⟩ := showNat_six M h1 h2
  have hd := showNat_isDigit M
  set ds := showNat M with hds
  have htake : ∀ k, ∀ c ∈ ds.take k, isDigit c = true :=
    fun k c hc => hd c (List.mem_of_mem_take hc)
  have hdrop : ∀ k, ∀ c ∈ ds.drop k, isDigit c = true :=
    fun k c hc => hd c (List.mem_of_mem_drop hc)
  have htne : ∀ k, ds.take (k + 1) ≠ [] := by
    intro k h
    have := congrArg List.length h
    simp [List.length_take, hlen] at this
  have hhead : ∀ (ip rest : QString), ip ≠ [] → (∀ c ∈ ip, isDigit c = true) →
      ∃ c r, ip ++ rest = c :: r ∧ isDigit c = true := by
    intro ip rest hne hip
    cases ip with
    | nil => exact absurd rfl hne
    | cons c cs => exact ⟨c, cs ++ rest, rfl, hip c (by simp)⟩
  unfold layoutG
  by_cases hsci : e < -4 ∨ 6 ≤ e
  · rw [if_pos hsci]
    refine ⟨?_, ?_⟩
    · rw [parseUReal_form (ds.take 1) (stripZeros (ds.drop 1)) (expPart e) e (htake 1)
        (stripZeros_isDigit _ (hdrop 1)) (htne 0) (parseExp_expPart e)
        (fun c r h => by unfold expPart at h; simp only [List.cons.injEq] at h; exact h.1.symm)]
      rw [stripZeros_value _ _ (htake 1) (hdrop 1), List.take_append_drop, hval]
      congr 1
      have hl : (ds.drop 1).length = 5 := by simp [hlen]
      rw [hl]
      exact zpow_split _ 5 e e (by push_cast; ring)
    · rw [List.append_assoc]
      exact hhead _ _ (htne 0) (htake 1)
  · rw [if_neg hsci]
    by_cases hpos : 0 ≤ e
    · rw [if_pos hpos]
      have he5 : e ≤ 5 := by omega
      refine ⟨?_, ?_⟩
      · have := parseUReal_form (ds.take (e.toNat + 1)) (stripZeros (ds.drop (e.toNat + 1))) []
          0 (htake _) (stripZeros_isDigit _ (hdrop _)) (htne _) rfl
          (fun c r h => by simp at h)
        rw [List.append_nil] at this
        rw [this, stripZeros_value _ _ (htake _) (hdrop _), List.take_append_drop, hval]
        congr 1
        have hl : (ds.drop (e.toNat + 1)).length = 5 - e.toNat := by
          simp [hlen]
        rw [hl]
        exact zpow_split _ _ 0 e (by omega)
      · exact hhead _ _ (htne _) (htake _)
    · rw [if_neg hpos]
      have hne : stripZeros ds ≠ [] :=
        stripZeros_ne_nil ds (by rw [hval]; omega)
      have hfp : ∀ c ∈ List.replicate ((-e).toNat - 1) '0' ++ stripZeros ds,
          isDigit c = true := by
        intro c hc
        rcases List.mem_append.1 hc with h | h
        · exact isDigit_replicate_zero _ c h
        · exact stripZeros_isDigit _ hd c h
      have hfne : List.replicate ((-e).toNat - 1) '0' ++ stripZeros ds ≠ [] := by
        simp [hne]
      have htxt : '0' :: '.' :: (List.replicate ((-e).toNat - 1) '0' ++ stripZeros ds)
          = ['0'] ++ fracPart (List.replicate ((-e).toNat - 1) '0' ++ stripZeros ds) ++ [] := by
        cases hx : List.replicate ((-e).toNat - 1) '0' ++ stripZeros ds with
        | nil => exact absurd hx hfne
        | cons c cs => simp [fracPart]
      refine ⟨?_, ⟨'0', _, rfl, by decide⟩⟩
      rw [htxt, parseUReal_form ['0'] _ [] 0 (by decide) hfp (by simp) rfl
        (fun c r h => by simp at h)]
      congr 1
      have hv0 : digitsValue (['0'] ++ (List.replicate ((-e).toNat - 1) '0' ++ stripZeros ds))
          = digitsValue (stripZeros ds) := by
        rw [digitsValue_append _ _ (by decide) hfp,
          digitsValue_append _ _ (isDigit_replicate_zero _) (stripZeros_isDigit _ hd),
          digitsValue_replicate_zero]
        simp [digitsValue, parseDigits, digitVal]
      have hsv := stripZeros_value [] ds (by simp) hd
      simp only [List.nil_append] at hsv
      rw [hv0, List.length_append, List.length_replicate, pow_add]
      have hq : (digitsValue (stripZeros ds) : ℚ)
          = (M : ℚ) / (10 : ℚ) ^ 6 * (10 : ℚ) ^ (stripZeros ds).length := by
        have hp : (10 : ℚ) ^ (stripZeros ds).length ≠ 0 := by positivity
        rw [hlen, hval] at hsv
        rw [← hsv]
        field_simp
      rw [hq]
      have hp : (10 : ℚ) ^ (stripZeros ds).length ≠ 0 := by positivity
      have hp2 : (10 : ℚ) ^ ((-e).toNat - 1) ≠ 0 := by positivity
      have key : (M : ℚ) / (10 : ℚ) ^ (6 + ((-e).toNat - 1)) * (10 : ℚ) ^ (0 : Int)
          = (M : ℚ) * (10 : ℚ) ^ (e - 5) :=
        zpow_split _ _ 0 e (by omega)
      rw [← key, pow_add]
      field_simp
      ring

theorem showReal_of_mantissa (M : Nat) (e : Int) (h1 : 100000 ≤ M) (h2 : M < 1000000) :
    showReal ((M : ℚ) * (10 : ℚ) ^ (e - 5)) = layoutG (showNat M) e ∧
      showReal (-((M : ℚ) * (10 : ℚ) ^ (e - 5))) = '-' :: layoutG (showNat M) e := by
  have h10 : (10 : ℚ) ≠ 0 := by norm_num
  have hMq1 : (100000 : ℚ) ≤ (M : ℚ) := by exact_mod_cast h1
  have hMq2 : (M : ℚ) < 1000000 := by exact_mod_cast h2
  have hp : (0 : ℚ) < (10 : ℚ) ^ (e - 5) := by positivity
  set x : ℚ := (M : ℚ) * (10 : ℚ) ^ (e - 5) with hx
  have hxpos : 0 < x := by positivity
  have hnum : 0 < x.num := Rat.num_pos.2 hxpos
  have hdpos : 0 < x.den := x.den_pos
  have hnpos : 0 < x.num.natAbs := Int.natAbs_pos.2 (ne_of_gt hnum)
  have hratio : (x.num.natAbs : ℚ) / (x.den : ℚ) = x := by
    have e0 : (x.num.natAbs : Int) = x.num := Int.natAbs_of_nonneg hnum.le
    have e2 : (x.num.natAbs : ℚ) = (x.num : ℚ) := by
      have : ((x.num.natAbs : Int) : ℚ) = (x.num : ℚ) := congrArg (fun z : Int => (z : ℚ)) e0
      rw [← this]
      exact (Int.cast_natCast _).symm
    rw [e2]
    exact Rat.num_div_den x
  have hlo : (10 : ℚ) ^ e ≤ x := by
    have : (10 : ℚ) ^ e = 100000 * (10 : ℚ) ^ (e - 5) := by
      rw [zpow_sub₀ h10]; norm_num; field_simp
    rw [this]
    exact mul_le_mul_of_nonneg_right hMq1 hp.le
  have hhi : x < (10 : ℚ) ^ (e + 1) := by
    have : (10 : ℚ) ^ (e + 1) = 1000000 * (10 : ℚ) ^ (e - 5) := by
      rw [zpow_sub₀ h10, zpow_add₀ h10]; norm_num; field_simp; ring
    rw [this]
    exact mul_lt_mul_of_pos_right hMq2 hp
  have hdec : decExp x.num.natAbs x.den = e :=
    decExp_correct _ _ hnpos hdpos e (by rw [hratio]; exact hlo) (by rw [hratio]; exact hhi)
  have hround : roundScaled x.num.natAbs x.den (5 - e) = M := by
    apply roundScaled_exact _ _ _ _ hdpos
    rw [hratio, hx, mul_assoc, ← zpow_add₀ h10]
    have : e - 5 + (5 - e) = 0 := by ring
    rw [this]
    simp
  have hM : M ≠ 1000000 := by omega
  constructor
  · unfold showReal
    simp only [hdec, hround, hM, if_false, ne_of_gt hxpos, not_lt.2 hxpos.le]
  · have hneg : -x < 0 := by linarith
    have hne : -x ≠ 0 := ne_of_lt hneg
    unfold showReal
    simp only [Rat.neg_num, Rat.neg_den, Int.natAbs_neg, hdec, hround, hM, if_false, hne, hneg,
      if_true]

theorem trimmed_showReal (q : ℚ) : trimmed (showReal q) = showReal q :=
  trimmed_of_no_space _ (fun c hc => isSpace_of_isNumChar c (showReal_isNumChar q c hc))

theorem survivesText_of_mantissa (M : Nat) (e : Int) (h1 : 100000 ≤ M) (h2 : M < 1000000) :
    survivesText ((M : ℚ) * (10 : ℚ) ^ (e - 5)) ∧
      survivesText (-((M : ℚ) * (10 : ℚ) ^ (e - 5))) := by
  obtain ⟨hs1, hs2⟩ := showReal_of_mantissa M e h1 h2
  obtain ⟨hparse, c, r, hcr, hc⟩ := parseUReal_layoutG M e h1 h2
  constructor
  · unfold survivesText toDouble
    rw [trimmed_showReal, hs1, hcr, signOf_digit c r hc, ← hcr]
    simp only [hparse]
    simp
  · unfold survivesText toDouble
    rw [trimmed_showReal, hs2]
    have : signOf ('-' :: layoutG (showNat M) e) = (true, layoutG (showNat M) e) := rfl
    rw [this]
    simp only [hparse]
    simp

/-- Every real of at most six significant decimal digits is given back
unchanged by the text form. -/
theorem survivesText_of_six_digits (x : ℚ) (h : atMostSixDigits x) : survivesText x := by
  obtain ⟨m, k, hm, hx⟩ := h
  have h10 : (10 : ℚ) ≠ 0 := by norm_num
  by_cases h0 : m = 0
  · have : x = 0 := by
      rcases hx with hx | hx <;> simp [hx, h0]
    rw [this]
    decide!
  · have key : ∀ (j : Nat), 100000 ≤ m * 10 ^ j → m * 10 ^ j < 1000000 → survivesText x := by
      intro j ha hb
      obtain ⟨s1, s2⟩ := survivesText_of_mantissa (m * 10 ^ j) (k - j + 5) ha hb
      have e1 : ((m * 10 ^ j : Nat) : ℚ) * (10 : ℚ) ^ (k - j + 5 - 5)
          = (m : ℚ) * (10 : ℚ) ^ k := by
        have : k - (j : Int) + 5 - 5 = k - j := by ring
        rw [this, zpow_sub₀ h10, zpow_natCast]
        push_cast
        field_simp
        ring
      rw [e1] at s1 s2
      rcases hx with hx | hx
      · rw [hx]; exact s1
      · rw [hx]; exact s2
    by_cases c1 : m < 10
    · exact key 5 (by omega) (by omega)
    by_cases c2 : m < 100
    · exact key 4 (by omega) (by omega)
    by_cases c3 : m < 1000
    · exact key 3 (by omega) (by omega)
    by_cases c4 : m < 10000
    · exact key 2 (by omega) (by omega)
    by_cases c5 : m < 100000
    · exact key 1 (by omega) (by omega)
    · exact key 0 (by omega) (by omega)

/-! ## The file as text: lines written and lines read -/

theorem fileText_cons (l : QString) (ls : List QString) :
    fileText (l :: ls) = l ++ '\n' :: fileText ls := rfl

/-- A line without line feed is read up to the line feed that ends it. -/
theorem readLinesFrom_line (l cur rest : QString) (h : '\n' ∉ l) :
    readLinesFrom cur (l ++ '\n' :: rest) = dropCR (cur ++ l) :: readLinesFrom [] rest := by
  induction l generalizing cur with
  | nil => simp [readLinesFrom]
  | cons c t ih =>
    have hc : c ≠ '\n' := fun e => h (by simp [e])
    have ht : '\n' ∉ t := fun hm => h (List.mem_cons_of_mem _ hm)
    rw [List.cons_append, readLinesFrom, if_neg hc, ih _ ht, List.append_assoc]
    rfl

/-- Reading goes on after a line feed as from the start of a text. -/
theorem readLinesFrom_append (t cur rest : QString) :
    readLinesFrom cur (t ++ '\n' :: rest)
      = readLinesFrom cur (t ++ ['\n']) ++ readLinesFrom [] rest := by
  induction t generalizing cur with
  | nil => simp [readLinesFrom]
  | cons c t ih =>
    by_cases hc : c = '\n'
    · rw [List.cons_append, List.cons_append, readLinesFrom, readLinesFrom, if_pos hc, if_pos hc,
        ih, List.cons_append]
    · rw [List.cons_append, List.cons_append, readLinesFrom, readLinesFrom, if_neg hc, if_neg hc,
        ih]

theorem readLines_fileText_append (a b : List QString) :
    readLines (fileText (a ++ b)) = readLines (fileText a) ++ readLines (fileText b) := by
  unfold readLines
  induction a with
  | nil => simp [fileText, readLinesFrom]
  | cons l t ih =>
    rw [List.cons_append, fileText_cons, fileText_cons, readLinesFrom_append, ih,
      readLinesFrom_append l [] (fileText t), List.append_assoc]

theorem dropCR_of_not_mem (l : QString) (h : '\r' ∉ l) : dropCR l = l := by
  unfold dropCR
  rw [if_neg]
  intro e
  exact h (List.mem_of_mem_getLast? (Option.mem_def.2 e))

/-- A line that holds neither a line feed nor a carriage return is read back
whole, as one line, wherever it stands in the file. -/
theorem readLines_line (l : QString) (h1 : '\n' ∉ l) (h2 : '\r' ∉ l) (pre post : List QString) :
    readLines (fileText (pre ++ l :: post))
      = readLines (fileText pre) ++ l :: readLines (fileText post) := by
  rw [readLines_fileText_append]
  congr 1
  unfold readLines
  rw [fileText_cons, readLinesFrom_line l [] _ h1, List.nil_append, dropCR_of_not_mem l h2]

theorem not_mem_exercisesText (sep : Char) (h1 : isNumChar sep = false) (h2 : sep ≠ 'x')
    (h3 : sep ≠ ',') (h4 : sep ≠ ':') (h5 : sep ≠ ';') (l : List Exercise)
    (h : ∀ e ∈ l, sep ∉ e.name) : sep ∉ exercisesText l := by
  have hsep : ∀ x ∈ l, sep ∉ exerciseText x := fun x hx =>
    not_mem_exerciseText sep h1 h2 h3 h4 x (h x hx)
  induction l with
  | nil => simp [exercisesText]
  | cons e t ih =>
    cases t with
    | nil => simpa [exercisesText] using hsep e (by simp)
    | cons e2 t2 =>
      simp only [exercisesText, List.mem_append, List.mem_singleton, not_or]
      refine ⟨⟨hsep e (by simp), h5⟩, ?_⟩
      exact ih (fun x hx => h x (by simp [hx])) (fun x hx => hsep x (by simp [hx]))

/-- An ISO date text holds digits and hyphens only. -/
theorem isIsoDate_chars (s : QString) (h : isIsoDate s = true) (sep : Char)
    (hd : isDigit sep = false) (hh : sep ≠ '-') : sep ∉ s := by
  intro hm
  have key : ∀ c, (isDigit c = true ∨ c = '-') → c ≠ sep := by
    intro c hc e
    subst e
    rcases hc with hc | hc
    · rw [hd] at hc; exact absurd hc (by decide)
    · exact hh hc
  unfold isIsoDate at h
  split at h
  · simp only [Bool.and_eq_true, decide_eq_true_eq] at h
    simp only [List.mem_cons, List.mem_nil_iff, or_false] at hm
    obtain ⟨⟨⟨⟨⟨⟨⟨⟨⟨a1, a2⟩, a3⟩, a4⟩, a5⟩, a6⟩, a7⟩, a8⟩, a9⟩, a10⟩ := h
    rcases hm with e | e | e | e | e | e | e | e | e | e
    · exact key _ (Or.inl a1) e.symm
    · exact key _ (Or.inl a2) e.symm
    · exact key _ (Or.inl a3) e.symm
    · exact key _ (Or.inl a4) e.symm
    · exact key _ (Or.inr a5) e.symm
    · exact key _ (Or.inl a6) e.symm
    · exact key _ (Or.inl a7) e.symm
    · exact key _ (Or.inr a8) e.symm
    · exact key _ (Or.inl a9) e.symm
    · exact key _ (Or.inl a10) e.symm
  · simp at h

/-- The strength line of a workout with an ISO date holds a character that is
neither a number character nor a separator only where a name holds it. -/
theorem not_mem_strengthLine (sep : Char) (h1 : isNumChar sep = false) (h2 : sep ≠ 'x')
    (h3 : sep ≠ ',') (h4 : sep ≠ ':') (h5 : sep ≠ ';') (h6 : sep ≠ '|') (h7 : isDigit sep = false)
    (h8 : sep ≠ '-') (w : StrengthWorkout) (hd : isIsoDate w.date = true)
    (h : ∀ e ∈ w.exercises, sep ∉ e.name) : sep ∉ strengthLine w := by
  unfold strengthLine
  simp only [List.mem_append, List.mem_singleton, not_or]
  exact ⟨⟨⟨⟨isIsoDate_chars _ hd sep h7 h8, h6⟩, not_mem_showReal sep h1 _⟩, h6⟩,
    not_mem_exercisesText sep h1 h2 h3 h4 h5 _ h⟩

/-- The goal line holds a character that is neither a number character nor the
separator only where one of its three texts holds it. -/
theorem not_mem_goalLine (sep : Char) (h1 : isNumChar sep = false) (h6 : sep ≠ '|') (g : Goal)
    (hn : sep ∉ g.name) (ht : sep ∉ g.type) (he : sep ∉ g.exerciseName) : sep ∉ goalLine g := by
  unfold goalLine
  simp only [List.mem_append, List.mem_singleton, not_or]
  exact ⟨⟨⟨⟨⟨⟨⟨⟨⟨⟨⟨⟨⟨⟨⟨⟨⟨⟨hn, h6⟩, ht⟩, h6⟩, not_mem_showReal sep h1 _⟩, h6⟩,
    not_mem_showReal sep h1 _⟩, h6⟩, not_mem_showInt sep h1 _⟩, h6⟩, not_mem_showInt sep h1 _⟩,
    h6⟩, he⟩, h6⟩, not_mem_showReal sep h1 _⟩, h6⟩, not_mem_showInt sep h1 _⟩, h6⟩,
    not_mem_showInt sep h1 _⟩

/-! ## Record codec: round trips -/

/-- A strength workout whose texts avoid the separators and whose numbers
survive the text form is appended unchanged by the strength loop body from the
line written for it. -/
theorem loadStrengthLine_strengthLine (w : StrengthWorkout) (acc : List StrengthWorkout)
    (h : strengthSafe w) : loadStrengthLine acc (strengthLine w) = acc ++ [w] := by
  obtain ⟨hd, hc, he⟩ := h
  have hx : split '|' (strengthLine w)
      = [w.date, showReal w.calories, exercisesText w.exercises] := by
    unfold strengthLine
    simp only [List.append_assoc, List.singleton_append, List.cons_append, List.nil_append]
    rw [split_append_sep _ _ _ hd,
      split_append_sep _ _ _ (not_mem_showReal '|' (by decide) _),
      split_of_not_mem _ _ (bar_not_mem_exercisesText _ (fun e hm => (he e hm).1))]
  unfold loadStrengthLine
  simp only [hx, part, List.length_cons, List.length_nil, List.getD_cons_zero,
    List.getD_cons_succ]
  rw [hc, load_exercisesText _ he]
  simp

/-- The goal line of a goal whose texts hold no `|` and whose numbers survive
the text form has the ten written fields as its parts, and the goal loop body
appends the goal unchanged. -/
theorem loadGoalLine_goalLine (g : Goal) (acc : List Goal) (h : goalSafe g) :
    (split '|' (goalLine g)).length = 10 ∧ loadGoalLine acc (goalLine g) = acc ++ [g] := by
  obtain ⟨hn, ht, he, h1, h2, h3, h4, h5, h6, h7⟩ := h
  have hx : split '|' (goalLine g)
      = [g.name, g.type, showReal g.target, showReal g.progress, showInt g.targetTime,
         showInt g.progressTime, g.exerciseName, showReal g.exWeight, showInt g.exSets,
         showInt g.exReps] := by
    unfold goalLine
    simp only [List.append_assoc, List.singleton_append, List.cons_append, List.nil_append]
    rw [split_append_sep _ _ _ hn, split_append_sep _ _ _ ht,
      split_append_sep _ _ _ (not_mem_showReal '|' (by decide) _),
      split_append_sep _ _ _ (not_mem_showReal '|' (by decide) _),
      split_append_sep _ _ _ (not_mem_showInt '|' (by decide) _),
      split_append_sep _ _ _ (not_mem_showInt '|' (by decide) _),
      split_append_sep _ _ _ he,
      split_append_sep _ _ _ (not_mem_showReal '|' (by decide) _),
      split_append_sep _ _ _ (not_mem_showInt '|' (by decide) _),
      split_of_not_mem _ _ (not_mem_showInt '|' (by decide) _)]
  refine ⟨by rw [hx]; rfl, ?_⟩
  unfold loadGoalLine
  simp only [hx, part, List.length_cons, List.length_nil, List.getD_cons_zero,
    List.getD_cons_succ]
  unfold survivesText at h1 h2 h3
  rw [h1, h2, h3, toInt_showInt _ h4, toInt_showInt _ h5, toInt_showInt _ h6,
    toInt_showInt _ h7]
  simp

/-- A cardio workout whose texts hold no `|` and whose numbers survive the text
form is appended unchanged by the cardio loop body from the line written for
it. -/
theorem loadCardioLine_cardioLine (r : CardioWorkout) (acc : List CardioWorkout)
    (h : cardioSafe r) : loadCardioLine acc (cardioLine r) = acc ++ [r] := by
  obtain ⟨hd, ht, h1, h2, h3, h4⟩ := h
  have hx : split '|' (cardioLine r)
      = [r.date, r.type, showInt r.duration, showReal r.distance, showReal r.calories,
         showReal r.avgSpeed] := by
    unfold cardioLine
    simp only [List.append_assoc, List.singleton_append, List.cons_append, List.nil_append]
    rw [split_append_sep _ _ _ hd, split_append_sep _ _ _ ht,
      split_append_sep _ _ _ (not_mem_showInt '|' (by decide) _),
      split_append_sep _ _ _ (not_mem_showReal '|' (by decide) _),
      split_append_sep _ _ _ (not_mem_showReal '|' (by decide) _),
      split_of_not_mem _ _ (not_mem_showReal '|' (by decide) _)]
  unfold loadCardioLine
  simp only [hx, part, List.length_cons, List.length_nil, List.getD_cons_zero,
    List.getD_cons_succ]
  unfold survivesText at h2 h3 h4
  rw [h2, h3, h4, toInt_showInt _ h1]
  simp

/-- A natural number below one million times a power of ten has at most six
significant digits. -/
theorem atMostSixDigits_mk (x : ℚ) (m : Nat) (k : Int) (hm : m < 1000000)
    (hx : x = (m : ℚ) * (10 : ℚ) ^ k) : atMostSixDigits x :=
  ⟨m, k, hm, Or.inl hx⟩

/-- C11. For every defined BMI value `b` (the program treats a positive value as
defined) the category shown is `Underweight` for `b < 18.5`, `Normal` for
`18.5 ≤ b < 25`, `Overweight` for `25 ≤ b < 30` and `Obese` for `b ≥ 30`; the
four texts are distinct and exactly one of the four cases applies. Profiles of
170 cm with 70, 50 and 100 kg are shown as Normal, Underweight and Obese. -/
theorem bmi_category (b : ℚ) (hb : 0 < b) :
    (b < 18.5 → bmiCategory b = "Underweight".data) ∧
      (18.5 ≤ b → b < 25 → bmiCategory b = "Normal".data) ∧
      (25 ≤ b → b < 30 → bmiCategory b = "Overweight".data) ∧
      (30 ≤ b → bmiCategory b = "Obese".data) ∧
      ((b < 18.5 ∧ bmiCategory b = "Underweight".data) ∨
        (18.5 ≤ b ∧ b < 25 ∧ bmiCategory b = "Normal".data) ∨
        (25 ≤ b ∧ b < 30 ∧ bmiCategory b = "Overweight".data) ∨
        (30 ≤ b ∧ bmiCategory b = "Obese".data)) ∧
      ["Underweight".data, "Normal".data, "Overweight".data, "Obese".data].Nodup ∧
      refreshBmiLabels { weight := 70, height := 170 }
        = some ("24.2".data, "Category: Normal".data) ∧
      refreshBmiLabels { weight := 50, height := 170 }
        = some ("17.3".data, "Category: Underweight".data) ∧
      refreshBmiLabels { weight := 100, height := 170 }
        = some ("34.6".data, "Category: Obese".data) := by
  have h1 : b < 18.5 → bmiCategory b = "Underweight".data := by
    intro h
    simp [bmiCategory, hb, h]
  have h2 : 18.5 ≤ b → b < 25 → bmiCategory b = "Normal".data := by
    intro ha hc
    simp [bmiCategory, hb, not_lt.2 ha, hc]
  have h3 : 25 ≤ b → b < 30 → bmiCategory b = "Overweight".data := by
    intro ha hc
    have hx : ¬ b < 18.5 := by
      intro h
      have : (18.5 : ℚ) < 25 := by norm_num
      linarith
    simp [bmiCategory, hb, hx, not_lt.2 ha, hc]
  have h4 : 30 ≤ b → bmiCategory b = "Obese".data := by
    intro ha
    have hx : ¬ b < 18.5 := by
      intro h
      have : (18.5 : ℚ) < 30 := by norm_num
      linarith
    have hy : ¬ b < 25 := by
      intro h
      linarith
    simp [bmiCategory, hb, hx, hy, not_lt.2 ha]
  refine ⟨h1, h2, h3, h4, ?_, by decide, by decide!, by decide!, by decide!⟩
  by_cases c1 : b < 18.5
  · exact Or.inl ⟨c1, h1 c1⟩
  by_cases c2 : b < 25
  · exact Or.inr (Or.inl ⟨not_lt.1 c1, c2, h2 (not_lt.1 c1) c2⟩)
  by_cases c3 : b < 30
  · exact Or.inr (Or.inr (Or.inl ⟨not_lt.1 c2, c3, h3 (not_lt.1 c2) c3⟩))
  · exact Or.inr (Or.inr (Or.inr ⟨not_lt.1 c3, h4 (not_lt.1 c3)⟩))

/-- Witness for C11: the BMI 7000/289 of 70 kg at 170 cm lies in the `Normal`
band. -/
theorem bmi_category_witness :
    (0 : ℚ) < 7000 / 289 ∧ bmiCategory (7000 / 289) = "Normal".data :=
  ⟨by norm_num, (bmi_category (7000 / 289) (by norm_num)).2.1 (by norm_num) (by norm_num)⟩

/-! ## refresh: the daily buckets -/

theorem addAt_length (v : List ℚ) (j : Nat) (x : ℚ) : (addAt v j x).length = v.length := by
  induction v generalizing j with
  | nil => rfl
  | cons a t ih =>
    cases j with
    | zero => rfl
    | succ k => simp [addAt, ih]

theorem addAt_getD (v : List ℚ) (j i : Nat) (x : ℚ) (hj : j < v.length) :
    (addAt v j x).getD i 0 = if i = j then v.getD i 0 + x else v.getD i 0 := by
  induction v generalizing j i with
  | nil => simp at hj
  | cons a t ih =>
    cases j with
    | zero =>
      cases i with
      | zero => simp [addAt]
      | succ k => simp [addAt]
    | succ j2 =>
      cases i with
      | zero => simp [addAt]
      | succ k =>
        have := ih j2 k (by simpa using hj)
        simpa [addAt] using this

theorem cardioStep_perDay (today : Int) (a : CardioWeek) (w : CardioWorkout)
    (ha : a.cardioPerDay.length = 7) :
    (cardioStep today a w).cardioPerDay.length = 7 ∧
      ∀ i : Nat, i ≤ 6 →
        (cardioStep today a w).cardioPerDay.getD i 0
          = a.cardioPerDay.getD i 0
            + (if fromString w.date = some (today - (6 - (i : Int))) then w.distance else 0) := by
  unfold cardioStep
  cases hd : fromString w.date with
  | none => simp [ha]
  | some d =>
    simp only [daysTo, addDays]
    have hper : ∀ (a1 : CardioWeek),
        (if today + -6 ≤ d ∧ d ≤ today then
          { a1 with cardioKmWeek := a1.cardioKmWeek + w.distance,
                    cardioCaloriesWeek := a1.cardioCaloriesWeek + w.calories }
        else a1).cardioPerDay = a1.cardioPerDay := by
      intro a1
      split_ifs <;> rfl
    rw [hper]
    by_cases hwin : 0 ≤ today - d ∧ today - d < 7
    · rw [if_pos hwin]
      have hj : (6 - (today - d)).toNat < a.cardioPerDay.length := by
        rw [ha]; omega
      refine ⟨by simp [addAt_length, ha], ?_⟩
      intro i hi
      simp only [addAt_getD _ _ _ _ hj, Option.some.injEq]
      by_cases hi2 : i = (6 - (today - d)).toNat
      · have : d = today - (6 - (i : Int)) := by omega
        rw [if_pos hi2, if_pos this]
      · have : ¬ d = today - (6 - (i : Int)) := by omega
        rw [if_neg hi2, if_neg this, add_zero]
    · rw [if_neg hwin]
      refine ⟨ha, ?_⟩
      intro i hi
      have : ¬ d = today - (6 - (i : Int)) := by omega
      simp only [Option.some.injEq]
      rw [if_neg this, add_zero]

theorem foldl_cardioStep_perDay (today : Int) (cardio : List CardioWorkout) (a : CardioWeek)
    (ha : a.cardioPerDay.length = 7) :
    (cardio.foldl (cardioStep today) a).cardioPerDay.length = 7 ∧
      ∀ i : Nat, i ≤ 6 →
        (cardio.foldl (cardioStep today) a).cardioPerDay.getD i 0
          = a.cardioPerDay.getD i 0
            + ((cardio.filter
                (fun w => decide (fromString w.date = some (today - (6 - (i : Int)))))).map
                (fun w => w.distance)).sum := by
  induction cardio generalizing a with
  | nil => simp [ha]
  | cons w t ih =>
    obtain ⟨h1, h2⟩ := cardioStep_perDay today a w ha
    obtain ⟨h3, h4⟩ := ih (cardioStep today a w) h1
    refine ⟨h3, ?_⟩
    intro i hi
    rw [List.foldl_cons, h4 i hi, h2 i hi]
    by_cases hw : fromString w.date = some (today - (6 - (i : Int)))
    · simp [List.filter_cons, hw, add_assoc]
    · simp [List.filter_cons, hw]

/-- C12. For every reference date and every list of cardio records, the cardio
series has seven entries and entry `i` (0 to 6) is the sum of the distances of
the records dated `today - (6 - i)`; a record whose date is invalid, earlier
than `today - 6` or later than `today` changes no bucket. Records dated today,
three, six and seven days back fill exactly the entries 6, 3 and 0. -/
theorem cardio_buckets (today : Int) (cardio : List CardioWorkout) (i : Nat) (hi : i ≤ 6) :
    (refreshCardio today cardio).cardioPerDay.length = 7 ∧
      (refreshCardio today cardio).cardioPerDay.getD i 0
        = ((cardio.filter
              (fun w => decide (fromString w.date = some (today - (6 - (i : Int)))))).map
              (fun w => w.distance)).sum ∧
      (∀ (a : CardioWeek) (w : CardioWorkout), a.cardioPerDay.length = 7 →
        (fromString w.date = none ∨
          ∃ d, fromString w.date = some d ∧ (d < today - 6 ∨ today < d)) →
        (cardioStep today a w).cardioPerDay = a.cardioPerDay) ∧
      fromString "2024-01-10".data = some 2460320 ∧
      (refreshCardio 2460320
          [{ date := "2024-01-10".data, type := "Running".data, duration := 30, distance := 5,
             calories := 343, avgSpeed := 10 },
           { date := "2024-01-07".data, type := "Running".data, duration := 30, distance := 3,
             calories := 343, avgSpeed := 6 },
           { date := "2024-01-04".data, type := "Running".data, duration := 30, distance := 2,
             calories := 343, avgSpeed := 4 },
           { date := "2024-01-03".data, type := "Running".data, duration := 30, distance := 9,
             calories := 343, avgSpeed := 18 }]).cardioPerDay
        = [2, 0, 0, 3, 0, 0, 5] := by
  obtain ⟨h1, h2⟩ := foldl_cardioStep_perDay today cardio
    { cardioPerDay := List.replicate 7 0, cardioKmWeek := 0, cardioCaloriesWeek := 0 } rfl
  refine ⟨h1, ?_, ?_, by decide!, by decide!⟩
  · have := h2 i hi
    have hz : (List.replicate 7 (0 : ℚ)).getD i 0 = 0 := by
      interval_cases i <;> rfl
    unfold refreshCardio
    rw [this, hz, zero_add]
  · intro a w ha hw
    apply List.ext_getElem
    · rw [(cardioStep_perDay today a w ha).1, ha]
    · intro n hn1 hn2
      have hn : n ≤ 6 := by rw [ha] at hn2; omega
      have hstep := (cardioStep_perDay today a w ha).2 n hn
      have hne : ¬ fromString w.date = some (today - (6 - (n : Int))) := by
        rcases hw with h | ⟨d, h, hd⟩
        · simp [h]
        · rw [h]
          intro hc
          have := Option.some.inj hc
          omega
      rw [if_neg hne, add_zero] at hstep
      rw [List.getD_eq_getElem _ _ hn1, List.getD_eq_getElem _ _ hn2] at hstep
      exact hstep

/-- Witness for C12: the bucket of today (index 6) for two runs logged today
and one a week earlier. -/
theorem cardio_buckets_witness :
    (refreshCardio 2460320
        [{ date := "2024-01-10".data, type := "Running".data, duration := 30, distance := 5,
           calories := 343, avgSpeed := 10 },
         { date := "2024-01-03".data, type := "Running".data, duration := 30, distance := 9,
           calories := 343, avgSpeed := 18 },
         { date := "2024-01-10".data, type := "Walking".data, duration := 60, distance := 4,
           calories := 245, avgSpeed := 4 }]).cardioPerDay.getD 6 0 = 9 := by
  rw [(cardio_buckets 2460320 _ 6 (by decide)).2.1]
  decide!

theorem strengthStep_perDay (today : Int) (a : StrengthWeek) (w : StrengthWorkout)
    (ha : a.strengthPerDay.length = 7) :
    (strengthStep today a w).strengthPerDay.length = 7 ∧
      ∀ i : Nat, i ≤ 6 →
        (strengthStep today a w).strengthPerDay.getD i 0
          = a.strengthPerDay.getD i 0
            + (if fromString w.date = some (today - (6 - (i : Int))) then volume w.exercises
               else 0) := by
  unfold strengthStep
  cases hd : fromString w.date with
  | none => simp [ha]
  | some d =>
    simp only [daysTo, addDays]
    have hper : ∀ (a1 : StrengthWeek),
        (if today + -6 ≤ d ∧ d ≤ today then
          { a1 with strengthWorkoutsWeek := a1.strengthWorkoutsWeek + 1,
                    strengthVolumeWeek := addVolume a1.strengthVolumeWeek w.exercises,
                    strengthCaloriesWeek := a1.strengthCaloriesWeek + w.calories }
        else a1).strengthPerDay = a1.strengthPerDay := by
      intro a1
      split_ifs <;> rfl
    rw [hper]
    have hv : addVolume 0 w.exercises = volume w.exercises := by
      rw [addVolume_eq, zero_add]
    by_cases hwin : 0 ≤ today - d ∧ today - d < 7
    · rw [if_pos hwin]
      have hj : (6 - (today - d)).toNat < a.strengthPerDay.length := by
        rw [ha]; omega
      refine ⟨by simp [addAt_length, ha], ?_⟩
      intro i hi
      simp only [addAt_getD _ _ _ _ hj, Option.some.injEq, hv]
      by_cases hi2 : i = (6 - (today - d)).toNat
      · have : d = today - (6 - (i : Int)) := by omega
        rw [if_pos hi2, if_pos this]
      · have : ¬ d = today - (6 - (i : Int)) := by omega
        rw [if_neg hi2, if_neg this, add_zero]
    · rw [if_neg hwin]
      refine ⟨ha, ?_⟩
      intro i hi
      have : ¬ d = today - (6 - (i : Int)) := by omega
      simp only [Option.some.injEq]
      rw [if_neg this, add_zero]

theorem foldl_strengthStep_perDay (today : Int) (strength : List StrengthWorkout)
    (a : StrengthWeek) (ha : a.strengthPerDay.length = 7) :
    (strength.foldl (strengthStep today) a).strengthPerDay.length = 7 ∧
      ∀ i : Nat, i ≤ 6 →
        (strength.foldl (strengthStep today) a).strengthPerDay.getD i 0
          = a.strengthPerDay.getD i 0
            + ((strength.filter
                (fun w => decide (fromString w.date = some (today - (6 - (i : Int)))))).map
                (fun w => volume w.exercises)).sum := by
  induction strength generalizing a with
  | nil => simp [ha]
  | cons w t ih =>
    obtain ⟨h1, h2⟩ := strengthStep_perDay today a w ha
    obtain ⟨h3, h4⟩ := ih (strengthStep today a w) h1
    refine ⟨h3, ?_⟩
    intro i hi
    rw [List.foldl_cons, h4 i hi, h2 i hi]
    by_cases hw : fromString w.date = some (today - (6 - (i : Int)))
    · simp [List.filter_cons, hw, add_assoc]
    · simp [List.filter_cons, hw]

/-- C13. For every reference date and every list of strength workouts, the
strength series has seven entries and entry `i` (0 to 6) is the sum, over the
workouts dated `today - (6 - i)`, of the workout volume, the sum of
`reps * weight` over all sets of all its exercises; a workout whose date is
invalid, earlier than `today - 6` or later than `today` changes no bucket. -/
theorem strength_buckets (today : Int) (strength : List StrengthWorkout) (i : Nat)
    (hi : i ≤ 6) :
    (refreshStrength today strength).strengthPerDay.length = 7 ∧
      (refreshStrength today strength).strengthPerDay.getD i 0
        = ((strength.filter
              (fun w => decide (fromString w.date = some (today - (6 - (i : Int)))))).map
              (fun w => volume w.exercises)).sum ∧
      (∀ (a : StrengthWeek) (w : StrengthWorkout), a.strengthPerDay.length = 7 →
        (fromString w.date = none ∨
          ∃ d, fromString w.date = some d ∧ (d < today - 6 ∨ today < d)) →
        (strengthStep today a w).strengthPerDay = a.strengthPerDay) := by
  obtain ⟨h1, h2⟩ := foldl_strengthStep_perDay today strength
    { strengthPerDay := List.replicate 7 0, strengthWorkoutsWeek := 0, strengthVolumeWeek := 0,
      strengthCaloriesWeek := 0 } rfl
  refine ⟨h1, ?_, ?_⟩
  · have := h2 i hi
    have hz : (List.replicate 7 (0 : ℚ)).getD i 0 = 0 := by
      interval_cases i <;> rfl
    unfold refreshStrength
    rw [this, hz, zero_add]
  · intro a w ha hw
    apply List.ext_getElem
    · rw [(strengthStep_perDay today a w ha).1, ha]
    · intro n hn1 hn2
      have hn : n ≤ 6 := by rw [ha] at hn2; omega
      have hstep := (strengthStep_perDay today a w ha).2 n hn
      have hne : ¬ fromString w.date = some (today - (6 - (n : Int))) := by
        rcases hw with h | ⟨d, h, hd⟩
        · simp [h]
        · rw [h]
          intro hc
          have := Option.some.inj hc
          omega
      rw [if_neg hne, add_zero] at hstep
      rw [List.getD_eq_getElem _ _ hn1, List.getD_eq_getElem _ _ hn2] at hstep
      exact hstep

/-- Witness for C13: two workouts three days back (volumes 1440 and 500) and
one eight days back; bucket 3 holds 1940. -/
theorem strength_buckets_witness :
    (refreshStrength 2460320
        [{ date := "2024-01-07".data, calories := 66.9,
           exercises := [{ name := "Bench Press".data,
                           sets := [{ reps := 8, weight := 60 }, { reps := 8, weight := 60 },
                                    { reps := 8, weight := 60 }] }] },
         { date := "2024-01-02".data, calories := 60,
           exercises := [{ name := "Squat".data, sets := [{ reps := 5, weight := 100 }] }] },
         { date := "2024-01-07".data, calories := 57.5,
           exercises := [{ name := "Squat".data, sets := [{ reps := 5, weight := 100 }] },
                         { name := "Curl".data, sets := [] }] }]).strengthPerDay.getD 3 0
      = 1940 := by
  rw [(strength_buckets 2460320 _ 3 (by decide)).2.1]
  decide!

/-! ## refresh: last entry wins -/

theorem foldl_last_wins {α β : Type} (p : α → Bool) (f : α → β) (l : List α) (t0 : β) :
    l.foldl (fun t x => if p x = true then f x else t) t0
      = ((l.filter p).getLast?.map f).getD t0 := by
  induction l using List.reverseRecOn with
  | nil => rfl
  | append_singleton t x ih =>
    rw [List.foldl_append, List.foldl_cons, List.foldl_nil, List.filter_append]
    by_cases hp : p x = true
    · simp [hp, List.filter_cons]
    · simp [hp, List.filter_cons, ih]

theorem weightByDateStep_apply (m : Int → Option ℚ) (b : BodyweightLog) (k : Int) :
    weightByDateStep m b k = if fromString b.date = some k then some b.weight else m k := by
  unfold weightByDateStep
  cases hd : fromString b.date with
  | none => simp
  | some d =>
    by_cases hk : k = d
    · simp [hk]
    · have hk2 : ¬ d = k := fun h => hk h.symm
      simp [hk, hk2]

theorem weightByDate_eq (weightLogs : List BodyweightLog) (k : Int) :
    weightByDate weightLogs k
      = ((weightLogs.filter (fun b => decide (fromString b.date = some k))).getLast?).map
          (fun b => b.weight) := by
  unfold weightByDate
  induction weightLogs using List.reverseRecOn with
  | nil => rfl
  | append_singleton t b ih =>
    rw [List.foldl_append, List.foldl_cons, List.foldl_nil, List.filter_append,
      weightByDateStep_apply, ih]
    by_cases hb : fromString b.date = some k
    · have hf : List.filter (fun b => decide (fromString b.date = some k)) [b] = [b] := by
        simp [List.filter_cons, hb]
      rw [if_pos hb, hf, List.getLast?_concat]
      rfl
    · have hf : List.filter (fun b => decide (fromString b.date = some k)) [b] = [] := by
        simp [List.filter_cons, hb]
      rw [if_neg hb, hf, List.append_nil]

/-- C14. For every reference date and every stored list of bodyweight entries,
the bodyweight series has seven entries and entry `i` (0 to 6) is the weight of
the entry that comes last in the stored list among those dated
`today - (6 - i)`, and 0 when no entry has that date; entries of other dates
play no part. Two entries of one day stored as 80.0 then 82.5 give 82.5. -/
theorem bodyweight_last_wins (today : Int) (weightLogs : List BodyweightLog) (i : Nat)
    (hi : i ≤ 6) :
    (weightPerDay today weightLogs).length = 7 ∧
      (weightPerDay today weightLogs).getD i 0
        = (((weightLogs.filter
              (fun b => decide (fromString b.date = some (today - (6 - (i : Int)))))).getLast?).map
              (fun b => b.weight)).getD 0 ∧
      weightPerDay 2460320
          [{ date := "2024-01-09".data, weight := 80.0 },
           { date := "2024-01-09".data, weight := 82.5 }]
        = [0, 0, 0, 0, 0, 82.5, 0] := by
  refine ⟨by unfold weightPerDay; rw [List.length_map, List.length_range], ?_, by decide!⟩
  have hday : addDays today ((i : Int) - 6) = today - (6 - (i : Int)) := by
    unfold addDays; ring
  have hget : (weightPerDay today weightLogs).getD i 0
      = (match weightByDate weightLogs (addDays today ((i : Int) - 6)) with
        | some w => w
        | none => 0.0) := by
    unfold weightPerDay
    interval_cases i <;> rfl
  rw [hget, hday, weightByDate_eq]
  cases ((weightLogs.filter
      (fun b => decide (fromString b.date = some (today - (6 - (i : Int)))))).getLast?) with
  | none => norm_num
  | some b => rfl

/-- Witness for C14: entries stored out of date order; the later stored entry
of the day before the reference date is shown, whatever lies between. -/
theorem bodyweight_last_wins_witness :
    (weightPerDay 2460320
        [{ date := "2024-01-09".data, weight := 80.0 },
         { date := "2024-01-10".data, weight := 81.0 },
         { date := "not a date".data, weight := 99.0 },
         { date := "2024-01-09".data, weight := 82.5 },
         { date := "2024-01-01".data, weight := 79.0 }]).getD 5 0 = 82.5 := by
  rw [(bodyweight_last_wins 2460320 _ 5 (by decide)).2.1]
  decide!

/-- C16. For every goal list, the weekly cardio target of `refresh` is the
target of the last goal in list order that has type `cardio_km` and a positive
target, and 20 when there is none; goals of other types play no part. With
cardio goals of targets 30, 10 and 0 in that order the target is 10: not the
first, not the largest, and not the last whose target is 0. -/
theorem cardio_target_last_wins (goals : List Goal) :
    cardioTargetOf goals
        = (((goals.filter
              (fun g => decide (g.type = "cardio_km".data ∧ 0 < g.target))).getLast?).map
              (fun g => g.target)).getD 20 ∧
      ((∀ g ∈ goals, ¬ (g.type = "cardio_km".data ∧ 0 < g.target)) →
        cardioTargetOf goals = 20) ∧
      cardioTargetOf goals
        = cardioTargetOf (goals.filter (fun g => decide (g.type = "cardio_km".data))) ∧
      cardioTargetOf
          [{ name := "A".data, type := "cardio_km".data, target := 30 },
           { name := "B".data, type := "strength_exercise".data, target := 50 },
           { name := "C".data, type := "cardio_km".data, target := 10 },
           { name := "D".data, type := "cardio_km".data, target := 0 }] = 10 := by
  have hstep : (fun (cardioTarget : ℚ) (g : Goal) =>
      if g.type = "cardio_km".data then (if g.target > 0 then g.target else cardioTarget)
      else cardioTarget)
      = (fun t g => if decide (g.type = "cardio_km".data ∧ 0 < g.target) = true
          then g.target else t) := by
    funext t g
    by_cases h1 : g.type = "cardio_km".data
    · by_cases h2 : 0 < g.target
      · simp [h1, h2]
      · simp [h1, h2]
    · simp [h1]
  have main : ∀ l : List Goal, cardioTargetOf l
      = (((l.filter
            (fun g => decide (g.type = "cardio_km".data ∧ 0 < g.target))).getLast?).map
            (fun g => g.target)).getD 20 := by
    intro l
    unfold cardioTargetOf
    rw [hstep, foldl_last_wins]
    norm_num
  refine ⟨main goals, ?_, ?_, by decide!⟩
  · intro h
    rw [main]
    have : goals.filter (fun g => decide (g.type = "cardio_km".data ∧ 0 < g.target)) = [] := by
      rw [List.filter_eq_nil_iff]
      intro g hg
      simpa using h g hg
    rw [this]
    rfl
  · rw [main, main, List.filter_filter]
    congr 3
    apply List.filter_congr
    intro g _
    by_cases h1 : g.type = "cardio_km".data <;> simp [h1]

/-- Witness for C16: a goal list without a cardio goal of positive target. -/
theorem cardio_target_last_wins_witness :
    cardioTargetOf
        [{ name := "B".data, type := "strength_exercise".data, target := 50 },
         { name := "D".data, type := "cardio_km".data, target := 0 }] = 20 :=
  (cardio_target_last_wins _).2.1 (by decide!)

/-! ## refresh and saveData: records with an invalid date -/

theorem foldl_filter_noop {α β : Type} (step : β → α → β) (p : α → Bool)
    (h : ∀ a x, p x = false → step a x = a) (l : List α) (a : β) :
    l.foldl step a = (l.filter p).foldl step a := by
  induction l generalizing a with
  | nil => rfl
  | cons x t ih =>
    by_cases hp : p x = true
    · simp [List.filter_cons, hp, ih]
    · have hp2 : p x = false := by simpa using hp
      simp [List.filter_cons, hp2, h a x hp2, ih]

theorem fileName_ne (k1 k2 u : QString) (c1 c2 : Char) (t1 t2 : QString)
    (h1 : k1 = c1 :: t1) (h2 : k2 = c2 :: t2) (hc : c1 ≠ c2) :
    fileName k1 u ≠ fileName k2 u := by
  subst h1 h2
  intro h
  simp only [fileName, List.cons_append, List.cons.injEq] at h
  exact hc h.1

theorem qBound_range (v : Int) : 0 ≤ qBound 0 v 100 ∧ qBound 0 v 100 ≤ 100 := by
  unfold qBound
  constructor
  · exact le_max_left _ _
  · exact max_le (by norm_num) (min_le_left _ _)

theorem cardioTargetOf_pos (goals : List Goal) : 0 < cardioTargetOf goals := by
  have key : ∀ (l : List Goal) (t : ℚ), 0 < t →
      0 < l.foldl (fun cardioTarget g =>
        if g.type = "cardio_km".data then (if g.target > 0 then g.target else cardioTarget)
        else cardioTarget) t := by
    intro l
    induction l with
    | nil => intro t ht; exact ht
    | cons g r ih =>
      intro t ht
      rw [List.foldl_cons]
      apply ih
      split_ifs with h1 h2
      · exact h2
      · exact ht
      · exact ht
  exact key goals _ (by norm_num)

theorem strengthStepD_count (today : Int) (a : StrengthWeek) (w : StrengthWorkout) :
    (strengthStepD today a w).strengthWorkoutsWeek
      = a.strengthWorkoutsWeek + (if inWeek today w.date = true then 1 else 0) := by
  unfold strengthStepD inWeek
  cases hd : fromString w.date with
  | none => simp
  | some d =>
    simp only [daysTo, addDays, decide_eq_true_eq]
    have e : today + -6 = today - 6 := by ring
    rw [e]
    by_cases hw : today - 6 ≤ d ∧ d ≤ today
    · rw [if_pos hw, if_pos hw]
      split_ifs <;> rfl
    · rw [if_neg hw, if_neg hw]
      split_ifs <;> simp

theorem refreshStrengthD_count (today : Int) (strength : List StrengthWorkout) :
    (refreshStrengthD today strength).strengthWorkoutsWeek
      = ((strength.filter (fun w => inWeek today w.date)).length : Int) := by
  have key : ∀ (l : List StrengthWorkout) (a : StrengthWeek),
      (l.foldl (strengthStepD today) a).strengthWorkoutsWeek
        = a.strengthWorkoutsWeek + ((l.filter (fun w => inWeek today w.date)).length : Int) := by
    intro l
    induction l with
    | nil => intro a; simp
    | cons w t ih =>
      intro a
      rw [List.foldl_cons, ih, strengthStepD_count]
      by_cases hw : inWeek today w.date = true
      · simp [List.filter_cons, hw]
        ring
      · simp [List.filter_cons, hw]
  unfold refreshStrengthD
  rw [key]
  simp

theorem addAtD_length (v : List ℚ) (j : Nat) (x : ℚ) : (addAtD v j x).length = v.length := by
  induction v generalizing j with
  | nil => rfl
  | cons a t ih =>
    cases j with
    | zero => rfl
    | succ k => simp [addAtD, ih]

theorem addAtD_getD (v : List ℚ) (j i : Nat) (x : ℚ) (hj : j < v.length) :
    (addAtD v j x).getD i 0 = if i = j then fl (v.getD i 0 + x) else v.getD i 0 := by
  induction v generalizing j i with
  | nil => simp at hj
  | cons a t ih =>
    cases j with
    | zero =>
      cases i with
      | zero => simp [addAtD]
      | succ k => simp [addAtD]
    | succ j2 =>
      cases i with
      | zero => simp [addAtD]
      | succ k =>
        have := ih j2 k (by simpa using hj)
        simpa [addAtD] using this

/-- One record in the `double` loop: the bucket of its day takes the rounded
sum, the other buckets stay, and the weekly distance takes the rounded sum
exactly when the date lies in the week. -/
theorem cardioStepD_spec (today : Int) (a : CardioWeek) (w : CardioWorkout)
    (ha : a.cardioPerDay.length = 7) :
    (cardioStepD today a w).cardioPerDay.length = 7 ∧
      (∀ i : Nat, i ≤ 6 →
        (cardioStepD today a w).cardioPerDay.getD i 0
          = if fromString w.date = some (today - (6 - (i : Int)))
            then fl (a.cardioPerDay.getD i 0 + w.distance) else a.cardioPerDay.getD i 0) ∧
      (cardioStepD today a w).cardioKmWeek
        = if inWeek today w.date = true then fl (a.cardioKmWeek + w.distance)
          else a.cardioKmWeek := by
  unfold cardioStepD inWeek
  cases hd : fromString w.date with
  | none => simp [ha]
  | some d =>
    simp only [daysTo, addDays, decide_eq_true_eq]
    have e6 : today + -6 = today - 6 := by ring
    rw [e6]
    by_cases hwin : 0 ≤ today - d ∧ today - d < 7
    · have hw2 : today - 6 ≤ d ∧ d ≤ today := by omega
      have hj : (6 - (today - d)).toNat < a.cardioPerDay.length := by
        rw [ha]; omega
      rw [if_pos hwin, if_pos hw2, if_pos hw2]
      refine ⟨by simp [addAtD_length, ha], ?_, rfl⟩
      intro i hi
      simp only [addAtD_getD _ _ _ _ hj, Option.some.injEq]
      by_cases hi2 : i = (6 - (today - d)).toNat
      · have : d = today - (6 - (i : Int)) := by omega
        rw [if_pos hi2, if_pos this]
      · have : ¬ d = today - (6 - (i : Int)) := by omega
        rw [if_neg hi2, if_neg this]
    · have hw2 : ¬ (today - 6 ≤ d ∧ d ≤ today) := by omega
      rw [if_neg hwin, if_neg hw2, if_neg hw2]
      refine ⟨ha, ?_, rfl⟩
      intro i hi
      have : ¬ d = today - (6 - (i : Int)) := by omega
      simp only [Option.some.injEq]
      rw [if_neg this]

theorem foldl_cardioStepD (today : Int) (cardio : List CardioWorkout) (a : CardioWeek)
    (ha : a.cardioPerDay.length = 7) :
    (cardio.foldl (cardioStepD today) a).cardioPerDay.length = 7 ∧
      (∀ i : Nat, i ≤ 6 →
        (cardio.foldl (cardioStepD today) a).cardioPerDay.getD i 0
          = ((cardio.filter
                (fun w => decide (fromString w.date = some (today - (6 - (i : Int)))))).map
                (fun w => w.distance)).foldl (fun s v => fl (s + v))
              (a.cardioPerDay.getD i 0)) ∧
      (cardio.foldl (cardioStepD today) a).cardioKmWeek
        = ((cardio.filter (fun w => inWeek today w.date)).map
              (fun w => w.distance)).foldl (fun s v => fl (s + v)) a.cardioKmWeek := by
  induction cardio generalizing a with
  | nil => simp [ha]
  | cons w t ih =>
    obtain ⟨h1, h2, h3⟩ := cardioStepD_spec today a w ha
    obtain ⟨h4, h5, h6⟩ := ih (cardioStepD today a w) h1
    refine ⟨h4, ?_, ?_⟩
    · intro i hi
      rw [List.foldl_cons, h5 i hi, h2 i hi]
      by_cases hw : fromString w.date = some (today - (6 - (i : Int)))
      · simp [List.filter_cons, hw]
      · simp [List.filter_cons, hw]
    · rw [List.foldl_cons, h6, h3]
      by_cases hw : inWeek today w.date = true
      · simp [List.filter_cons, hw]
      · simp [List.filter_cons, hw]

/-- The `double` loop of `refresh` over the cardio records: seven buckets, the
bucket of a day being the `double` sum, in list order, of the distances of the
records of that day, and the weekly distance the `double` sum, in list order,
of the distances of the records dated within the week. -/
theorem refreshCardioD_spec (today : Int) (cardio : List CardioWorkout) :
    (refreshCardioD today cardio).cardioPerDay.length = 7 ∧
      (∀ i : Nat, i ≤ 6 →
        (refreshCardioD today cardio).cardioPerDay.getD i 0
          = sumD ((cardio.filter
                (fun w => decide (fromString w.date = some (today - (6 - (i : Int)))))).map
                (fun w => w.distance))) ∧
      (refreshCardioD today cardio).cardioKmWeek
        = sumD ((cardio.filter (fun w => inWeek today w.date)).map (fun w => w.distance)) := by
  obtain ⟨h1, h2, h3⟩ := foldl_cardioStepD today cardio
    { cardioPerDay := List.replicate 7 0, cardioKmWeek := 0, cardioCaloriesWeek := 0 } rfl
  refine ⟨h1, ?_, h3⟩
  intro i hi
  have h := h2 i hi
  have h0 : (List.replicate 7 (0 : ℚ)).getD i 0 = 0 := by
    interval_cases i <;> rfl
  simp only [h0] at h
  exact h

theorem foldl_fl_add_nonneg (l : List ℚ) (s : ℚ) (hs : 0 ≤ s) (hl : ∀ x ∈ l, 0 ≤ x) :
    0 ≤ l.foldl (fun s v => fl (s + v)) s := by
  induction l generalizing s with
  | nil => exact hs
  | cons a t ih =>
    rw [List.foldl_cons]
    exact ih _ (fl_nonneg _ (add_nonneg hs (hl a (List.mem_cons_self _ _))))
      (fun x hx => hl x (List.mem_cons_of_mem _ hx))

theorem sumD_nonneg (l : List ℚ) (hl : ∀ x ∈ l, 0 ≤ x) : 0 ≤ sumD l :=
  foldl_fl_add_nonneg l 0 (le_refl _) hl

theorem cardioSum_nonneg (today : Int) (cardio : List CardioWorkout)
    (h : ∀ w ∈ cardio, 0 ≤ w.distance) :
    0 ≤ cardioSumOf (refreshCardioD today cardio).cardioPerDay := by
  obtain ⟨h1, h2, -⟩ := refreshCardioD_spec today cardio
  unfold cardioSumOf
  apply sumD_nonneg
  intro x hx
  obtain ⟨i, hi, rfl⟩ := List.getElem_of_mem hx
  have hi6 : i ≤ 6 := by omega
  have hg := h2 i hi6
  rw [List.getD_eq_getElem _ _ hi] at hg
  rw [hg]
  apply sumD_nonneg
  intro y hy
  obtain ⟨w, hw, rfl⟩ := List.mem_map.1 hy
  exact h w (List.mem_of_mem_filter hw)

/-- The quotient `p * 100 / t` in `double` arithmetic, for `p` at least
`2 ^ (-500)` and `t` positive and at most `2 ^ 500`: the exact quotient times a
factor within `2 ^ (-51)` of 1. -/
theorem quot_factor (p t : ℚ) (hp : 1 / 2 ^ 500 ≤ p) (ht0 : 0 < t) (ht : t ≤ 2 ^ 500) :
    ∃ f : ℚ, fl (fl (p * 100) / t) = 100 * p / t * f ∧ 1 - 1 / 2 ^ 51 ≤ f ∧
      f ≤ 1 + 1 / 2 ^ 51 := by
  have h1 : 1 / 2 ^ 1022 ≤ p * 100 := by
    calc (1 : ℚ) / 2 ^ 1022 ≤ 1 / 2 ^ 500 * 100 := by norm_num
      _ ≤ p * 100 := mul_le_mul_of_nonneg_right hp (by norm_num)
  obtain ⟨u1, e1, l1, r1⟩ := fl_factor _ h1
  obtain ⟨f1l, -⟩ := fl_rough _ h1
  have h2 : 1 / 2 ^ 1022 ≤ fl (p * 100) / t := by
    rw [le_div_iff₀ ht0]
    calc 1 / 2 ^ 1022 * t ≤ 1 / 2 ^ 1022 * 2 ^ 500 :=
          mul_le_mul_of_nonneg_left ht (by norm_num)
      _ ≤ 1 / 2 ^ 500 * 100 / 2 := by norm_num
      _ ≤ p * 100 / 2 :=
          div_le_div_of_nonneg_right (mul_le_mul_of_nonneg_right hp (by norm_num))
            (by norm_num)
      _ ≤ fl (p * 100) := f1l
  obtain ⟨u2, e2, l2, r2⟩ := fl_factor _ h2
  have hu1 : 0 < u1 := lt_of_lt_of_le (by norm_num) l1
  have hu2 : 0 < u2 := lt_of_lt_of_le (by norm_num) l2
  refine ⟨u1 * u2, ?_, ?_, ?_⟩
  · rw [e2, e1]
    field_simp
    ring
  · exact le_trans (by norm_num) (mul_le_mul l1 l2 (by norm_num) hu1.le)
  · exact le_trans (mul_le_mul r1 r2 hu2.le (by norm_num)) (by norm_num)

theorem fl_half : fl (1 / 2 : ℚ) = 1 / 2 := by
  have := fl_exact 1 (-1) (by norm_num) (by norm_num)
  norm_num at this
  exact this

/-- The cardio percentage from the weekly sum `s` and the target `t`: for `s`
that is 0 or at least `2 ^ (-500)`, `t` positive and at most `2 ^ 500` and
`100 * s / t` at most `2 ^ 30`, the clamped `qRound` of the `double` quotient is
`round(min(100, q))` for a `q` close to `100 * s / t`. -/
theorem qRound_cardioQuot (s t : ℚ) (hs : s = 0 ∨ 1 / 2 ^ 500 ≤ s) (ht0 : 0 < t)
    (ht : t ≤ 2 ^ 500) (hq : 100 * s / t ≤ 2 ^ 30) :
    ∃ q : ℚ, 0 ≤ q ∧ |q - 100 * s / t| ≤ (100 * s / t + 1) * (1 / 2 ^ 50) ∧
      (qRound (cardioQuot s t)).map (fun r => qBound 0 r 100)
        = some (round (min (100 : ℚ) q)) := by
  have h100 : (100.0 : ℚ) = 100 := by norm_num
  have h05 : (0.5 : ℚ) = 1 / 2 := by norm_num
  rcases hs with hs | hs
  · refine ⟨0, le_refl _, by rw [hs]; norm_num, ?_⟩
    unfold cardioQuot qRound
    rw [hs, zero_mul, fl_zero, zero_div, fl_zero, if_pos (le_refl _), h05, zero_add, fl_half,
      castInt_of_nonneg _ (by norm_num) (by norm_num)]
    have := qBound_floor_half 0 (le_refl _)
    rw [zero_add] at this
    simp only [Option.map_some']
    rw [this]
  · have hs0 : 0 < s := lt_of_lt_of_le (by norm_num) hs
    obtain ⟨f, ef, lf, rf⟩ := quot_factor s t hs ht0 ht
    obtain ⟨x, hx⟩ : ∃ x : ℚ, x = 100 * s / t := ⟨_, rfl⟩
    rw [← hx] at hq ef ⊢
    have hx0 : 0 < x := by rw [hx]; exact div_pos (mul_pos (by norm_num) hs0) ht0
    have hf0 : 0 < f := lt_of_lt_of_le (by norm_num) lf
    have hD : cardioQuot s t = x * f := by
      unfold cardioQuot
      rw [h100, ef]
    have hD0 : 0 ≤ x * f := (mul_pos hx0 hf0).le
    have hylo : 1 / 2 ^ 1022 ≤ x * f + 1 / 2 :=
      le_trans (by norm_num) (le_add_of_nonneg_left hD0)
    obtain ⟨u, eu, lu, ru⟩ := fl_factor _ hylo
    have hu0 : 0 < u := lt_of_lt_of_le (by norm_num) lu
    have hYhalf : 1 / 2 ≤ fl (x * f + 1 / 2) := le_fl _ _ (by linarith) fl_half
    -- the product of the two factors
    have hg_lo : 1 - 1 / 2 ^ 50 ≤ f * u :=
      le_trans (by norm_num) (mul_le_mul lf lu (by norm_num) hf0.le)
    have hg_hi : f * u ≤ 1 + 1 / 2 ^ 50 :=
      le_trans (mul_le_mul rf ru hu0.le (by norm_num)) (by norm_num)
    have k1 := mul_le_mul_of_nonneg_left hg_lo hx0.le
    have k2 := mul_le_mul_of_nonneg_left hg_hi hx0.le
    have hY : fl (x * f + 1 / 2) = x * (f * u) + u / 2 := by
      rw [eu]
      ring
    have hYlt : fl (x * f + 1 / 2) < 2147483648 := by
      rw [hY]
      have : x * (1 + 1 / 2 ^ 50) ≤ 2 ^ 30 * (1 + 1 / 2 ^ 50) :=
        mul_le_mul_of_nonneg_right hq (by norm_num)
      have : u / 2 ≤ 1 := by linarith
      have : (2 : ℚ) ^ 30 * (1 + 1 / 2 ^ 50) + 1 < 2147483648 := by norm_num
      linarith
    refine ⟨fl (x * f + 1 / 2) - 1 / 2, by linarith, ?_, ?_⟩
    · rw [hY, abs_le]
      constructor
      · have : (1 : ℚ) / 2 ^ 50 * 1 ≥ 1 / 2 ^ 53 / 2 := by norm_num
        linarith
      · have : (1 : ℚ) / 2 ^ 50 * 1 ≥ 1 / 2 ^ 53 / 2 := by norm_num
        linarith
    · unfold qRound
      rw [hD, if_pos hD0, h05, castInt_of_nonneg _ (by linarith) hYlt]
      simp only [Option.map_some']
      have := qBound_floor_half (fl (x * f + 1 / 2) - 1 / 2) (by linarith)
      rw [sub_add_cancel] at this
      rw [this]

/-- C17 (as amended). The cardio progress bar is computed from the weekly sum
`S`, the `double` sum of the seven daily buckets, each the `double` sum in list
order of the distances of the records of its day; `S` is not negative when no
distance is. When `S` is 0 or at least `2 ^ (-500)`, the selected target `T` is
at most `2 ^ 500` and `100 * S / T` is at most `2 ^ 30`, the value of the bar is
`round(min(100, q))` for a `q ≥ 0` that differs from `100 * S / T` by at most
`(100 * S / T + 1) * 2 ^ (-50)`, the roundings of the quotient and of the sum
with 0.5; whenever the value is defined it is an integer from 0 to 100. -/
theorem cardio_pct (today : Int) (cardio : List CardioWorkout) (goals : List Goal) :
    ((refreshCardioD today cardio).cardioPerDay.length = 7 ∧
        ∀ i : Nat, i ≤ 6 →
          (refreshCardioD today cardio).cardioPerDay.getD i 0
            = sumD ((cardio.filter
                  (fun w => decide (fromString w.date = some (today - (6 - (i : Int)))))).map
                  (fun w => w.distance))) ∧
      ((∀ w ∈ cardio, 0 ≤ w.distance) →
        0 ≤ cardioSumOf (refreshCardioD today cardio).cardioPerDay) ∧
      ((cardioSumOf (refreshCardioD today cardio).cardioPerDay = 0 ∨
          1 / 2 ^ 500 ≤ cardioSumOf (refreshCardioD today cardio).cardioPerDay) →
        cardioTargetOf goals ≤ 2 ^ 500 →
        100 * cardioSumOf (refreshCardioD today cardio).cardioPerDay / cardioTargetOf goals
          ≤ 2 ^ 30 →
        ∃ q : ℚ, 0 ≤ q ∧
          |q - 100 * cardioSumOf (refreshCardioD today cardio).cardioPerDay
              / cardioTargetOf goals|
            ≤ (100 * cardioSumOf (refreshCardioD today cardio).cardioPerDay
                / cardioTargetOf goals + 1) * (1 / 2 ^ 50) ∧
          cardioPct today cardio goals = some (round (min (100 : ℚ) q))) ∧
      (∀ v : Int, cardioPct today cardio goals = some v → 0 ≤ v ∧ v ≤ 100) := by
  have hT := cardioTargetOf_pos goals
  obtain ⟨b1, b2, -⟩ := refreshCardioD_spec today cardio
  refine ⟨⟨b1, b2⟩, cardioSum_nonneg today cardio, ?_, ?_⟩
  · intro hs ht hq
    obtain ⟨q, q0, qe, qv⟩ := qRound_cardioQuot _ _ hs hT ht hq
    refine ⟨q, q0, qe, ?_⟩
    unfold cardioPct
    simp only [gt_iff_lt, hT, if_true]
    exact qv
  · intro v hv
    unfold cardioPct at hv
    simp only [gt_iff_lt, hT, if_true] at hv
    cases hr : qRound (cardioQuot (cardioSumOf (refreshCardioD today cardio).cardioPerDay)
        (cardioTargetOf goals)) with
    | none => rw [hr] at hv; simp at hv
    | some r =>
      rw [hr] at hv
      simp only [Option.map_some', Option.some.injEq] at hv
      rw [← hv]
      exact qBound_range r

/-- Witness for C17: 5 km and 3 km within the week, 9 km a week back, against
a goal of 10 km: 80 percent. -/
theorem cardio_pct_witness :
    (∃ q : ℚ, 0 ≤ q ∧
        |q - 100 * cardioSumOf (refreshCardioD 2460320
            [{ date := "2024-01-10".data, type := "Running".data, duration := 30,
               distance := 5, calories := 343, avgSpeed := 10 },
             { date := "2024-01-07".data, type := "Running".data, duration := 30,
               distance := 3, calories := 343, avgSpeed := 6 },
             { date := "2024-01-03".data, type := "Running".data, duration := 30,
               distance := 9, calories := 343, avgSpeed := 18 }]).cardioPerDay
            / cardioTargetOf [{ name := "Run".data, type := "cardio_km".data, target := 10 }]|
          ≤ (100 * cardioSumOf (refreshCardioD 2460320
              [{ date := "2024-01-10".data, type := "Running".data, duration := 30,
                 distance := 5, calories := 343, avgSpeed := 10 },
               { date := "2024-01-07".data, type := "Running".data, duration := 30,
                 distance := 3, calories := 343, avgSpeed := 6 },
               { date := "2024-01-03".data, type := "Running".data, duration := 30,
                 distance := 9, calories := 343, avgSpeed := 18 }]).cardioPerDay
              / cardioTargetOf [{ name := "Run".data, type := "cardio_km".data, target := 10 }]
              + 1) * (1 / 2 ^ 50) ∧
        cardioPct 2460320
          [{ date := "2024-01-10".data, type := "Running".data, duration := 30, distance := 5,
             calories := 343, avgSpeed := 10 },
           { date := "2024-01-07".data, type := "Running".data, duration := 30, distance := 3,
             calories := 343, avgSpeed := 6 },
           { date := "2024-01-03".data, type := "Running".data, duration := 30, distance := 9,
             calories := 343, avgSpeed := 18 }]
          [{ name := "Run".data, type := "cardio_km".data, target := 10 }]
          = some (round (min (100 : ℚ) q))) ∧
      cardioPct 2460320
        [{ date := "2024-01-10".data, type := "Running".data, duration := 30, distance := 5,
           calories := 343, avgSpeed := 10 },
         { date := "2024-01-07".data, type := "Running".data, duration := 30, distance := 3,
           calories := 343, avgSpeed := 6 },
         { date := "2024-01-03".data, type := "Running".data, duration := 30, distance := 9,
           calories := 343, avgSpeed := 18 }]
        [{ name := "Run".data, type := "cardio_km".data, target := 10 }] = some 80 := by
  constructor
  · exact (cardio_pct 2460320 _ _).2.2.1 (Or.inr (by decide!)) (by decide!) (by decide!)
  · decide!

/-- C17 as stated fails. One run of 0.15 km (the `double` nearest to it) today
against a goal of 2 km: `100 * S / T` is just below 7.5 and rounds to 7, while
the program shows 8, the product `0.15 * 100.0` being the `double` 15. -/
theorem cardio_pct_fails :
    (∀ w ∈ [({ date := "2024-01-10".data, type := "Running".data, duration := 30,
               distance := fl (15 / 100), calories := 343, avgSpeed := 1 } : CardioWorkout)],
        0 ≤ w.distance) ∧
      cardioPct 2460320
        [{ date := "2024-01-10".data, type := "Running".data, duration := 30,
           distance := fl (15 / 100), calories := 343, avgSpeed := 1 }]
        [{ name := "Run".data, type := "cardio_km".data, target := 2 }] = some 8 ∧
      cardioPctClaimed
        (List.map (fun (w : CardioWorkout) => w.distance)
          (List.filter (fun (w : CardioWorkout) => inWeek 2460320 w.date)
            [{ date := "2024-01-10".data, type := "Running".data, duration := 30,
               distance := fl (15 / 100), calories := 343, avgSpeed := 1 }])).sum
        (cardioTargetOf [{ name := "Run".data, type := "cardio_km".data, target := 2 }])
        = 7 := by
  decide!

/-- The strength percentage before clamping: for `n` workouts, `0 ≤ n ≤ 10^7`,
and an `int` target `t ≥ 1`, the `double` computation of
`qRound((n * 100.0) / (double)t)` returns `floor(100 * n / t + 1/2)`. The exact
value `100 * n / t + 1/2` is a multiple of `1 / (2 * t)`, and the rounding errors
stay below that step. -/
theorem qRound_quot_int (n t : Int) (hn0 : 0 ≤ n) (hn : n ≤ 10000000) (ht1 : 1 ≤ t)
    (ht2 : t ≤ 2147483647) :
    qRound (fl (fl ((n : ℚ) * 100.0) / (t : ℚ)))
      = some (Int.floor (100 * (n : ℚ) / (t : ℚ) + 1 / 2)) := by
  have h100 : (100.0 : ℚ) = 100 := by norm_num
  have h05 : (0.5 : ℚ) = 1 / 2 := by norm_num
  have htq : (0 : ℚ) < (t : ℚ) := by exact_mod_cast (by omega : 0 < t)
  have ht1q : (1 : ℚ) ≤ (t : ℚ) := by exact_mod_cast ht1
  have ht2q : (t : ℚ) ≤ 2147483647 := by exact_mod_cast ht2
  have hn0q : (0 : ℚ) ≤ (n : ℚ) := by exact_mod_cast hn0
  have hnq : (n : ℚ) ≤ 10000000 := by exact_mod_cast hn
  have hP : fl ((n : ℚ) * 100.0) = (n : ℚ) * 100 := by
    rw [h100]
    have := fl_intCast (n * 100) (abs_lt.2 ⟨by norm_num; omega, by norm_num; omega⟩)
    push_cast at this
    exact this
  rw [hP]
  obtain ⟨q, hq⟩ : ∃ q : ℚ, q = 100 * (n : ℚ) / (t : ℚ) := ⟨_, rfl⟩
  have hq' : (n : ℚ) * 100 / (t : ℚ) = q := by rw [hq]; ring
  rw [hq', ← hq]
  have hq0 : 0 ≤ q := by rw [hq]; exact div_nonneg (mul_nonneg (by norm_num) hn0q) htq.le
  have hqle : q ≤ 1000000000 := by
    rw [hq, div_le_iff₀ htq]
    nlinarith
  have hhalf : fl (1 / 2 : ℚ) = 1 / 2 := by
    have := fl_exact 1 (-1) (by norm_num) (by norm_num)
    norm_num at this
    exact this
  obtain ⟨k, hk⟩ : ∃ k : Int, k = Int.floor (q + 1 / 2) := ⟨_, rfl⟩
  rw [← hk]
  have hk1 : (k : ℚ) ≤ q + 1 / 2 := by rw [hk]; exact Int.floor_le _
  have hk2 : q + 1 / 2 < (k : ℚ) + 1 := by rw [hk]; exact Int.lt_floor_add_one _
  have hk0 : 0 ≤ k := by rw [hk]; exact Int.floor_nonneg.2 (by linarith)
  have hkle : k ≤ 1000000001 := by
    have : (k : ℚ) < 1000000002 := by linarith
    have : k < 1000000002 := by exact_mod_cast this
    omega
  have hk0q : (0 : ℚ) ≤ (k : ℚ) := by exact_mod_cast hk0
  have hkleq : (k : ℚ) ≤ 1000000001 := by exact_mod_cast hkle
  -- the exact value times 2 t is the integer 200 n + t
  have hz : (q + 1 / 2) * (2 * (t : ℚ)) = ((200 * n + t : Int) : ℚ) := by
    rw [hq]
    push_cast
    field_simp
    ring
  have hA1 : 2 * t * k ≤ 200 * n + t := by
    have : (k : ℚ) * (2 * (t : ℚ)) ≤ ((200 * n + t : Int) : ℚ) := by
      rw [← hz]
      exact mul_le_mul_of_nonneg_right hk1 (by linarith)
    have : ((k * (2 * t) : Int) : ℚ) ≤ ((200 * n + t : Int) : ℚ) := by
      push_cast
      push_cast at this
      exact this
    have := (Int.cast_le (R := ℚ)).1 this
    linarith
  have hA2 : 200 * n + t < 2 * t * (k + 1) := by
    have : ((200 * n + t : Int) : ℚ) < ((k : ℚ) + 1) * (2 * (t : ℚ)) := by
      rw [← hz]
      exact mul_lt_mul_of_pos_right hk2 (by linarith)
    have : ((200 * n + t : Int) : ℚ) < (((k + 1) * (2 * t) : Int) : ℚ) := by
      push_cast
      push_cast at this
      exact this
    have := (Int.cast_lt (R := ℚ)).1 this
    linarith
  rcases eq_or_lt_of_le hA1 with heq | hgt
  · -- the exact value is the integer k: every operation is exact
    have hzk : q + 1 / 2 = (k : ℚ) := by
      have h1 : (q + 1 / 2) * (2 * (t : ℚ)) = (k : ℚ) * (2 * (t : ℚ)) := by
        rw [hz, ← heq]
        push_cast
        ring
      exact mul_right_cancel₀ (by linarith : 2 * (t : ℚ) ≠ 0) h1
    have hqk : q = ((2 * k - 1 : Int) : ℚ) * (2 : ℚ) ^ (-1 : Int) := by
      push_cast
      rw [zpow_neg, zpow_one]
      linarith
    have hD : fl q = q := by
      rw [hqk]
      exact fl_exact (2 * k - 1) (-1) (abs_lt.2 ⟨by norm_num; omega, by norm_num; omega⟩)
        (by norm_num)
    have hY : fl (q + 1 / 2) = (k : ℚ) := by
      rw [hzk]
      exact fl_intCast k (abs_lt.2 ⟨by norm_num; omega, by norm_num; omega⟩)
    unfold qRound
    rw [hD, if_pos hq0, h05, hY, castInt_of_nonneg _ hk0q (by linarith), Int.floor_intCast]
  · -- the exact value is at least one step above k and one step below k + 1
    by_cases hn00 : n = 0
    · have hq00 : q = 0 := by rw [hq, hn00]; simp
      unfold qRound
      rw [hk, hq00, fl_zero, if_pos (le_refl _), h05, zero_add, hhalf,
        castInt_of_nonneg _ (by norm_num) (by norm_num)]
    have hn1 : 1 ≤ n := by omega
    have hn1q : (1 : ℚ) ≤ (n : ℚ) := by exact_mod_cast hn1
    have hqlo : 1 / 2 ^ 1022 ≤ q := by
      rw [hq, le_div_iff₀ htq]
      calc 1 / 2 ^ 1022 * (t : ℚ) ≤ 1 / 2 ^ 1022 * 2147483647 :=
            mul_le_mul_of_nonneg_left ht2q (by norm_num)
        _ ≤ 100 * 1 := by norm_num
        _ ≤ 100 * (n : ℚ) := mul_le_mul_of_nonneg_left hn1q (by norm_num)
    obtain ⟨u2, e2, l2, r2⟩ := fl_factor q hqlo
    have hu2 : 0 < u2 := lt_of_lt_of_le (by norm_num) l2
    have hD0 : 0 ≤ fl q := fl_nonneg q hq0
    have hylo : 1 / 2 ^ 1022 ≤ fl q + 1 / 2 := le_trans (by norm_num) (le_add_of_nonneg_left hD0)
    obtain ⟨u3, e3, l3, r3⟩ := fl_factor _ hylo
    have hu3 : 0 < u3 := lt_of_lt_of_le (by norm_num) l3
    have hstep : 3 * (1 / 2 ^ 53) * (q + 1 / 2) < 1 / (2 * (t : ℚ)) := by
      rw [lt_div_iff₀ (by linarith : (0 : ℚ) < 2 * (t : ℚ)), mul_assoc, hz]
      push_cast
      linarith
    have hzlo : (k : ℚ) + 1 / (2 * (t : ℚ)) ≤ q + 1 / 2 := by
      have h1 : ((2 * t * k + 1 : Int) : ℚ) ≤ ((200 * n + t : Int) : ℚ) := by
        exact_mod_cast (by omega : 2 * t * k + 1 ≤ 200 * n + t)
      rw [← hz] at h1
      rw [← sub_nonneg]
      have h2 : 0 ≤ ((q + 1 / 2) * (2 * (t : ℚ)) - ((2 * t * k + 1 : Int) : ℚ))
          / (2 * (t : ℚ)) := div_nonneg (by linarith) (by linarith)
      have h3 : ((q + 1 / 2) * (2 * (t : ℚ)) - ((2 * t * k + 1 : Int) : ℚ)) / (2 * (t : ℚ))
          = q + 1 / 2 - ((k : ℚ) + 1 / (2 * (t : ℚ))) := by
        push_cast
        field_simp
        ring
      rw [h3] at h2
      exact h2
    have hzhi : q + 1 / 2 ≤ (k : ℚ) + 1 - 1 / (2 * (t : ℚ)) := by
      have h1 : ((200 * n + t : Int) : ℚ) ≤ ((2 * t * (k + 1) - 1 : Int) : ℚ) := by
        exact_mod_cast (by omega : 200 * n + t ≤ 2 * t * (k + 1) - 1)
      rw [← hz] at h1
      rw [← sub_nonneg]
      have h2 : 0 ≤ (((2 * t * (k + 1) - 1 : Int) : ℚ) - (q + 1 / 2) * (2 * (t : ℚ)))
          / (2 * (t : ℚ)) := div_nonneg (by linarith) (by linarith)
      have h3 : (((2 * t * (k + 1) - 1 : Int) : ℚ) - (q + 1 / 2) * (2 * (t : ℚ)))
            / (2 * (t : ℚ))
          = (k : ℚ) + 1 - 1 / (2 * (t : ℚ)) - (q + 1 / 2) := by
        push_cast
        field_simp
        ring
      rw [h3] at h2
      exact h2
    -- bounds on the rounded sum
    obtain ⟨e, he⟩ : ∃ e : ℚ, e = 1 / 2 ^ 53 := ⟨_, rfl⟩
    rw [← he] at l2 r2 l3 r3 hstep
    have he0 : 0 ≤ e := by rw [he]; norm_num
    have he1 : e ≤ 1 := by rw [he]; norm_num
    have hz0 : 0 ≤ q + 1 / 2 := by linarith
    have p0 : 0 ≤ q * u2 := mul_nonneg hq0 hu2.le
    have p1 : 0 ≤ e * (q + 1 / 2) := mul_nonneg he0 hz0
    have p2 : 0 ≤ e * (e * (q + 1 / 2)) := mul_nonneg he0 p1
    have p3 : e * (e * (q + 1 / 2)) ≤ 1 * (e * (q + 1 / 2)) :=
      mul_le_mul_of_nonneg_right he1 p1
    have p4 : 0 ≤ q * e := mul_nonneg hq0 he0
    have hYlo : (q + 1 / 2) - 3 * e * (q + 1 / 2) ≤ fl (fl q + 1 / 2) := by
      rw [e3, e2]
      have a1 : q * (1 - e) ≤ q * u2 := mul_le_mul_of_nonneg_left l2 hq0
      have a2 : (q + 1 / 2) * (1 - e) ≤ q * u2 + 1 / 2 := by linarith
      have a3 : (q + 1 / 2) * (1 - e) * (1 - e) ≤ (q * u2 + 1 / 2) * u3 :=
        mul_le_mul a2 l3 (by linarith) (by linarith)
      linarith
    have hYhi : fl (fl q + 1 / 2) ≤ (q + 1 / 2) + 3 * e * (q + 1 / 2) := by
      rw [e3, e2]
      have a1 : q * u2 ≤ q * (1 + e) := mul_le_mul_of_nonneg_left r2 hq0
      have a2 : q * u2 + 1 / 2 ≤ (q + 1 / 2) * (1 + e) := by linarith
      have a3 : (q * u2 + 1 / 2) * u3 ≤ (q + 1 / 2) * (1 + e) * (1 + e) :=
        mul_le_mul a2 r3 hu3.le (by linarith)
      linarith
    have hYk : (k : ℚ) ≤ fl (fl q + 1 / 2) := by linarith
    have hYk1 : fl (fl q + 1 / 2) < (k : ℚ) + 1 := by
      have : 0 < 1 / (2 * (t : ℚ)) := div_pos one_pos (by linarith)
      linarith
    have hfloor : Int.floor (fl (fl q + 1 / 2)) = k := Int.floor_eq_iff.2 ⟨hYk, hYk1⟩
    unfold qRound
    rw [if_pos hD0, h05, castInt_of_nonneg _ (le_trans hk0q hYk) (by linarith), hfloor]

theorem strengthTargetOf_eq (goals : List Goal)
    (h : ∀ g ∈ goals, g.type = "strength_exercise".data → 0 < g.target →
      g.target < 2147483648) :
    strengthTargetOf goals
        = some ((((goals.filter
              (fun g => decide (g.type = "strength_exercise".data ∧ 0 < g.target))).getLast?).map
              (fun g => max 1 (Int.floor g.target))).getD 3) ∧
      1 ≤ (((goals.filter
              (fun g => decide (g.type = "strength_exercise".data ∧ 0 < g.target))).getLast?).map
              (fun g => max 1 (Int.floor g.target))).getD 3 ∧
      (((goals.filter
              (fun g => decide (g.type = "strength_exercise".data ∧ 0 < g.target))).getLast?).map
              (fun g => max 1 (Int.floor g.target))).getD 3 ≤ 2147483647 := by
  have key : ∀ (l : List Goal) (t : Int),
      (∀ g ∈ l, g.type = "strength_exercise".data → 0 < g.target → g.target < 2147483648) →
      1 ≤ t → t ≤ 2147483647 →
      l.foldl (fun strengthTarget g =>
          if g.type = "strength_exercise".data then
            (if g.target > 0 then castInt g.target else strengthTarget).map (fun t => max 1 t)
          else strengthTarget) (some t)
        = some (l.foldl (fun t g =>
            if decide (g.type = "strength_exercise".data ∧ 0 < g.target) = true
            then max 1 (Int.floor g.target) else t) t) ∧
      1 ≤ l.foldl (fun t g =>
            if decide (g.type = "strength_exercise".data ∧ 0 < g.target) = true
            then max 1 (Int.floor g.target) else t) t ∧
      l.foldl (fun t g =>
            if decide (g.type = "strength_exercise".data ∧ 0 < g.target) = true
            then max 1 (Int.floor g.target) else t) t ≤ 2147483647 := by
    intro l
    induction l with
    | nil => intro t _ ht1 ht2; exact ⟨rfl, ht1, ht2⟩
    | cons g r ih =>
      intro t hl ht1 ht2
      have hr : ∀ g ∈ r, g.type = "strength_exercise".data → 0 < g.target →
          g.target < 2147483648 := fun x hx => hl x (List.mem_cons_of_mem _ hx)
      simp only [List.foldl_cons]
      by_cases h1 : g.type = "strength_exercise".data
      · by_cases h2 : 0 < g.target
        · have hlt := hl g (List.mem_cons_self _ _) h1 h2
          have hf : Int.floor g.target ≤ 2147483647 := by
            have : Int.floor g.target < 2147483648 := by
              apply Int.floor_lt.2
              push_cast
              exact hlt
            omega
          simp only [h1, h2, if_true, gt_iff_lt, and_self, decide_True,
            castInt_of_nonneg _ h2.le hlt, Option.map_some']
          exact ih _ hr (le_max_left _ _) (max_le (by norm_num) hf)
        · simp only [h1, h2, if_true, if_false, gt_iff_lt, and_false, decide_False,
            Option.map_some', max_eq_right ht1]
          exact ih _ hr ht1 ht2
      · simp only [h1, if_false, false_and, decide_False]
        exact ih _ hr ht1 ht2
  obtain ⟨h1, h2, h3⟩ := key goals 3 h (by norm_num) (by norm_num)
  rw [foldl_last_wins] at h1 h2 h3
  exact ⟨h1, h2, h3⟩

/-- C18 (as amended). For every list of strength workouts of which at most ten
million are dated within the week and every goal list whose `strength_exercise`
goals with a positive target have it below `2 ^ 31`, the strength progress-bar
value is `round(min(100, 100 * N / T))`, `N` the number of workouts with a
valid date within `[today - 6, today]` and `T` equal to 3 when no
`strength_exercise` goal has a positive target and otherwise to `max(1, t)` for
`t` the target, cut to its integer part, of the last `strength_exercise` goal in
list order with a positive target: the roundings of the `double` quotient and
of the sum with 0.5 do not change the integer part. Where all these targets are
whole numbers this is the value the specification names. -/
theorem strength_pct (today : Int) (strength : List StrengthWorkout) (goals : List Goal)
    (hg : ∀ g ∈ goals, g.type = "strength_exercise".data → 0 < g.target →
      g.target < 2147483648)
    (hn : (strength.filter (fun w => inWeek today w.date)).length ≤ 10000000) :
    strengthTargetOf goals
        = some ((((goals.filter
              (fun g => decide (g.type = "strength_exercise".data ∧ 0 < g.target))).getLast?).map
              (fun g => max 1 (Int.floor g.target))).getD 3) ∧
      strengthPct today strength goals
        = some (round (min (100 : ℚ)
            (100 * ((strength.filter (fun w => inWeek today w.date)).length : ℚ)
              / (((((goals.filter
                  (fun g => decide (g.type = "strength_exercise".data
                    ∧ 0 < g.target))).getLast?).map
                  (fun g => max 1 (Int.floor g.target))).getD 3 : Int) : ℚ)))) ∧
      ((∀ g ∈ goals, g.type = "strength_exercise".data → 0 < g.target →
          ∃ k : Int, g.target = (k : ℚ)) →
        strengthPct today strength goals = some (strengthPctClaimed today strength goals)) := by
  obtain ⟨ht, hpos, hle⟩ := strengthTargetOf_eq goals hg
  obtain ⟨t, htdef⟩ : ∃ t : Int, t = (((goals.filter
      (fun g => decide (g.type = "strength_exercise".data ∧ 0 < g.target))).getLast?).map
      (fun g => max 1 (Int.floor g.target))).getD 3 := ⟨_, rfl⟩
  rw [← htdef] at ht hpos hle ⊢
  have hT : 0 < t := by omega
  have hTq : (0 : ℚ) < (t : ℚ) := by exact_mod_cast hT
  have hpct : strengthPct today strength goals
      = some (round (min (100 : ℚ)
          (100 * ((strength.filter (fun w => inWeek today w.date)).length : ℚ)
            / (t : ℚ)))) := by
    unfold strengthPct
    rw [ht]
    simp only [Option.some_bind, gt_iff_lt, hT, if_true]
    rw [refreshStrengthD_count]
    have hq := qRound_quot_int
      ((strength.filter (fun w => inWeek today w.date)).length : Int) t
      (by positivity) (by exact_mod_cast hn) hpos hle
    push_cast at hq
    simp only [Int.cast_natCast]
    rw [hq]
    simp only [Option.map_some']
    rw [qBound_floor_half _ (div_nonneg (mul_nonneg (by norm_num) (by positivity)) hTq.le)]
  refine ⟨ht, hpct, ?_⟩
  intro hint
  rw [hpct]
  unfold strengthPctClaimed
  have hc : strengthTargetClaimed goals = (t : ℚ) := by
    rw [htdef]
    unfold strengthTargetClaimed
    cases hl : (goals.filter
        (fun g => decide (g.type = "strength_exercise".data ∧ 0 < g.target))).getLast? with
    | none => simp
    | some g =>
      have hg1 : g ∈ goals.filter
          (fun g => decide (g.type = "strength_exercise".data ∧ 0 < g.target)) :=
        List.mem_of_getLast?_eq_some hl
      have hg2 := List.mem_filter.1 hg1
      have hp : g.type = "strength_exercise".data ∧ 0 < g.target := by simpa using hg2.2
      obtain ⟨k, hk⟩ := hint g hg2.1 hp.1 hp.2
      simp only [Option.map_some', Option.getD_some]
      rw [hk, Int.floor_intCast]
      push_cast
      rfl
  rw [hc]

/-- Witness for C18: the goal `addGoal` creates for a strength exercise has
target 1, a whole number; two workouts in the week then show 100 percent. -/
theorem strength_pct_witness :
    strengthPct 2460320
        [{ date := "2024-01-08".data, calories := 60,
           exercises := [{ name := "Squat".data, sets := [{ reps := 5, weight := 100 }] }] },
         { date := "2024-01-10".data, calories := 60,
           exercises := [{ name := "Squat".data, sets := [{ reps := 5, weight := 100 }] }] }]
        [{ name := "Bench".data, type := "strength_exercise".data, target := 1,
           exerciseName := "Bench Press".data, exWeight := 60, exSets := 3, exReps := 8 }]
      = some (strengthPctClaimed 2460320
        [{ date := "2024-01-08".data, calories := 60,
           exercises := [{ name := "Squat".data, sets := [{ reps := 5, weight := 100 }] }] },
         { date := "2024-01-10".data, calories := 60,
           exercises := [{ name := "Squat".data, sets := [{ reps := 5, weight := 100 }] }] }]
        [{ name := "Bench".data, type := "strength_exercise".data, target := 1,
           exerciseName := "Bench Press".data, exWeight := 60, exSets := 3, exReps := 8 }]) ∧
      strengthPct 2460320
        [{ date := "2024-01-08".data, calories := 60,
           exercises := [{ name := "Squat".data, sets := [{ reps := 5, weight := 100 }] }] },
         { date := "2024-01-10".data, calories := 60,
           exercises := [{ name := "Squat".data, sets := [{ reps := 5, weight := 100 }] }] }]
        [{ name := "Bench".data, type := "strength_exercise".data, target := 1,
           exerciseName := "Bench Press".data, exWeight := 60, exSets := 3, exReps := 8 }]
      = some 100 := by
  constructor
  · apply (strength_pct 2460320 _ _ ?_ ?_).2.2
    · intro g hg _ _
      simp only [List.mem_singleton] at hg
      subst hg
      exact ⟨1, by norm_num⟩
    · intro g hg _ _
      simp only [List.mem_singleton] at hg
      subst hg
      norm_num
    · decide
  · decide!

/-- C18 as stated fails. With one `strength_exercise` goal of target 2.5 and
two workouts in the week, the program uses the target 2 and shows 100 percent,
where `round(min(100, 100 * 2 / max(1, 2.5)))` is 80. -/
theorem strength_pct_fails :
    strengthPct 2460320
        [{ date := "2024-01-08".data, calories := 60,
           exercises := [{ name := "Squat".data, sets := [{ reps := 5, weight := 100 }] }] },
         { date := "2024-01-10".data, calories := 60,
           exercises := [{ name := "Squat".data, sets := [{ reps := 5, weight := 100 }] }] }]
        [{ name := "Bench".data, type := "strength_exercise".data, target := 2.5,
           exerciseName := "Bench Press".data, exWeight := 60, exSets := 3, exReps := 8 }]
      = some 100 ∧
    strengthPctClaimed 2460320
        [{ date := "2024-01-08".data, calories := 60,
           exercises := [{ name := "Squat".data, sets := [{ reps := 5, weight := 100 }] }] },
         { date := "2024-01-10".data, calories := 60,
           exercises := [{ name := "Squat".data, sets := [{ reps := 5, weight := 100 }] }] }]
        [{ name := "Bench".data, type := "strength_exercise".data, target := 2.5,
           exerciseName := "Bench Press".data, exWeight := 60, exSets := 3, exReps := 8 }]
      = 80 := by
  decide!

/-! ## Goal tracker -/

theorem avgSpeedOf_eq (x : ℚ) (m : Int) :
    avgSpeedOf x m = some (if 0 < m then x * 60 / (m : ℚ) else 0) := by
  unfold avgSpeedOf fdiv
  by_cases hm : 0 < m
  · have hne : (m : ℚ) ≠ 0 := by
      have : (0 : ℚ) < (m : ℚ) := by exact_mod_cast hm
      exact ne_of_gt this
    simp only [gt_iff_lt, hm, if_true, hne, if_false]
    norm_num
  · simp only [gt_iff_lt, hm, if_false]
    norm_num

theorem wrapInt_of_isInt32 (n : Int) (h : isInt32 n) : wrapInt n = n := by
  unfold isInt32 at h
  unfold wrapInt
  omega

/-- C19 (as amended). Logging a cardio workout of distance `x` and duration `m`
with `saveCardio` maps the goal list goal by goal, keeping length and order: a
goal of type `cardio_km` gets as progress the `double` nearest to
`progress + x`, and when its `targetTime` is positive its `progressTime` becomes
`progressTime + m` reduced to an `int`; every goal of another type and every
other field are unchanged. The new progress differs from `progress + x` by at
most the fraction `2 ^ (-53)` of it when that sum has magnitude at least
`2 ^ (-1022)`, and is exactly `progress + x` when both are whole numbers with a
sum of magnitude below `2 ^ 53`; the new `progressTime` is exactly
`progressTime + m` when that sum is an `int`. A `cardio_km` goal with target 10
and progress 0 has progress 5 after a 5 km run and 12 after a further 7 km
run. -/
theorem saveCardio_goals (date type : QString) (m : Int) (x : ℚ) (st : State) (fs : Files) :
    (∃ st1 fs1, saveCardio date type m x st fs = some (st1, fs1) ∧
        st1.goals.length = st.goals.length ∧
        st1.goals = st.goals.map (fun g =>
          if g.type = "cardio_km".data then
            { g with progress := fl (g.progress + x),
                     progressTime := if 0 < g.targetTime then wrapInt (g.progressTime + m)
                                     else g.progressTime }
          else g)) ∧
      (∀ p : ℚ, (2 : ℚ) ^ (-1022 : Int) ≤ |p + x| →
        |fl (p + x) - (p + x)| ≤ |p + x| * (2 : ℚ) ^ (-53 : Int)) ∧
      (∀ a b : Int, x = (b : ℚ) → |a + b| < 2 ^ 53 → fl ((a : ℚ) + x) = (a : ℚ) + x) ∧
      (∀ t : Int, isInt32 (t + m) → wrapInt (t + m) = t + m) ∧
      (saveCardio "2024-01-10".data "Running".data 30 5
          { goals := [{ name := "Run".data, type := "cardio_km".data, target := 10 }] }
          (fun _ => none)).map (fun r => r.1.goals)
        = some [{ name := "Run".data, type := "cardio_km".data, target := 10, progress := 5 }] ∧
      ((saveCardio "2024-01-10".data "Running".data 30 5
          { goals := [{ name := "Run".data, type := "cardio_km".data, target := 10 }] }
          (fun _ => none)).bind
          (fun r => saveCardio "2024-01-11".data "Running".data 40 7 r.1 r.2)).map
          (fun r => r.1.goals)
        = some [{ name := "Run".data, type := "cardio_km".data, target := 10,
                  progress := 12 }] := by
  refine ⟨?_, fun p hp => fl_err _ hp, ?_, fun t ht => wrapInt_of_isInt32 _ ht,
    by decide!, by decide!⟩
  · unfold saveCardio
    rw [avgSpeedOf_eq]
    refine ⟨_, _, rfl, by simp, ?_⟩
    apply List.map_congr_left
    intro g _
    unfold cardioGoalUpdate
    by_cases h1 : g.type = "cardio_km".data
    · by_cases h2 : 0 < g.targetTime
      · simp [h1, h2]
      · simp [h1, h2]
    · simp [h1]
  · intro a b hx hab
    rw [hx]
    have := fl_intCast (a + b) hab
    push_cast at this
    exact this

/-- Witness for C19: a goal at 2.5 km with a time limit, after a run of 3 km
in 25 minutes. -/
theorem saveCardio_goals_witness :
    |fl ((5 / 2 : ℚ) + 3) - ((5 / 2 : ℚ) + 3)| ≤ |(5 / 2 : ℚ) + 3| * (2 : ℚ) ^ (-53 : Int) ∧
      fl (((2 : Int) : ℚ) + 3) = ((2 : Int) : ℚ) + 3 ∧
      wrapInt (100 + 25) = 100 + 25 ∧
      (saveCardio "2024-01-10".data "Running".data 25 3
          { goals := [{ name := "Run".data, type := "cardio_km".data, target := 10,
                        progress := 5 / 2, targetTime := 60, progressTime := 100 }] }
          (fun _ => none)).map (fun r => r.1.goals)
        = some [{ name := "Run".data, type := "cardio_km".data, target := 10,
                  progress := 11 / 2, targetTime := 60, progressTime := 125 }] := by
  have h := saveCardio_goals "2024-01-10".data "Running".data 25 3 {} (fun _ => none)
  refine ⟨h.2.1 (5 / 2) (by decide!), h.2.2.1 2 3 (by norm_num) (by decide),
    h.2.2.2.1 100 (by decide), by decide!⟩

/-- C19 as stated fails. A `cardio_km` goal with a time limit whose progress is
0.1 (the `double` nearest to it) and whose `progressTime` is 2147483647, after
a run of 0.2 km in 1 minute: the new progress is the `double`
0.30000000000000004, not the sum of the two, and the new `progressTime` is
-2147483648. -/
theorem saveCardio_goals_fails :
    (saveCardio "2024-01-10".data "Running".data 1 (fl (2 / 10))
        { goals := [{ name := "Run".data, type := "cardio_km".data, target := 10,
                      progress := fl (1 / 10), targetTime := 60,
                      progressTime := 2147483647 }] }
        (fun _ => none)).map (fun r => r.1.goals.map (fun g => (g.progress, g.progressTime)))
      = some [(1351079888211149 / 4503599627370496, -2147483648)] ∧
      (1351079888211149 / 4503599627370496 : ℚ) ≠ fl (1 / 10) + fl (2 / 10) ∧
      (-2147483648 : Int) ≠ 2147483647 + 1 := by
  decide!

theorem achievedThisWorkout_iff (w : StrengthWorkout) (g : Goal) :
    achievedThisWorkout w g = true ↔
      ∃ e ∈ w.exercises, foldCase e.name = foldCase g.exerciseName ∧
        g.exSets ≤ (e.sets.length : Int) ∧
        ∃ s ∈ e.sets, g.exReps ≤ s.reps ∧ g.exWeight ≤ s.weight := by
  unfold achievedThisWorkout
  simp only [List.any_eq_true, Bool.and_eq_true, decide_eq_true_eq]

/-- C20 (as amended). Logging a strength workout with `saveStrength` (the
current workout not empty) maps the goal list goal by goal: the progress `p` of
a goal becomes the `double` nearest to `p + 1` when the goal has type
`strength_exercise`, a non-empty exercise name and the workout holds an
exercise whose name equals it after case folding, with at least `exSets` sets
and a set reaching both `exReps` and `exWeight`; in every other case the goal
is unchanged. The new progress is exactly `p + 1` when `p` is a whole number
from 0 to `2 ^ 53 - 2`, as it is for a goal that `addGoal` created. However
many exercises and sets qualify, there is one addition: three sets of bench
press with one of 8 reps at 60 kg give progress 1, a second such workout 2, and
a workout with two qualifying exercises of several qualifying sets also adds
1. -/
theorem saveStrength_goals (date : QString) (st : State) (fs : Files) (h : st.curEx ≠ []) :
    (saveStrength date st fs).1.goals
        = st.goals.map (fun g =>
            if g.type = "strength_exercise".data ∧ g.exerciseName ≠ [] ∧
                ∃ e ∈ st.curEx, foldCase e.name = foldCase g.exerciseName ∧
                  g.exSets ≤ (e.sets.length : Int) ∧
                  ∃ s ∈ e.sets, g.exReps ≤ s.reps ∧ g.exWeight ≤ s.weight
            then { g with progress := fl (g.progress + 1) } else g) ∧
      (∀ n : Int, 0 ≤ n → n < 2 ^ 53 - 1 → fl ((n : ℚ) + 1) = (n : ℚ) + 1) ∧
      (saveStrength "2024-01-10".data
          { goals := [{ name := "Bench".data, type := "strength_exercise".data, target := 1,
                        exerciseName := "Bench Press".data, exWeight := 60, exSets := 3,
                        exReps := 8 }],
            curEx := [{ name := "Bench Press".data,
                        sets := [{ reps := 10, weight := 50 }, { reps := 8, weight := 60 },
                                 { reps := 6, weight := 65 }] }] }
          (fun _ => none)).1.goals.map (fun g => g.progress) = [1] ∧
      (saveStrength "2024-01-11".data
          { (saveStrength "2024-01-10".data
              { goals := [{ name := "Bench".data, type := "strength_exercise".data, target := 1,
                            exerciseName := "Bench Press".data, exWeight := 60, exSets := 3,
                            exReps := 8 }],
                curEx := [{ name := "Bench Press".data,
                            sets := [{ reps := 10, weight := 50 }, { reps := 8, weight := 60 },
                                     { reps := 6, weight := 65 }] }] }
              (fun _ => none)).1 with
            curEx := [{ name := "Bench Press".data,
                        sets := [{ reps := 10, weight := 50 }, { reps := 8, weight := 60 },
                                 { reps := 6, weight := 65 }] }] }
          (fun _ => none)).1.goals.map (fun g => g.progress) = [2] ∧
      (saveStrength "2024-01-10".data
          { goals := [{ name := "Bench".data, type := "strength_exercise".data, target := 1,
                        exerciseName := "Bench Press".data, exWeight := 60, exSets := 3,
                        exReps := 8 }],
            curEx := [{ name := "bench press".data,
                        sets := [{ reps := 8, weight := 60 }, { reps := 8, weight := 60 },
                                 { reps := 8, weight := 60 }, { reps := 9, weight := 70 }] },
                      { name := "BENCH PRESS".data,
                        sets := [{ reps := 8, weight := 60 }, { reps := 8, weight := 60 },
                                 { reps := 8, weight := 60 }] }] }
          (fun _ => none)).1.goals.map (fun g => g.progress) = [1] := by
  refine ⟨?_, ?_, by decide!, by decide!, by decide!⟩
  · unfold saveStrength
    cases hc : st.curEx with
    | nil => exact absurd hc h
    | cons e t =>
      simp only
      apply List.map_congr_left
      intro g _
      unfold strengthGoalUpdate
      by_cases h1 : g.type = "strength_exercise".data ∧ g.exerciseName ≠ []
      · rw [if_pos h1]
        by_cases h2 : achievedThisWorkout
            { date := date, exercises := e :: t,
              calories := calcStrCal st.user (addVolume 0 (e :: t)) } g = true
        · rw [if_pos h2, if_pos ⟨h1.1, h1.2, (achievedThisWorkout_iff _ g).1 h2⟩]
        · have h3 := fun hx => h2 ((achievedThisWorkout_iff _ g).2 hx)
          rw [if_neg h2, if_neg (fun hx => h3 hx.2.2)]
      · rw [if_neg h1, if_neg (fun hx => h1 ⟨hx.1, hx.2.1⟩)]
  · intro n hn0 hn
    have := fl_intCast (n + 1) (abs_lt.2 ⟨by norm_num; omega, by norm_num at hn ⊢; omega⟩)
    push_cast at this
    exact this

/-- Witness for C20: a workout whose bench press has only two sets does not
reach a goal asking for three, and a goal named in upper-case accented letters
is reached by the exercise of that name in lower case. -/
theorem saveStrength_goals_witness :
    (saveStrength "2024-01-10".data
        { goals := [{ name := "Bench".data, type := "strength_exercise".data, target := 1,
                      exerciseName := "Bench Press".data, exWeight := 60, exSets := 3,
                      exReps := 8 }],
          curEx := [{ name := "Bench Press".data,
                      sets := [{ reps := 8, weight := 60 }, { reps := 8, weight := 60 }] }] }
        (fun _ => none)).1.goals
      = [{ name := "Bench".data, type := "strength_exercise".data, target := 1,
           exerciseName := "Bench Press".data, exWeight := 60, exSets := 3, exReps := 8 }] ∧
      (saveStrength "2024-01-10".data
        { goals := [{ name := "Press".data, type := "strength_exercise".data, target := 1,
                      exerciseName := "DÉVELOPPÉ COUCHÉ".data, exWeight := 60, exSets := 1,
                      exReps := 8 }],
          curEx := [{ name := "développé couché".data,
                      sets := [{ reps := 8, weight := 60 }] }] }
        (fun _ => none)).1.goals.map (fun g => g.progress) = [1] := by
  constructor
  · rw [(saveStrength_goals "2024-01-10".data _ (fun _ => none) (by decide)).1]
    decide!
  · decide!

/-- C20 as stated fails. A `strength_exercise` goal whose progress is 0.1 (the
`double` nearest to it) is reached by the workout; its new progress is the
`double` 1.1, which is not its progress plus 1. -/
theorem saveStrength_goals_fails :
    (saveStrength "2024-01-10".data
        { goals := [{ name := "Bench".data, type := "strength_exercise".data, target := 1,
                      progress := fl (1 / 10), exerciseName := "Bench Press".data,
                      exWeight := 60, exSets := 1, exReps := 8 }],
          curEx := [{ name := "Bench Press".data, sets := [{ reps := 8, weight := 60 }] }] }
        (fun _ => none)).1.goals.map (fun g => g.progress)
      = [2476979795053773 / 2251799813685248] ∧
      (2476979795053773 / 2251799813685248 : ℚ) ≠ fl (1 / 10) + 1 := by
  decide!

/-! ## refresh: the goals table -/

/-- The quotient of the goals table in `double` arithmetic: for a target
between `2 ^ (-500)` and `2 ^ 500` and a progress that is 0 or at least
`2 ^ (-500)`, with exact quotient `q = 100 * progress / target` at most `2 ^ 30`,
it is a `double` between `q * (1 - 2 ^ (-51))` and `q * (1 + 2 ^ (-51))`. -/
theorem goalQuot_double (g : Goal) (ht1 : 1 / 2 ^ 500 ≤ g.target) (ht2 : g.target ≤ 2 ^ 500)
    (hp : g.progress = 0 ∨ 1 / 2 ^ 500 ≤ g.progress)
    (hq : 100 * g.progress / g.target ≤ 2 ^ 30) :
    ∃ d : ℚ, goalQuot g = some d ∧
      100 * g.progress / g.target * (1 - 1 / 2 ^ 51) ≤ d ∧
      d ≤ 100 * g.progress / g.target * (1 + 1 / 2 ^ 51) ∧ 0 ≤ d ∧ d < 2147483648 := by
  have ht : 0 < g.target := lt_of_lt_of_le (by norm_num) ht1
  have hgq : goalQuot g = some (fl (fl (g.progress * 100) / g.target)) := by
    unfold goalQuot fdiv
    rw [if_neg ht.ne']
    rfl
  rcases hp with hp | hp
  · refine ⟨0, ?_, ?_, ?_, le_refl _, by norm_num⟩
    · rw [hgq, hp]
      simp [fl_zero]
    · rw [hp]; simp
    · rw [hp]; simp
  · have hp0 : 0 < g.progress := lt_of_lt_of_le (by norm_num) hp
    obtain ⟨q, hqd⟩ : ∃ q : ℚ, q = 100 * g.progress / g.target := ⟨_, rfl⟩
    rw [← hqd] at hq ⊢
    have hq0 : 0 < q := by rw [hqd]; exact div_pos (mul_pos (by norm_num) hp0) ht
    have h1 : 1 / 2 ^ 1022 ≤ g.progress * 100 := by
      calc (1 : ℚ) / 2 ^ 1022 ≤ 1 / 2 ^ 500 * 100 := by norm_num
        _ ≤ g.progress * 100 := mul_le_mul_of_nonneg_right hp (by norm_num)
    obtain ⟨u1, e1, l1, r1⟩ := fl_factor _ h1
    obtain ⟨f1l, -⟩ := fl_rough _ h1
    have h2 : 1 / 2 ^ 1022 ≤ fl (g.progress * 100) / g.target := by
      rw [le_div_iff₀ ht]
      calc 1 / 2 ^ 1022 * g.target ≤ 1 / 2 ^ 1022 * 2 ^ 500 :=
            mul_le_mul_of_nonneg_left ht2 (by norm_num)
        _ ≤ 1 / 2 ^ 500 * 100 / 2 := by norm_num
        _ ≤ g.progress * 100 / 2 :=
            div_le_div_of_nonneg_right (mul_le_mul_of_nonneg_right hp (by norm_num))
              (by norm_num)
        _ ≤ fl (g.progress * 100) := f1l
    obtain ⟨u2, e2, l2, r2⟩ := fl_factor _ h2
    have hu1 : 0 < u1 := lt_of_lt_of_le (by norm_num) l1
    have hu2 : 0 < u2 := lt_of_lt_of_le (by norm_num) l2
    have hval : fl (fl (g.progress * 100) / g.target) = q * (u1 * u2) := by
      rw [e2, e1, hqd]
      field_simp
      ring
    have hlo : 1 - 1 / 2 ^ 51 ≤ u1 * u2 :=
      le_trans (by norm_num) (mul_le_mul l1 l2 (by norm_num) hu1.le)
    have hhi : u1 * u2 ≤ 1 + 1 / 2 ^ 51 :=
      le_trans (mul_le_mul r1 r2 hu2.le (by norm_num)) (by norm_num)
    obtain ⟨f, hf⟩ : ∃ f : ℚ, f = u1 * u2 := ⟨_, rfl⟩
    rw [← hf] at hval hlo hhi
    have hf0 : 0 < f := by rw [hf]; exact mul_pos hu1 hu2
    refine ⟨_, hgq, ?_, ?_, ?_, ?_⟩
    · rw [hval]
      exact mul_le_mul_of_nonneg_left hlo hq0.le
    · rw [hval]
      exact mul_le_mul_of_nonneg_left hhi hq0.le
    · rw [hval]
      exact (mul_pos hq0 hf0).le
    · rw [hval]
      calc q * f ≤ 2 ^ 30 * (1 + 1 / 2 ^ 51) := mul_le_mul hq hhi hf0.le (by norm_num)
        _ < 2147483648 := by norm_num

theorem goalPct_of_quot (g : Goal) (d : ℚ) (ht : 0 < g.target) (hd : goalQuot g = some d)
    (h0 : 0 ≤ d) (h1 : d < 2147483648) : goalPct g = some (min 100 (Int.floor d)) := by
  unfold goalPct
  rw [if_pos ht, hd]
  simp [castInt_of_nonneg d h0 h1]

theorem goalPct_nonpos (g : Goal) (ht : g.target ≤ 0) : goalPct g = some 0 := by
  unfold goalPct
  rw [if_neg (not_lt.2 ht)]

/-- C21 (as amended). For a goal whose target lies between `2 ^ (-500)` and
`2 ^ 500`, whose progress is 0 or at least `2 ^ (-500)` and whose exact quotient
`q = 100 * progress / target` is at most `2 ^ 30`, the percentage shown in the
goals table is `min(100, floor(d))`, the integer part (not the rounding) of the
`double` `d` that `progress * 100 / target` evaluates to; `d` lies within the
fraction `2 ^ (-51)` of `q`, so the percentage lies between
`min(100, floor(q * (1 - 2 ^ (-51))))` and `min(100, floor(q * (1 + 2 ^ (-51))))`
and is at least 0. For a target that is 0 or negative the percentage is 0, and
no division by zero is evaluated. -/
theorem goal_pct (g : Goal) :
    (1 / 2 ^ 500 ≤ g.target → g.target ≤ 2 ^ 500 →
      (g.progress = 0 ∨ 1 / 2 ^ 500 ≤ g.progress) →
      100 * g.progress / g.target ≤ 2 ^ 30 →
      ∃ d : ℚ, goalQuot g = some d ∧ goalPct g = some (min 100 (Int.floor d)) ∧
        100 * g.progress / g.target * (1 - 1 / 2 ^ 51) ≤ d ∧
        d ≤ 100 * g.progress / g.target * (1 + 1 / 2 ^ 51) ∧
        min 100 (Int.floor (100 * g.progress / g.target * (1 - 1 / 2 ^ 51)))
          ≤ min 100 (Int.floor d) ∧
        min 100 (Int.floor d)
          ≤ min 100 (Int.floor (100 * g.progress / g.target * (1 + 1 / 2 ^ 51))) ∧
        0 ≤ min 100 (Int.floor d)) ∧
      (g.target ≤ 0 → goalPct g = some 0) := by
  constructor
  · intro ht1 ht2 hp hq
    have ht : 0 < g.target := lt_of_lt_of_le (by norm_num) ht1
    obtain ⟨d, hd, lo, hi, h0, h1⟩ := goalQuot_double g ht1 ht2 hp hq
    refine ⟨d, hd, goalPct_of_quot g d ht hd h0 h1, lo, hi, ?_, ?_, ?_⟩
    · exact min_le_min (le_refl _) (Int.floor_mono lo)
    · exact min_le_min (le_refl _) (Int.floor_mono hi)
    · exact le_min (by norm_num) (Int.floor_nonneg.2 h0)
  · exact goalPct_nonpos g

/-- Witness for C21: progress 2 of 3 shows 66, progress 5 of a target 0 shows 0. -/
theorem goal_pct_witness :
    (∃ d : ℚ, goalQuot { target := 3, progress := 2 } = some d ∧
        goalPct { target := 3, progress := 2 } = some (min 100 (Int.floor d)) ∧
        100 * (2 : ℚ) / 3 * (1 - 1 / 2 ^ 51) ≤ d ∧ d ≤ 100 * (2 : ℚ) / 3 * (1 + 1 / 2 ^ 51) ∧
        min 100 (Int.floor (100 * (2 : ℚ) / 3 * (1 - 1 / 2 ^ 51))) ≤ min 100 (Int.floor d) ∧
        min 100 (Int.floor d) ≤ min 100 (Int.floor (100 * (2 : ℚ) / 3 * (1 + 1 / 2 ^ 51))) ∧
        0 ≤ min 100 (Int.floor d)) ∧
      goalPct { target := 3, progress := 2 } = some 66 ∧
      goalPct { target := 0, progress := 5 } = some 0 :=
  ⟨(goal_pct { target := 3, progress := 2 }).1 (by decide!) (by decide!)
      (Or.inr (by decide!)) (by decide!),
    by decide!, (goal_pct { target := 0, progress := 5 }).2 (by decide!)⟩

/-- C21 as stated fails. For progress 2 of a target 3 the table shows 66, where
`min(100, round(100 * 2 / 3))` is 67; and for progress 0.29 (the `double`
nearest to it) of a target 1 it shows 28, the product `0.29 * 100` being the
`double` 28.999999999999996. -/
theorem goal_pct_fails :
    (0 : ℚ) ≤ ({ target := 3, progress := 2 } : Goal).progress ∧
      goalPct { target := 3, progress := 2 } = some 66 ∧
      goalPctClaimed { target := 3, progress := 2 } = 67 ∧
      goalPct { target := 1, progress := fl (29 / 100) } = some 28 ∧
      goalPctClaimed { target := 1, progress := fl (29 / 100) } = 29 := by
  decide!

theorem showInt_percent_ne_done (n : Int) : showInt n ++ ['%'] ≠ "Done".data := by
  intro h
  have h1 := congrArg List.getLast? h
  rw [List.getLast?_concat] at h1
  exact absurd h1 (by decide)

theorem goalStatus_of_quot (g : Goal) (d : ℚ) (ht : 0 < g.target) (hd : goalQuot g = some d)
    (h0 : 0 ≤ d) (h1 : d < 2147483648) :
    (goalStatus g = some "Done".data ↔ 100 ≤ d) ∧
      (d < 100 →
        0 ≤ Int.floor d ∧ Int.floor d ≤ 99 ∧ goalPct g = some (Int.floor d) ∧
          goalStatus g = some (showInt (Int.floor d) ++ ['%'])) := by
  have hpct := goalPct_of_quot g d ht hd h0 h1
  have hfl : 0 ≤ Int.floor d := Int.floor_nonneg.2 h0
  have hge : 100 ≤ d → 100 ≤ Int.floor d := by
    intro h
    apply Int.le_floor.2
    push_cast
    exact h
  have hlt : d < 100 → Int.floor d < 100 := by
    intro h
    apply Int.floor_lt.2
    push_cast
    exact h
  have hstat : goalStatus g
      = some (if min 100 (Int.floor d) ≥ 100 then "Done".data
          else showInt (min 100 (Int.floor d)) ++ ['%']) := by
    unfold goalStatus
    rw [hpct]
    rfl
  constructor
  · constructor
    · intro hdone
      by_contra hc
      have h2 := hlt (not_le.1 hc)
      have h3 : ¬ (min 100 (Int.floor d) ≥ 100) := by
        rw [min_eq_right h2.le]
        omega
      rw [hstat, if_neg h3] at hdone
      exact showInt_percent_ne_done _ (Option.some.inj hdone)
    · intro h
      have h2 := hge h
      have h3 : min 100 (Int.floor d) ≥ 100 := by
        rw [min_eq_left h2]
      rw [hstat, if_pos h3]
  · intro h
    have h2 := hlt h
    refine ⟨hfl, by omega, ?_, ?_⟩
    · rw [hpct, min_eq_right h2.le]
    · have h3 : ¬ (min 100 (Int.floor d) ≥ 100) := by
        rw [min_eq_right h2.le]
        omega
      rw [hstat, if_neg h3, min_eq_right h2.le]

/-- C29 (as amended). For a goal whose target lies between `2 ^ (-500)` and
`2 ^ 500`, whose progress is 0 or at least `2 ^ (-500)` and whose exact quotient
`100 * progress / target` is at most `2 ^ 30`, the status label of the goals
table is `Done` exactly when the `double` `d` that `progress * 100 / target`
evaluates to is at least 100, and otherwise the integer part of `d`, an integer
from 0 to 99, followed by `%`. The label is `Done` whenever
`progress ≥ target * (1 + 2 ^ (-50))` and a percentage whenever
`progress * (1 + 2 ^ (-50)) ≤ target`. For a target that is 0 or negative the
label is `0%`. -/
theorem goal_status (g : Goal) :
    (1 / 2 ^ 500 ≤ g.target → g.target ≤ 2 ^ 500 →
      (g.progress = 0 ∨ 1 / 2 ^ 500 ≤ g.progress) →
      100 * g.progress / g.target ≤ 2 ^ 30 →
      ∃ d : ℚ, goalQuot g = some d ∧
        (goalStatus g = some "Done".data ↔ 100 ≤ d) ∧
        (d < 100 →
          0 ≤ Int.floor d ∧ Int.floor d ≤ 99 ∧ goalPct g = some (Int.floor d) ∧
            goalStatus g = some (showInt (Int.floor d) ++ ['%'])) ∧
        (g.target * (1 + 1 / 2 ^ 50) ≤ g.progress → 100 ≤ d) ∧
        (g.progress * (1 + 1 / 2 ^ 50) ≤ g.target → d < 100)) ∧
      (g.target ≤ 0 → goalStatus g = some "0%".data) := by
  constructor
  · intro ht1 ht2 hp hq
    have ht : 0 < g.target := lt_of_lt_of_le (by norm_num) ht1
    obtain ⟨d, hd, lo, hi, h0, h1⟩ := goalQuot_double g ht1 ht2 hp hq
    obtain ⟨s1, s2⟩ := goalStatus_of_quot g d ht hd h0 h1
    refine ⟨d, hd, s1, s2, ?_, ?_⟩
    · intro h
      have hq1 : 100 * (1 + 1 / 2 ^ 50) ≤ 100 * g.progress / g.target := by
        rw [le_div_iff₀ ht]
        linarith
      calc (100 : ℚ) ≤ 100 * (1 + 1 / 2 ^ 50) * (1 - 1 / 2 ^ 51) := by norm_num
        _ ≤ 100 * g.progress / g.target * (1 - 1 / 2 ^ 51) :=
            mul_le_mul_of_nonneg_right hq1 (by norm_num)
        _ ≤ d := lo
    · intro h
      have hq1 : 100 * g.progress / g.target * (1 + 1 / 2 ^ 50) ≤ 100 := by
        rw [div_mul_eq_mul_div, div_le_iff₀ ht]
        linarith
      have hq0 : 0 ≤ 100 * g.progress / g.target := by
        rcases hp with hp | hp
        · rw [hp]; simp
        · exact div_nonneg (mul_nonneg (by norm_num)
            (le_trans (by norm_num) hp)) ht.le
      by_cases hz : 100 * g.progress / g.target = 0
      · rw [hz] at hi
        linarith
      · have hqpos : 0 < 100 * g.progress / g.target := lt_of_le_of_ne hq0 (Ne.symm hz)
        calc d ≤ 100 * g.progress / g.target * (1 + 1 / 2 ^ 51) := hi
          _ < 100 * g.progress / g.target * (1 + 1 / 2 ^ 50) :=
              mul_lt_mul_of_pos_left (by norm_num) hqpos
          _ ≤ 100 := hq1
  · intro ht
    unfold goalStatus
    rw [goalPct_nonpos g ht]
    rfl

/-- Witness for C29: a goal of target 10 reads `50%` at progress 5 and `Done`
at progress 12; a goal without target reads `0%`. -/
theorem goal_status_witness :
    (∃ d : ℚ, goalQuot { target := 10, progress := 12 } = some d ∧
        (goalStatus { target := 10, progress := 12 } = some "Done".data ↔ 100 ≤ d) ∧
        (d < 100 →
          0 ≤ Int.floor d ∧ Int.floor d ≤ 99 ∧
            goalPct { target := 10, progress := 12 } = some (Int.floor d) ∧
            goalStatus { target := 10, progress := 12 }
              = some (showInt (Int.floor d) ++ ['%'])) ∧
        ((10 : ℚ) * (1 + 1 / 2 ^ 50) ≤ 12 → 100 ≤ d) ∧
        ((12 : ℚ) * (1 + 1 / 2 ^ 50) ≤ 10 → d < 100)) ∧
      goalStatus { target := 10, progress := 12 } = some "Done".data ∧
      goalStatus { target := 10, progress := 5 } = some "50%".data ∧
      goalStatus { target := 0, progress := 5 } = some "0%".data := by
  refine ⟨(goal_status { target := 10, progress := 12 }).1 (by decide!) (by decide!)
      (Or.inr (by decide!)) (by decide!), by decide!, by decide!, ?_⟩
  exact (goal_status { target := 0, progress := 5 }).2 (by decide!)

/-- C29 as stated fails. A goal whose target and progress are both 0.17 (the
`double` nearest to it) has `progress ≥ target`, yet the label reads `99%`:
`0.17 * 100` is the `double` 17 and `17 / 0.17` the `double`
99.99999999999999. -/
theorem goal_status_fails :
    ({ target := fl (17 / 100), progress := fl (17 / 100) } : Goal).target
        ≤ ({ target := fl (17 / 100), progress := fl (17 / 100) } : Goal).progress ∧
      (0 : ℚ) < ({ target := fl (17 / 100), progress := fl (17 / 100) } : Goal).target ∧
      goalStatus { target := fl (17 / 100), progress := fl (17 / 100) } = some "99%".data := by
  decide!

theorem goalGrew_refl (g : Goal) : goalGrew g g :=
  ⟨rfl, rfl, rfl, rfl, rfl, rfl, rfl, rfl, le_refl _, le_refl _⟩

theorem forall₂_goalGrew_refl (l : List Goal) : List.Forall₂ goalGrew l l := by
  induction l with
  | nil => exact List.Forall₂.nil
  | cons g t ih => exact List.Forall₂.cons (goalGrew_refl g) ih

theorem forall₂_map_of_forall_mem (f : Goal → Goal) (l : List Goal)
    (h : ∀ g ∈ l, goalGrew g (f g)) : List.Forall₂ goalGrew l (l.map f) := by
  induction l with
  | nil => exact List.Forall₂.nil
  | cons g t ih =>
    exact List.Forall₂.cons (h g (List.mem_cons_self _ _))
      (ih (fun x hx => h x (List.mem_cons_of_mem _ hx)))

theorem cardioGoalUpdate_grew (w : CardioWorkout) (g : Goal) (hx : 0 ≤ w.distance)
    (hm : 0 ≤ w.duration) (hd : fl g.progress = g.progress)
    (ht : isInt32 (g.progressTime + w.duration)) : goalGrew g (cardioGoalUpdate w g) := by
  have hp : g.progress ≤ fl (g.progress + w.distance) := le_fl _ _ (by linarith) hd
  have hw := wrapInt_of_isInt32 _ ht
  by_cases h1 : g.type = "cardio_km".data
  · by_cases h2 : g.targetTime > 0
    · simp [cardioGoalUpdate, goalGrew, h1, h2, hp, hw, hm]
    · simp [cardioGoalUpdate, goalGrew, h1, h2, hp]
  · simp [cardioGoalUpdate, goalGrew, h1]

theorem strengthGoalUpdate_grew (w : StrengthWorkout) (g : Goal)
    (hd : fl g.progress = g.progress) : goalGrew g (strengthGoalUpdate w g) := by
  unfold strengthGoalUpdate
  split_ifs
  · refine ⟨rfl, rfl, rfl, rfl, rfl, rfl, rfl, rfl, ?_, le_refl _⟩
    show g.progress ≤ fl (g.progress + 1)
    exact le_fl _ _ (by linarith) hd
  · exact goalGrew_refl g
  · exact goalGrew_refl g

/-- C22 (as amended). Every logging action keeps the goal list in length and
order and, short of an overflow of `progressTime`, never lowers a counter: for
a state whose goals hold a `double` as progress, after `saveCardio` with
distance and duration not negative and `progressTime + duration` an `int` for
every goal, after `saveStrength` and after `saveBodyweight`, each goal is the
goal that stood at its place before, with progress and `progressTime` greater
than or equal to their former values and every other field unchanged. -/
theorem logging_monotone (date type : QString) (m : Int) (x weight : ℚ) (st : State)
    (fs : Files) (hd : ∀ g ∈ st.goals, fl g.progress = g.progress) :
    (0 ≤ x → 0 ≤ m → (∀ g ∈ st.goals, isInt32 (g.progressTime + m)) →
      ∃ st1 fs1, saveCardio date type m x st fs = some (st1, fs1) ∧
        List.Forall₂ goalGrew st.goals st1.goals) ∧
      List.Forall₂ goalGrew st.goals (saveStrength date st fs).1.goals ∧
      List.Forall₂ goalGrew st.goals (saveBodyweight date weight st fs).1.goals ∧
      (saveBodyweight date weight st fs).1.goals = st.goals := by
  refine ⟨?_, ?_, forall₂_goalGrew_refl _, rfl⟩
  · intro hx hm ht
    unfold saveCardio
    rw [avgSpeedOf_eq]
    refine ⟨_, _, rfl, ?_⟩
    exact forall₂_map_of_forall_mem _ _
      (fun g hg => cardioGoalUpdate_grew _ g hx hm (hd g hg) (ht g hg))
  · unfold saveStrength
    cases st.curEx with
    | nil => exact forall₂_goalGrew_refl _
    | cons e t =>
      exact forall₂_map_of_forall_mem _ _ (fun g hg => strengthGoalUpdate_grew _ g (hd g hg))

/-- Witness for C22: a 5 km, 30 minute run against a timed cardio goal at
2.5 km and a strength goal. -/
theorem logging_monotone_witness :
    ∃ st1 fs1,
      saveCardio "2024-01-10".data "Running".data 30 5
          { goals := [{ name := "Run".data, type := "cardio_km".data, target := 10,
                        progress := 5 / 2, targetTime := 60 },
                      { name := "Bench".data, type := "strength_exercise".data, target := 1,
                        exerciseName := "Bench Press".data, exWeight := 60, exSets := 3,
                        exReps := 8 }] }
          (fun _ => none) = some (st1, fs1) ∧
        List.Forall₂ goalGrew
          [{ name := "Run".data, type := "cardio_km".data, target := 10, progress := 5 / 2,
             targetTime := 60 },
           { name := "Bench".data, type := "strength_exercise".data, target := 1,
             exerciseName := "Bench Press".data, exWeight := 60, exSets := 3, exReps := 8 }]
          st1.goals :=
  (logging_monotone "2024-01-10".data "Running".data 30 5 0
    { goals := [{ name := "Run".data, type := "cardio_km".data, target := 10,
                  progress := 5 / 2, targetTime := 60 },
                { name := "Bench".data, type := "strength_exercise".data, target := 1,
                  exerciseName := "Bench Press".data, exWeight := 60, exSets := 3,
                  exReps := 8 }] }
    (fun _ => none) (by decide!)).1 (by norm_num) (by norm_num) (by decide)

/-- C22 as stated fails. A timed `cardio_km` goal whose `progressTime` is
2147483647, the largest `int`, has `progressTime` -2147483648 after a run of
one minute: the counter dropped. -/
theorem logging_monotone_fails :
    (saveCardio "2024-01-10".data "Running".data 1 5
        { goals := [{ name := "Run".data, type := "cardio_km".data, target := 10,
                      targetTime := 60, progressTime := 2147483647 }] }
        (fun _ => none)).map (fun r => r.1.goals.map (fun g => g.progressTime))
      = some [-2147483648] ∧
      (0 : ℚ) ≤ 5 ∧ (0 : Int) ≤ 1 ∧ ¬ ((2147483647 : Int) ≤ -2147483648) := by
  decide!

/-- C23. Deleting a workout or a bodyweight entry never touches the goals:
`delCardio`, `delStrength` and `delBodyweight` leave the goal list, every field
of every goal included, exactly as it was, for every row index, in range or
not. -/
theorem delete_keeps_goals (r : Int) (st : State) (fs : Files) :
    (delCardio r st fs).1.goals = st.goals ∧
      (delStrength r st fs).1.goals = st.goals ∧
      (delBodyweight r st fs).1.goals = st.goals := by
  refine ⟨?_, ?_, ?_⟩
  · unfold delCardio
    split_ifs <;> rfl
  · unfold delStrength
    split_ifs <;> rfl
  · unfold delBodyweight
    split_ifs <;> rfl

/-! ## refresh: weekly totals against the daily buckets -/

/-- The bucket test of `refresh` on the day offset and its range test on the
date select the same dates. -/
theorem window_tests_agree (today d : Int) :
    (0 ≤ daysTo d today ∧ daysTo d today < 7) ↔ (addDays today (-6) ≤ d ∧ d ≤ today) := by
  unfold daysTo addDays
  omega

/-- A date lies within the week exactly when it is the date of one of the
seven buckets. -/
theorem inWeek_iff_bucket (today : Int) (date : QString) :
    inWeek today date = true ↔
      ∃ i : Nat, i ≤ 6 ∧ fromString date = some (today - (6 - (i : Int))) := by
  unfold inWeek
  cases hd : fromString date with
  | none => simp
  | some d =>
    simp only [decide_eq_true_eq, Option.some.injEq]
    constructor
    · intro h
      exact ⟨(6 - (today - d)).toNat, by omega, by omega⟩
    · rintro ⟨i, hi, rfl⟩
      omega

/-- One strength workout in the `double` loop. -/
theorem strengthStepD_spec (today : Int) (a : StrengthWeek) (w : StrengthWorkout)
    (ha : a.strengthPerDay.length = 7) :
    (strengthStepD today a w).strengthPerDay.length = 7 ∧
      (∀ i : Nat, i ≤ 6 →
        (strengthStepD today a w).strengthPerDay.getD i 0
          = if fromString w.date = some (today - (6 - (i : Int)))
            then fl (a.strengthPerDay.getD i 0 + addVolumeD 0 w.exercises)
            else a.strengthPerDay.getD i 0) ∧
      (strengthStepD today a w).strengthVolumeWeek
        = if inWeek today w.date = true then addVolumeD a.strengthVolumeWeek w.exercises
          else a.strengthVolumeWeek := by
  unfold strengthStepD inWeek
  cases hd : fromString w.date with
  | none => simp [ha]
  | some d =>
    simp only [daysTo, addDays, decide_eq_true_eq]
    have e6 : today + -6 = today - 6 := by ring
    rw [e6]
    by_cases hwin : 0 ≤ today - d ∧ today - d < 7
    · have hw2 : today - 6 ≤ d ∧ d ≤ today := by omega
      have hj : (6 - (today - d)).toNat < a.strengthPerDay.length := by
        rw [ha]; omega
      rw [if_pos hwin, if_pos hw2, if_pos hw2]
      refine ⟨by simp [addAtD_length, ha], ?_, rfl⟩
      intro i hi
      simp only [addAtD_getD _ _ _ _ hj, Option.some.injEq]
      by_cases hi2 : i = (6 - (today - d)).toNat
      · have : d = today - (6 - (i : Int)) := by omega
        rw [if_pos hi2, if_pos this]
      · have : ¬ d = today - (6 - (i : Int)) := by omega
        rw [if_neg hi2, if_neg this]
    · have hw2 : ¬ (today - 6 ≤ d ∧ d ≤ today) := by omega
      rw [if_neg hwin, if_neg hw2, if_neg hw2]
      refine ⟨ha, ?_, rfl⟩
      intro i hi
      have : ¬ d = today - (6 - (i : Int)) := by omega
      simp only [Option.some.injEq]
      rw [if_neg this]

theorem foldl_strengthStepD (today : Int) (strength : List StrengthWorkout) (a : StrengthWeek)
    (ha : a.strengthPerDay.length = 7) :
    (strength.foldl (strengthStepD today) a).strengthPerDay.length = 7 ∧
      (∀ i : Nat, i ≤ 6 →
        (strength.foldl (strengthStepD today) a).strengthPerDay.getD i 0
          = (strength.filter
                (fun w => decide (fromString w.date = some (today - (6 - (i : Int)))))).foldl
              (fun s w => fl (s + addVolumeD 0 w.exercises)) (a.strengthPerDay.getD i 0)) ∧
      (strength.foldl (strengthStepD today) a).strengthVolumeWeek
        = (strength.filter (fun w => inWeek today w.date)).foldl
            (fun v w => addVolumeD v w.exercises) a.strengthVolumeWeek := by
  induction strength generalizing a with
  | nil => simp [ha]
  | cons w t ih =>
    obtain ⟨h1, h2, h3⟩ := strengthStepD_spec today a w ha
    obtain ⟨h4, h5, h6⟩ := ih (strengthStepD today a w) h1
    refine ⟨h4, ?_, ?_⟩
    · intro i hi
      rw [List.foldl_cons, h5 i hi, h2 i hi]
      by_cases hw : fromString w.date = some (today - (6 - (i : Int)))
      · simp [List.filter_cons, hw]
      · simp [List.filter_cons, hw]
    · rw [List.foldl_cons, h6, h3]
      by_cases hw : inWeek today w.date = true
      · simp [List.filter_cons, hw]
      · simp [List.filter_cons, hw]

/-- The `double` loop of `refresh` over the strength workouts: the bucket of a
day adds, in list order, the volume of each workout of that day, itself summed
from 0; the weekly volume adds, in list order, the sets of each workout dated
within the week to the running total. -/
theorem refreshStrengthD_spec (today : Int) (strength : List StrengthWorkout) :
    (refreshStrengthD today strength).strengthPerDay.length = 7 ∧
      (∀ i : Nat, i ≤ 6 →
        (refreshStrengthD today strength).strengthPerDay.getD i 0
          = (strength.filter
                (fun w => decide (fromString w.date = some (today - (6 - (i : Int)))))).foldl
              (fun s w => fl (s + addVolumeD 0 w.exercises)) 0) ∧
      (refreshStrengthD today strength).strengthVolumeWeek
        = (strength.filter (fun w => inWeek today w.date)).foldl
            (fun v w => addVolumeD v w.exercises) 0 := by
  obtain ⟨h1, h2, h3⟩ := foldl_strengthStepD today strength
    { strengthPerDay := List.replicate 7 0, strengthWorkoutsWeek := 0, strengthVolumeWeek := 0,
      strengthCaloriesWeek := 0 } rfl
  refine ⟨h1, ?_, h3⟩
  intro i hi
  have h := h2 i hi
  have h0 : (List.replicate 7 (0 : ℚ)).getD i 0 = 0 := by
    interval_cases i <;> rfl
  simp only [h0] at h
  exact h

theorem filter_map_sum_cons {α : Type} (p : α → Bool) (val : α → ℚ) (w : α) (t : List α) :
    (((w :: t).filter p).map val).sum
      = (if p w = true then val w else 0) + ((t.filter p).map val).sum := by
  by_cases h : p w = true
  · simp [List.filter_cons, h]
  · simp [List.filter_cons, h]

/-- In exact arithmetic the values of the records of the week add up to the sum,
over the seven days, of the values of the records of each day. -/
theorem week_sum_split {α : Type} (today : Int) (date : α → QString) (val : α → ℚ)
    (l : List α) :
    ((l.filter (fun w => inWeek today (date w))).map val).sum
      = ((List.range 7).map (fun (i : Nat) =>
          ((l.filter
            (fun w => decide (fromString (date w) = some (today - (6 - (i : Int)))))).map
            val).sum)).sum := by
  induction l with
  | nil => simp
  | cons w t ih =>
    rw [filter_map_sum_cons]
    simp only [filter_map_sum_cons, List.sum_map_add]
    rw [← ih]
    congr 1
    unfold inWeek
    cases hd : fromString (date w) with
    | none => simp
    | some d =>
      simp only [decide_eq_true_eq, Option.some.injEq]
      by_cases hwin : today - 6 ≤ d ∧ d ≤ today
      · rw [if_pos hwin]
        obtain ⟨k, hk⟩ : ∃ k : Nat, d = today - (6 - (k : Int)) :=
          ⟨(6 - (today - d)).toNat, by omega⟩
        have hk6 : k ≤ 6 := by omega
        subst hk
        interval_cases k <;> simp [List.range, List.range.loop]
        split_ifs <;> first | omega | simp
      · rw [if_neg hwin]
        symm
        apply List.sum_eq_zero
        intro x hx
        obtain ⟨i, hi, rfl⟩ := List.mem_map.1 hx
        have hi7 : i < 7 := List.mem_range.1 hi
        rw [if_neg]
        omega
/-- Rounding leaves the sum of two whole numbers unchanged when it is below
`2^53`. -/
theorem fl_natCast_add (a b : Nat) (h : a + b < 2 ^ 53) :
    fl ((a : ℚ) + (b : ℚ)) = (a : ℚ) + (b : ℚ) := by
  have h1 : |((a + b : Nat) : Int)| < 2 ^ 53 := by
    rw [abs_of_nonneg (Int.natCast_nonneg _)]
    exact_mod_cast h
  have h2 := fl_intCast ((a + b : Nat) : Int) h1
  push_cast at h2
  exact h2

/-- A non-negative rational of denominator 1 is a natural number. -/
theorem exists_nat_of_den_one (x : ℚ) (hd : x.den = 1) (h0 : 0 ≤ x) : ∃ n : Nat, x = (n : ℚ) := by
  have hx : ((x.num : Int) : ℚ) = x := Rat.coe_int_num_of_den_eq_one hd
  have hn : 0 ≤ x.num := Rat.num_nonneg.2 h0
  refine ⟨x.num.toNat, ?_⟩
  rw [← hx]
  have : ((x.num.toNat : Int)) = x.num := Int.toNat_of_nonneg hn
  exact_mod_cast this.symm

theorem sum_natCast (l : List ℚ) (hl : ∀ x ∈ l, ∃ n : Nat, x = (n : ℚ)) :
    ∃ k : Nat, l.sum = (k : ℚ) := by
  induction l with
  | nil => exact ⟨0, by simp⟩
  | cons a t ih =>
    obtain ⟨n, hn⟩ := hl a (List.mem_cons_self _ _)
    obtain ⟨k, hk⟩ := ih (fun x hx => hl x (List.mem_cons_of_mem _ hx))
    exact ⟨n + k, by rw [List.sum_cons, hn, hk]; push_cast; rfl⟩

/-- The `double` sum of whole numbers is their sum when that is below `2^53`. -/
theorem foldl_fl_add_nat (l : List ℚ) (hl : ∀ x ∈ l, ∃ n : Nat, x = (n : ℚ)) (m : Nat)
    (h : (m : ℚ) + l.sum < 2 ^ 53) :
    l.foldl (fun s v => fl (s + v)) (m : ℚ) = (m : ℚ) + l.sum := by
  induction l generalizing m with
  | nil => simp
  | cons a t ih =>
    obtain ⟨n, rfl⟩ := hl a (List.mem_cons_self _ _)
    have ht : ∀ x ∈ t, ∃ n : Nat, x = (n : ℚ) := fun x hx => hl x (List.mem_cons_of_mem _ hx)
    obtain ⟨k, hk⟩ := sum_natCast t ht
    rw [List.sum_cons, hk] at h
    have hmn : m + n < 2 ^ 53 := by
      have h1 : m + n + k < 2 ^ 53 := by exact_mod_cast (by linarith : (m : ℚ) + n + k < 2 ^ 53)
      omega
    rw [List.foldl_cons, fl_natCast_add m n hmn]
    have h2 := ih ht (m + n) (by rw [hk]; push_cast; linarith)
    push_cast at h2
    rw [h2, List.sum_cons]
    ring

theorem sumD_nat (l : List ℚ) (hl : ∀ x ∈ l, ∃ n : Nat, x = (n : ℚ)) (h : l.sum < 2 ^ 53) :
    sumD l = l.sum := by
  have h1 := foldl_fl_add_nat l hl 0 (by simpa using h)
  simpa [sumD] using h1

/-- A list of seven values lists its seven entries. -/
theorem eq_map_range_seven (l : List ℚ) (hl : l.length = 7) :
    l = (List.range 7).map (fun (i : Nat) => l.getD i 0) := by
  match l, hl with
  | [_, _, _, _, _, _, _], _ => rfl

/-- The sets of one exercise, whole weights and non-negative repetitions: the
`double` loop adds their exact volume. -/
theorem foldl_sets_nat (sets : List ExerciseSet)
    (hs : ∀ s ∈ sets, 0 ≤ s.reps ∧ ∃ n : Nat, s.weight = (n : ℚ)) (m : Nat)
    (h : (m : ℚ) + (sets.map (fun s => (s.reps : ℚ) * s.weight)).sum < 2 ^ 53) :
    sets.foldl (fun v s => fl (v + fl ((s.reps : ℚ) * s.weight))) (m : ℚ)
        = (m : ℚ) + (sets.map (fun s => (s.reps : ℚ) * s.weight)).sum ∧
      ∃ k : Nat, (sets.map (fun s => (s.reps : ℚ) * s.weight)).sum = (k : ℚ) := by
  induction sets generalizing m with
  | nil => exact ⟨by simp, 0, by simp⟩
  | cons s t ih =>
    obtain ⟨hr, b, hb⟩ := hs s (List.mem_cons_self _ _)
    have ht : ∀ s ∈ t, 0 ≤ s.reps ∧ ∃ n : Nat, s.weight = (n : ℚ) :=
      fun x hx => hs x (List.mem_cons_of_mem _ hx)
    obtain ⟨a, ha⟩ : ∃ a : Nat, s.reps = (a : Int) := ⟨s.reps.toNat, (Int.toNat_of_nonneg hr).symm⟩
    have hp : (s.reps : ℚ) * s.weight = ((a * b : Nat) : ℚ) := by
      rw [ha, hb]; push_cast; rfl
    have hk0 : ∃ k : Nat, (t.map (fun s => (s.reps : ℚ) * s.weight)).sum = (k : ℚ) := by
      apply sum_natCast
      intro x hx
      obtain ⟨y, hy, rfl⟩ := List.mem_map.1 hx
      obtain ⟨hr2, b2, hb2⟩ := ht y hy
      exact ⟨y.reps.toNat * b2, by
        rw [hb2]; push_cast
        have : ((y.reps.toNat : Int) : ℚ) = (y.reps : ℚ) := by
          exact_mod_cast congrArg (fun (z : Int) => (z : ℚ)) (Int.toNat_of_nonneg hr2)
        rw [← this]; push_cast; rfl⟩
    obtain ⟨k, hk⟩ := hk0
    rw [List.map_cons, List.sum_cons, hp, hk] at h
    have hall : m + a * b + k < 2 ^ 53 := by
      exact_mod_cast (by push_cast at h ⊢; linarith : ((m + a * b + k : Nat) : ℚ) < 2 ^ 53)
    have hab : |((a * b : Nat) : Int)| < 2 ^ 53 := by
      rw [abs_of_nonneg (Int.natCast_nonneg _)]
      exact_mod_cast (by omega : a * b < 2 ^ 53)
    have hfl : fl (((a * b : Nat) : ℚ)) = ((a * b : Nat) : ℚ) := by
      have := fl_intCast ((a * b : Nat) : Int) hab
      exact_mod_cast this
    have hih := ih ht (m + a * b) (by rw [hk]; push_cast at h ⊢; linarith)
    refine ⟨?_, a * b + k, by rw [List.map_cons, List.sum_cons, hp, hk]; push_cast; rfl⟩
    rw [List.foldl_cons, hp, hfl, fl_natCast_add m (a * b) (by omega)]
    have h2 := hih.1
    push_cast at h2 ⊢
    rw [h2, List.map_cons, List.sum_cons, hp]
    push_cast
    ring

/-- The volume loop over exercises with whole weights and non-negative
repetitions adds the exact volume. -/
theorem addVolumeD_nat (exercises : List Exercise)
    (hs : ∀ e ∈ exercises, ∀ s ∈ e.sets, 0 ≤ s.reps ∧ ∃ n : Nat, s.weight = (n : ℚ)) (m : Nat)
    (h : (m : ℚ) + volume exercises < 2 ^ 53) :
    addVolumeD (m : ℚ) exercises = (m : ℚ) + volume exercises ∧
      ∃ k : Nat, volume exercises = (k : ℚ) := by
  unfold addVolumeD volume at *
  induction exercises generalizing m with
  | nil => exact ⟨by simp, 0, by simp⟩
  | cons e t ih =>
    have he := hs e (List.mem_cons_self _ _)
    have ht : ∀ e ∈ t, ∀ s ∈ e.sets, 0 ≤ s.reps ∧ ∃ n : Nat, s.weight = (n : ℚ) :=
      fun x hx => hs x (List.mem_cons_of_mem _ hx)
    rw [List.map_cons, List.sum_cons] at h
    have hk0 : ∃ k : Nat,
        (t.map (fun e => (e.sets.map (fun s => (s.reps : ℚ) * s.weight)).sum)).sum = (k : ℚ) := by
      apply sum_natCast
      intro x hx
      obtain ⟨y, hy, rfl⟩ := List.mem_map.1 hx
      apply sum_natCast
      intro z hz
      obtain ⟨s, hs2, rfl⟩ := List.mem_map.1 hz
      obtain ⟨hr2, b2, hb2⟩ := ht y hy s hs2
      exact ⟨s.reps.toNat * b2, by
        rw [hb2]; push_cast
        have : ((s.reps.toNat : Int) : ℚ) = (s.reps : ℚ) := by
          exact_mod_cast congrArg (fun (z : Int) => (z : ℚ)) (Int.toNat_of_nonneg hr2)
        rw [← this]; push_cast; rfl⟩
    obtain ⟨k, hk⟩ := hk0
    have hk00 : (0 : ℚ) ≤ (k : ℚ) := Nat.cast_nonneg k
    obtain ⟨h1, j, hj⟩ := foldl_sets_nat e.sets he m (by rw [hk] at h; linarith)
    have hih := ih ht (m + j) (by push_cast; rw [← hj]; linarith)
    refine ⟨?_, j + k, by rw [List.map_cons, List.sum_cons, hj, hk]; push_cast; rfl⟩
    rw [List.foldl_cons, h1, hj]
    have h2 := hih.1
    push_cast at h2
    rw [h2, List.map_cons, List.sum_cons, hj]
    ring

/-- The weekly volume loop over workouts with whole weights and non-negative
repetitions adds the exact volumes. -/
theorem foldl_addVolumeD_nat (l : List StrengthWorkout)
    (hs : ∀ w ∈ l, ∀ e ∈ w.exercises, ∀ s ∈ e.sets,
      0 ≤ s.reps ∧ ∃ n : Nat, s.weight = (n : ℚ)) (m : Nat)
    (h : (m : ℚ) + (l.map (fun w => volume w.exercises)).sum < 2 ^ 53) :
    l.foldl (fun v w => addVolumeD v w.exercises) (m : ℚ)
      = (m : ℚ) + (l.map (fun w => volume w.exercises)).sum := by
  induction l generalizing m with
  | nil => simp
  | cons w t ih =>
    have hw := hs w (List.mem_cons_self _ _)
    have ht : ∀ w ∈ t, ∀ e ∈ w.exercises, ∀ s ∈ e.sets,
        0 ≤ s.reps ∧ ∃ n : Nat, s.weight = (n : ℚ) :=
      fun x hx => hs x (List.mem_cons_of_mem _ hx)
    rw [List.map_cons, List.sum_cons] at h
    have hk0 : (0 : ℚ) ≤ (t.map (fun w => volume w.exercises)).sum := by
      apply List.sum_nonneg
      intro x hx
      obtain ⟨y, hy, rfl⟩ := List.mem_map.1 hx
      have h0 : ((0 : Nat) : ℚ) + volume y.exercises = volume y.exercises := by simp
      by_contra hneg
      push_neg at hneg
      obtain ⟨-, j, hj⟩ := addVolumeD_nat y.exercises (ht y hy) 0
        (by rw [h0]; exact lt_trans hneg (by norm_num))
      rw [hj] at hneg
      exact absurd (Nat.cast_nonneg j) (not_le.2 hneg)
    obtain ⟨h1, j, hj⟩ := addVolumeD_nat w.exercises hw m (by linarith)
    have h2 := ih ht (m + j) (by push_cast; rw [← hj]; linarith)
    push_cast at h2
    rw [List.foldl_cons, h1, hj, h2, List.map_cons, List.sum_cons, hj]
    ring
theorem volume_natCast (exercises : List Exercise)
    (hs : ∀ e ∈ exercises, ∀ s ∈ e.sets, 0 ≤ s.reps ∧ ∃ n : Nat, s.weight = (n : ℚ)) :
    ∃ k : Nat, volume exercises = (k : ℚ) := by
  unfold volume
  apply sum_natCast
  intro x hx
  obtain ⟨y, hy, rfl⟩ := List.mem_map.1 hx
  apply sum_natCast
  intro z hz
  obtain ⟨s, hs2, rfl⟩ := List.mem_map.1 hz
  obtain ⟨hr2, b2, hb2⟩ := hs y hy s hs2
  refine ⟨s.reps.toNat * b2, ?_⟩
  rw [hb2]
  have h1 : ((s.reps.toNat : Int) : ℚ) = (s.reps : ℚ) := by
    exact_mod_cast congrArg (fun (z : Int) => (z : ℚ)) (Int.toNat_of_nonneg hr2)
  rw [← h1]
  push_cast
  rfl

/-- Cardio records with whole, non-negative distances within the week: the
weekly distance and the `double` sum of the seven buckets are both the exact
sum of the distances of the week. -/
theorem cardio_rollup_nat (today : Int) (cardio : List CardioWorkout)
    (hw : ∀ w ∈ cardio, inWeek today w.date = true → w.distance.den = 1 ∧ 0 ≤ w.distance)
    (hb : ((cardio.filter (fun w => inWeek today w.date)).map (fun w => w.distance)).sum
      < 2 ^ 53) :
    (refreshCardioD today cardio).cardioKmWeek
        = ((cardio.filter (fun w => inWeek today w.date)).map (fun w => w.distance)).sum ∧
      sumD (refreshCardioD today cardio).cardioPerDay
        = ((cardio.filter (fun w => inWeek today w.date)).map (fun w => w.distance)).sum := by
  obtain ⟨h1, h2, h3⟩ := refreshCardioD_spec today cardio
  have hsplit := week_sum_split today (fun (w : CardioWorkout) => w.date)
    (fun (w : CardioWorkout) => w.distance) cardio
  have hW : ∀ x ∈ (cardio.filter (fun w => inWeek today w.date)).map (fun w => w.distance),
      ∃ n : Nat, x = (n : ℚ) := by
    intro x hx
    obtain ⟨w, hwm, rfl⟩ := List.mem_map.1 hx
    obtain ⟨hwc, hwi⟩ := List.mem_filter.1 hwm
    obtain ⟨hd, h0⟩ := hw w hwc hwi
    exact exists_nat_of_den_one _ hd h0
  have hD : ∀ i : Nat, i ≤ 6 →
      ∀ x ∈ (cardio.filter
          (fun w => decide (fromString w.date = some (today - (6 - (i : Int)))))).map
          (fun w => w.distance), ∃ n : Nat, x = (n : ℚ) := by
    intro i hi x hx
    obtain ⟨w, hwm, rfl⟩ := List.mem_map.1 hx
    obtain ⟨hwc, hwi⟩ := List.mem_filter.1 hwm
    have hin : inWeek today w.date = true :=
      (inWeek_iff_bucket today w.date).2 ⟨i, hi, of_decide_eq_true hwi⟩
    obtain ⟨hd, h0⟩ := hw w hwc hin
    exact exists_nat_of_den_one _ hd h0
  have hDn : ∀ x ∈ (List.range 7).map (fun (i : Nat) =>
      ((cardio.filter
          (fun w => decide (fromString w.date = some (today - (6 - (i : Int)))))).map
          (fun w => w.distance)).sum), ∃ n : Nat, x = (n : ℚ) := by
    intro x hx
    obtain ⟨i, hi, rfl⟩ := List.mem_map.1 hx
    have hi6 : i ≤ 6 := by have := List.mem_range.1 hi; omega
    exact sum_natCast _ (hD i hi6)
  have hDle : ∀ i : Nat, i ≤ 6 →
      ((cardio.filter
          (fun w => decide (fromString w.date = some (today - (6 - (i : Int)))))).map
          (fun w => w.distance)).sum < 2 ^ 53 := by
    intro i hi
    refine lt_of_le_of_lt ?_ hb
    rw [hsplit]
    apply List.single_le_sum
    · intro x hx
      obtain ⟨n, rfl⟩ := hDn x hx
      exact Nat.cast_nonneg n
    · exact List.mem_map.2 ⟨i, List.mem_range.2 (by omega), rfl⟩
  refine ⟨by rw [h3]; exact sumD_nat _ hW hb, ?_⟩
  rw [eq_map_range_seven _ h1]
  have hmap : (List.range 7).map (fun (i : Nat) => (refreshCardioD today cardio).cardioPerDay.getD i 0)
      = (List.range 7).map (fun (i : Nat) =>
          ((cardio.filter
            (fun w => decide (fromString w.date = some (today - (6 - (i : Int)))))).map
            (fun w => w.distance)).sum) := by
    apply List.map_congr_left
    intro i hi
    have hi6 : i ≤ 6 := by have := List.mem_range.1 hi; omega
    rw [h2 i hi6]
    exact sumD_nat _ (hD i hi6) (hDle i hi6)
  rw [hmap, sumD_nat _ hDn (by rw [← hsplit]; exact hb), ← hsplit]

/-- Strength workouts with whole weights and non-negative repetitions within the
week: the weekly volume and the `double` sum of the seven buckets are both the
exact sum of the volumes of the week. -/
theorem strength_rollup_nat (today : Int) (strength : List StrengthWorkout)
    (hw : ∀ w ∈ strength, inWeek today w.date = true → ∀ e ∈ w.exercises, ∀ s ∈ e.sets,
      0 ≤ s.reps ∧ s.weight.den = 1 ∧ 0 ≤ s.weight)
    (hb : ((strength.filter (fun w => inWeek today w.date)).map
      (fun w => volume w.exercises)).sum < 2 ^ 53) :
    (refreshStrengthD today strength).strengthVolumeWeek
        = ((strength.filter (fun w => inWeek today w.date)).map
            (fun w => volume w.exercises)).sum ∧
      sumD (refreshStrengthD today strength).strengthPerDay
        = ((strength.filter (fun w => inWeek today w.date)).map
            (fun w => volume w.exercises)).sum := by
  obtain ⟨h1, h2, h3⟩ := refreshStrengthD_spec today strength
  have hsplit := week_sum_split today (fun (w : StrengthWorkout) => w.date)
    (fun (w : StrengthWorkout) => volume w.exercises) strength
  have hw2 : ∀ w ∈ strength, inWeek today w.date = true → ∀ e ∈ w.exercises, ∀ s ∈ e.sets,
      0 ≤ s.reps ∧ ∃ n : Nat, s.weight = (n : ℚ) := by
    intro w hwc hwi e he s hs
    obtain ⟨hr, hd, h0⟩ := hw w hwc hwi e he s hs
    exact ⟨hr, exists_nat_of_den_one _ hd h0⟩
  have hWs : ∀ w ∈ strength.filter (fun w => inWeek today w.date),
      ∀ e ∈ w.exercises, ∀ s ∈ e.sets, 0 ≤ s.reps ∧ ∃ n : Nat, s.weight = (n : ℚ) := by
    intro w hwm
    obtain ⟨hwc, hwi⟩ := List.mem_filter.1 hwm
    exact hw2 w hwc hwi
  have hW : ∀ x ∈ (strength.filter (fun w => inWeek today w.date)).map
      (fun w => volume w.exercises), ∃ n : Nat, x = (n : ℚ) := by
    intro x hx
    obtain ⟨w, hwm, rfl⟩ := List.mem_map.1 hx
    exact volume_natCast _ (hWs w hwm)
  have hDs : ∀ i : Nat, i ≤ 6 →
      ∀ w ∈ strength.filter
          (fun w => decide (fromString w.date = some (today - (6 - (i : Int))))),
        w ∈ strength.filter (fun w => inWeek today w.date) := by
    intro i hi w hwm
    obtain ⟨hwc, hwi⟩ := List.mem_filter.1 hwm
    exact List.mem_filter.2
      ⟨hwc, (inWeek_iff_bucket today w.date).2 ⟨i, hi, of_decide_eq_true hwi⟩⟩
  have hD : ∀ i : Nat, i ≤ 6 →
      ∀ x ∈ (strength.filter
          (fun w => decide (fromString w.date = some (today - (6 - (i : Int)))))).map
          (fun w => volume w.exercises), ∃ n : Nat, x = (n : ℚ) := by
    intro i hi x hx
    obtain ⟨w, hwm, rfl⟩ := List.mem_map.1 hx
    exact volume_natCast _ (hWs w (hDs i hi w hwm))
  have hW0 : ∀ x ∈ (strength.filter (fun w => inWeek today w.date)).map
      (fun w => volume w.exercises), 0 ≤ x := by
    intro x hx
    obtain ⟨n, rfl⟩ := hW x hx
    exact Nat.cast_nonneg n
  have hDn : ∀ x ∈ (List.range 7).map (fun (i : Nat) =>
      ((strength.filter
          (fun w => decide (fromString w.date = some (today - (6 - (i : Int)))))).map
          (fun w => volume w.exercises)).sum), ∃ n : Nat, x = (n : ℚ) := by
    intro x hx
    obtain ⟨i, hi, rfl⟩ := List.mem_map.1 hx
    have hi6 : i ≤ 6 := by have := List.mem_range.1 hi; omega
    exact sum_natCast _ (hD i hi6)
  have hDle : ∀ i : Nat, i ≤ 6 →
      ((strength.filter
          (fun w => decide (fromString w.date = some (today - (6 - (i : Int)))))).map
          (fun w => volume w.exercises)).sum < 2 ^ 53 := by
    intro i hi
    refine lt_of_le_of_lt ?_ hb
    rw [hsplit]
    apply List.single_le_sum
    · intro x hx
      obtain ⟨n, rfl⟩ := hDn x hx
      exact Nat.cast_nonneg n
    · exact List.mem_map.2 ⟨i, List.mem_range.2 (by omega), rfl⟩
  have hz : ((0 : Nat) : ℚ) = 0 := Nat.cast_zero
  constructor
  · rw [h3]
    have := foldl_addVolumeD_nat _ hWs 0 (by rw [hz, zero_add]; exact hb)
    rw [hz, zero_add] at this
    exact this
  rw [eq_map_range_seven _ h1]
  have hmap : (List.range 7).map
        (fun (i : Nat) => (refreshStrengthD today strength).strengthPerDay.getD i 0)
      = (List.range 7).map (fun (i : Nat) =>
          ((strength.filter
            (fun w => decide (fromString w.date = some (today - (6 - (i : Int)))))).map
            (fun w => volume w.exercises)).sum) := by
    apply List.map_congr_left
    intro i hi
    have hi6 : i ≤ 6 := by have := List.mem_range.1 hi; omega
    rw [h2 i hi6]
    have hvol : (strength.filter
          (fun w => decide (fromString w.date = some (today - (6 - (i : Int)))))).map
          (fun w => addVolumeD 0 w.exercises)
        = (strength.filter
          (fun w => decide (fromString w.date = some (today - (6 - (i : Int)))))).map
          (fun w => volume w.exercises) := by
      apply List.map_congr_left
      intro w hwm
      have hmem := hDs i hi6 w hwm
      have hle : volume w.exercises < 2 ^ 53 :=
        lt_of_le_of_lt (List.single_le_sum hW0 _ (List.mem_map.2 ⟨w, hmem, rfl⟩)) hb
      have := (addVolumeD_nat w.exercises (hWs w hmem) 0 (by rw [hz, zero_add]; exact hle)).1
      rw [hz, zero_add] at this
      exact this
    have hfold : (strength.filter
          (fun w => decide (fromString w.date = some (today - (6 - (i : Int)))))).foldl
          (fun s w => fl (s + addVolumeD 0 w.exercises)) 0
        = sumD ((strength.filter
          (fun w => decide (fromString w.date = some (today - (6 - (i : Int)))))).map
          (fun w => addVolumeD 0 w.exercises)) := by
      unfold sumD
      rw [List.foldl_map]
    rw [hfold, hvol]
    exact sumD_nat _ (hD i hi6) (hDle i hi6)
  rw [hmap, sumD_nat _ hDn (by rw [← hsplit]; exact hb), ← hsplit]
/-- C27 (amended). Rollup consistency. The day-offset test of the buckets,
`0 ≤ daysTo(today) < 7`, and the inclusive range test of the weekly totals,
`today - 6 ≤ d ≤ today`, accept the same dates, and a record is within the week
exactly when its date is that of one of the seven buckets. Cardio: the weekly
distance is the `double` sum, in list order, of the distances of the records of
the week, bucket `i` is the `double` sum, in list order, of the distances of the
records dated `today - (6 - i)`, and in exact arithmetic the distances of the
week add up to the sum over the seven days of the distances of each day. When
the distances of the week are whole non-negative numbers of sum below `2^53`,
the weekly distance equals the `double` sum of the seven buckets, both being
that exact sum. Strength likewise: the weekly volume runs the volume loop, in
list order, over the workouts of the week, bucket `i` adds the volume of each
workout dated `today - (6 - i)`, the exact volumes of the week add up to the sum
over the seven days, and for whole non-negative weights and non-negative
repetitions of total volume below `2^53` the weekly volume equals the `double`
sum of the seven buckets. -/
theorem rollup_consistency (today : Int) (cardio : List CardioWorkout)
    (strength : List StrengthWorkout) :
    (∀ d : Int,
        (0 ≤ daysTo d today ∧ daysTo d today < 7) ↔ (addDays today (-6) ≤ d ∧ d ≤ today)) ∧
      (∀ date : QString, inWeek today date = true ↔
        ∃ i : Nat, i ≤ 6 ∧ fromString date = some (today - (6 - (i : Int)))) ∧
      (refreshCardioD today cardio).cardioKmWeek
        = sumD ((cardio.filter (fun w => inWeek today w.date)).map (fun w => w.distance)) ∧
      (refreshCardioD today cardio).cardioPerDay
        = (List.range 7).map (fun (i : Nat) =>
            sumD ((cardio.filter
              (fun w => decide (fromString w.date = some (today - (6 - (i : Int)))))).map
              (fun w => w.distance))) ∧
      ((cardio.filter (fun w => inWeek today w.date)).map (fun w => w.distance)).sum
        = ((List.range 7).map (fun (i : Nat) =>
            ((cardio.filter
              (fun w => decide (fromString w.date = some (today - (6 - (i : Int)))))).map
              (fun w => w.distance)).sum)).sum ∧
      ((∀ w ∈ cardio, inWeek today w.date = true → w.distance.den = 1 ∧ 0 ≤ w.distance) →
        ((cardio.filter (fun w => inWeek today w.date)).map (fun w => w.distance)).sum < 2 ^ 53 →
        (refreshCardioD today cardio).cardioKmWeek
            = sumD (refreshCardioD today cardio).cardioPerDay ∧
          (refreshCardioD today cardio).cardioKmWeek
            = ((cardio.filter (fun w => inWeek today w.date)).map
                (fun w => w.distance)).sum) ∧
      (refreshStrengthD today strength).strengthVolumeWeek
        = (strength.filter (fun w => inWeek today w.date)).foldl
            (fun v w => addVolumeD v w.exercises) 0 ∧
      (refreshStrengthD today strength).strengthPerDay
        = (List.range 7).map (fun (i : Nat) =>
            (strength.filter
              (fun w => decide (fromString w.date = some (today - (6 - (i : Int)))))).foldl
              (fun s w => fl (s + addVolumeD 0 w.exercises)) 0) ∧
      ((strength.filter (fun w => inWeek today w.date)).map (fun w => volume w.exercises)).sum
        = ((List.range 7).map (fun (i : Nat) =>
            ((strength.filter
              (fun w => decide (fromString w.date = some (today - (6 - (i : Int)))))).map
              (fun w => volume w.exercises)).sum)).sum ∧
      ((∀ w ∈ strength, inWeek today w.date = true → ∀ e ∈ w.exercises, ∀ s ∈ e.sets,
          0 ≤ s.reps ∧ s.weight.den = 1 ∧ 0 ≤ s.weight) →
        ((strength.filter (fun w => inWeek today w.date)).map
          (fun w => volume w.exercises)).sum < 2 ^ 53 →
        (refreshStrengthD today strength).strengthVolumeWeek
            = sumD (refreshStrengthD today strength).strengthPerDay ∧
          (refreshStrengthD today strength).strengthVolumeWeek
            = ((strength.filter (fun w => inWeek today w.date)).map
                (fun w => volume w.exercises)).sum) := by
  obtain ⟨c1, c2, c3⟩ := refreshCardioD_spec today cardio
  obtain ⟨s1, s2, s3⟩ := refreshStrengthD_spec today strength
  refine ⟨fun d => window_tests_agree today d, fun date => inWeek_iff_bucket today date, c3, ?_,
    week_sum_split today (fun (w : CardioWorkout) => w.date) (fun (w : CardioWorkout) => w.distance)
      cardio, ?_, s3, ?_,
    week_sum_split today (fun (w : StrengthWorkout) => w.date)
      (fun (w : StrengthWorkout) => volume w.exercises) strength, ?_⟩
  · rw [eq_map_range_seven _ c1]
    apply List.map_congr_left
    intro i hi
    have hi6 : i ≤ 6 := by have := List.mem_range.1 hi; omega
    exact c2 i hi6
  · intro hw hb
    obtain ⟨h1, h2⟩ := cardio_rollup_nat today cardio hw hb
    exact ⟨by rw [h1, h2], h1⟩
  · rw [eq_map_range_seven _ s1]
    apply List.map_congr_left
    intro i hi
    have hi6 : i ≤ 6 := by have := List.mem_range.1 hi; omega
    exact s2 i hi6
  · intro hw hb
    obtain ⟨h1, h2⟩ := strength_rollup_nat today strength hw hb
    exact ⟨by rw [h1, h2], h1⟩

/-- C27 at 2024-01-10: runs of 5 km today and 3 km three days ago, one of 9 km a
week ago, and a workout of 3 × 60 kg and 5 × 40 kg today: 8 km and a volume of
380 both ways. -/
theorem rollup_consistency_witness :
    (refreshCardioD 2460320
        [{ date := "2024-01-10".data, type := "Running".data, duration := 30, distance := 5,
           calories := 343, avgSpeed := 10 },
         { date := "2024-01-07".data, type := "Running".data, duration := 30, distance := 3,
           calories := 343, avgSpeed := 6 },
         { date := "2024-01-03".data, type := "Running".data, duration := 30, distance := 9,
           calories := 343, avgSpeed := 18 }]).cardioKmWeek = 8 ∧
      sumD (refreshCardioD 2460320
        [{ date := "2024-01-10".data, type := "Running".data, duration := 30, distance := 5,
           calories := 343, avgSpeed := 10 },
         { date := "2024-01-07".data, type := "Running".data, duration := 30, distance := 3,
           calories := 343, avgSpeed := 6 },
         { date := "2024-01-03".data, type := "Running".data, duration := 30, distance := 9,
           calories := 343, avgSpeed := 18 }]).cardioPerDay = 8 ∧
      (refreshStrengthD 2460320
        [{ date := "2024-01-10".data,
           exercises := [{ name := "Squat".data,
                           sets := [{ reps := 3, weight := 60 }, { reps := 5, weight := 40 }] }],
           calories := 56 }]).strengthVolumeWeek = 380 ∧
      sumD (refreshStrengthD 2460320
        [{ date := "2024-01-10".data,
           exercises := [{ name := "Squat".data,
                           sets := [{ reps := 3, weight := 60 }, { reps := 5, weight := 40 }] }],
           calories := 56 }]).strengthPerDay = 380 := by
  have h := rollup_consistency 2460320
    [{ date := "2024-01-10".data, type := "Running".data, duration := 30, distance := 5,
       calories := 343, avgSpeed := 10 },
     { date := "2024-01-07".data, type := "Running".data, duration := 30, distance := 3,
       calories := 343, avgSpeed := 6 },
     { date := "2024-01-03".data, type := "Running".data, duration := 30, distance := 9,
       calories := 343, avgSpeed := 18 }]
    [{ date := "2024-01-10".data,
       exercises := [{ name := "Squat".data,
                       sets := [{ reps := 3, weight := 60 }, { reps := 5, weight := 40 }] }],
       calories := 56 }]
  obtain ⟨-, -, -, -, -, hc, -, -, -, hs⟩ := h
  obtain ⟨hc1, hc2⟩ := hc (by decide!) (by decide!)
  obtain ⟨hs1, hs2⟩ := hs (by decide!) (by decide!)
  refine ⟨?_, ?_, ?_, ?_⟩
  · rw [hc2]; decide!
  · rw [← hc1, hc2]; decide!
  · rw [hs2]; decide!
  · rw [← hs1, hs2]; decide!

/-- C27 as stated fails. Runs of 9.84 km today, 9.44 km yesterday and 14.1 km
the day before (the `double` nearest to each), saved in that order: the weekly
distance adds them in list order and is 33.38, the buckets add them in date
order and their sum is 33.379999999999995. The same three values as the
weights of one repetition each give the same two strength volumes. All three
records pass both window tests. -/
theorem rollup_consistency_fails :
    (refreshCardioD 2460320
        [{ date := "2024-01-10".data, type := "Running".data, duration := 60,
           distance := fl (984 / 100), calories := 686, avgSpeed := 10 },
         { date := "2024-01-09".data, type := "Running".data, duration := 60,
           distance := fl (944 / 100), calories := 686, avgSpeed := 9 },
         { date := "2024-01-08".data, type := "Running".data, duration := 60,
           distance := fl (141 / 10), calories := 686, avgSpeed := 14 }]).cardioKmWeek
        = 4697817361300849 / 140737488355328 ∧
      sumD (refreshCardioD 2460320
        [{ date := "2024-01-10".data, type := "Running".data, duration := 60,
           distance := fl (984 / 100), calories := 686, avgSpeed := 10 },
         { date := "2024-01-09".data, type := "Running".data, duration := 60,
           distance := fl (944 / 100), calories := 686, avgSpeed := 9 },
         { date := "2024-01-08".data, type := "Running".data, duration := 60,
           distance := fl (141 / 10), calories := 686, avgSpeed := 14 }]).cardioPerDay
        = 293613585081303 / 8796093022208 ∧
      (refreshStrengthD 2460320
        [{ date := "2024-01-10".data,
           exercises := [{ name := "Carry".data, sets := [{ reps := 1, weight := fl (984 / 100) }] }],
           calories := 56 },
         { date := "2024-01-09".data,
           exercises := [{ name := "Carry".data, sets := [{ reps := 1, weight := fl (944 / 100) }] }],
           calories := 56 },
         { date := "2024-01-08".data,
           exercises := [{ name := "Carry".data, sets := [{ reps := 1, weight := fl (141 / 10) }] }],
           calories := 56 }]).strengthVolumeWeek
        = 4697817361300849 / 140737488355328 ∧
      sumD (refreshStrengthD 2460320
        [{ date := "2024-01-10".data,
           exercises := [{ name := "Carry".data, sets := [{ reps := 1, weight := fl (984 / 100) }] }],
           calories := 56 },
         { date := "2024-01-09".data,
           exercises := [{ name := "Carry".data, sets := [{ reps := 1, weight := fl (944 / 100) }] }],
           calories := 56 },
         { date := "2024-01-08".data,
           exercises := [{ name := "Carry".data, sets := [{ reps := 1, weight := fl (141 / 10) }] }],
           calories := 56 }]).strengthPerDay
        = 293613585081303 / 8796093022208 ∧
      (4697817361300849 / 140737488355328 : ℚ) ≠ 293613585081303 / 8796093022208 := by
  decide!

/-! ## Actions: rejection, creation, deletion and the profile -/

/-- C24. A rejected entry changes nothing: `addGoal` with a goal name that is
empty after trimming, `addGoal` of a strength goal with an exercise name that
is empty after trimming, `addExercise` with an exercise name that is empty
after trimming and `saveStrength` with no exercise in the current workout
return the state they were given (profile, the four collections and the
current-workout exercises) and, where they take them, the files. -/
theorem validation_rejects (goalName goalExName exName date : QString) (idx : Int)
    (target goalExWeight exWeight : ℚ) (targetTime goalExSets goalExReps : Int)
    (rows : List (Option Int × Option ℚ)) (perSet : Bool) (st : State) (fs : Files) :
    (trimmed goalName = [] →
      addGoal goalName idx target targetTime goalExName goalExWeight goalExSets goalExReps st fs
        = (st, fs)) ∧
      (idx ≠ 0 → trimmed goalExName = [] →
        addGoal goalName idx target targetTime goalExName goalExWeight goalExSets goalExReps
          st fs = (st, fs)) ∧
      (trimmed exName = [] → addExercise exName rows exWeight perSet st = st) ∧
      (st.curEx = [] → saveStrength date st fs = (st, fs)) := by
  refine ⟨?_, ?_, ?_, ?_⟩
  · intro h
    unfold addGoal
    simp only [h]
  · intro hi h
    unfold addGoal
    cases hn : trimmed goalName with
    | nil => rfl
    | cons c t => simp only [hi, if_false, h]
  · intro h
    unfold addExercise
    simp only [h]
  · intro h
    unfold saveStrength
    simp only [h]

/-- Witness for C24: a goal name of a no-break space and a blank, a strength
goal with an exercise name of blanks, an exercise name of blanks and an empty
workout, on a state that holds a cardio record. -/
theorem validation_rejects_witness :
    addGoal (Char.ofNat 160 :: " ".data) 0 10 0 [] 20 3 12
        { cardio := [{ date := "2024-01-10".data, type := "Running".data, duration := 30,
                       distance := 5, calories := 343, avgSpeed := 10 }] } (fun _ => none)
      = ({ cardio := [{ date := "2024-01-10".data, type := "Running".data, duration := 30,
                        distance := 5, calories := 343, avgSpeed := 10 }] }, fun _ => none) ∧
      addGoal "Bench".data 1 10 0 " ".data 20 3 12 {} (fun _ => none) = ({}, fun _ => none) ∧
      addExercise " ".data [(some 10, none)] 20 false {} = {} ∧
      saveStrength "2024-01-10".data {} (fun _ => none) = ({}, fun _ => none) :=
  ⟨(validation_rejects (Char.ofNat 160 :: " ".data) [] [] [] 0 10 20 20 0 3 12 [] false _ _).1
      (by decide),
    (validation_rejects "Bench".data " ".data [] [] 1 10 20 20 0 3 12 [] false _ _).2.1
      (by decide) (by decide),
    (validation_rejects [] [] " ".data [] 0 10 20 20 0 3 12 [(some 10, none)] false _
      (fun _ => none)).2.2.1 (by decide),
    (validation_rejects [] [] [] "2024-01-10".data 0 10 20 20 0 3 12 [] false {} _).2.2.2 rfl⟩

theorem trimmed_eq_self (s : QString) (h1 : ∀ c ∈ s.head?, isSpace c = false)
    (h2 : ∀ c ∈ s.getLast?, isSpace c = false) : trimmed s = s := by
  have hd : ∀ (l : QString), (∀ c ∈ l.head?, isSpace c = false) → l.dropWhile isSpace = l := by
    intro l hl
    cases l with
    | nil => rfl
    | cons c t => simp [List.dropWhile, hl c (by simp)]
  unfold trimmed
  rw [hd s h1, hd s.reverse (by simpa using h2), List.reverse_reverse]

/-- C25 (as amended). An accepted `addGoal` (the goal name, and for a strength
goal the exercise name, not empty after trimming) appends exactly one goal at
the end of the goal list and leaves the goals before it, and everything else
in the state, unchanged; the new goal has progress 0 and `progressTime` 0. A
cardio goal has type `cardio_km`, the entered target and time limit, an empty
exercise name and `exWeight`, `exSets`, `exReps` 0; a strength goal has type
`strength_exercise`, target exactly 1, `targetTime` 0, the entered weight, sets
and reps, and as exercise name the entered text without the white space at its
two ends. The goal name is stored the same way. A text that neither starts nor
ends with white space is stored as entered. -/
theorem addGoal_creates (goalName goalExName : QString) (idx : Int) (target goalExWeight : ℚ)
    (targetTime goalExSets goalExReps : Int) (st : State) (fs : Files) :
    (trimmed goalName ≠ [] → idx = 0 →
      (addGoal goalName idx target targetTime goalExName goalExWeight goalExSets goalExReps
          st fs).1
        = { st with goals := st.goals ++
              [{ name := trimmed goalName, type := "cardio_km".data, target := target,
                 progress := 0, targetTime := targetTime, progressTime := 0,
                 exerciseName := [], exWeight := 0, exSets := 0, exReps := 0 }] }) ∧
      (trimmed goalName ≠ [] → idx ≠ 0 → trimmed goalExName ≠ [] →
        (addGoal goalName idx target targetTime goalExName goalExWeight goalExSets goalExReps
            st fs).1
          = { st with goals := st.goals ++
                [{ name := trimmed goalName, type := "strength_exercise".data, target := 1,
                   progress := 0, targetTime := 0, progressTime := 0,
                   exerciseName := trimmed goalExName, exWeight := goalExWeight,
                   exSets := goalExSets, exReps := goalExReps }] }) ∧
      ((∀ c ∈ goalName.head?, isSpace c = false) →
        (∀ c ∈ goalName.getLast?, isSpace c = false) → trimmed goalName = goalName) ∧
      ((∀ c ∈ goalExName.head?, isSpace c = false) →
        (∀ c ∈ goalExName.getLast?, isSpace c = false) → trimmed goalExName = goalExName) := by
  refine ⟨?_, ?_, trimmed_eq_self _, trimmed_eq_self _⟩
  · intro hn hi
    unfold addGoal
    cases hc : trimmed goalName with
    | nil => exact absurd hc hn
    | cons c t => simp only [hi, if_true]
  · intro hn hi he
    unfold addGoal
    cases hc : trimmed goalName with
    | nil => exact absurd hc hn
    | cons c t =>
      simp only [hi, if_false]
      cases hx : trimmed goalExName with
      | nil => exact absurd hx he
      | cons d u => rfl

/-- Witness for C25: a cardio goal of 10 km in 60 minutes and a strength goal
for the bench press, entered after an existing goal. -/
theorem addGoal_creates_witness :
    (addGoal "Run 10".data 0 10 60 [] 20 3 12
        { goals := [{ name := "Old".data, type := "cardio_km".data, target := 5,
                      progress := 2 }] } (fun _ => none)).1.goals
      = [{ name := "Old".data, type := "cardio_km".data, target := 5, progress := 2 },
         { name := "Run 10".data, type := "cardio_km".data, target := 10, targetTime := 60 }] ∧
      (addGoal "Bench".data 1 10 0 "Bench Press".data 60 3 8
        { goals := [{ name := "Old".data, type := "cardio_km".data, target := 5,
                      progress := 2 }] } (fun _ => none)).1.goals
      = [{ name := "Old".data, type := "cardio_km".data, target := 5, progress := 2 },
         { name := "Bench".data, type := "strength_exercise".data, target := 1,
           exerciseName := "Bench Press".data, exWeight := 60, exSets := 3, exReps := 8 }] := by
  constructor
  · rw [(addGoal_creates "Run 10".data [] 0 10 20 60 3 12 _ _).1 (by decide) rfl]
    decide!
  · rw [(addGoal_creates "Bench".data "Bench Press".data 1 10 60 0 3 8 _ _).2.1 (by decide)
      (by decide) (by decide)]
    decide!

/-- C25 as stated fails. A strength goal entered with the exercise name
` Bench Press`, a blank in front, is created with the exercise name
`Bench Press`, which is not the entered text; a cardio goal whose name is
entered as a no-break space followed by `Run` is created with the name `Run`. -/
theorem addGoal_creates_fails :
    (addGoal "Bench".data 1 10 0 " Bench Press".data 60 3 8 {} (fun _ => none)).1.goals
        = [{ name := "Bench".data, type := "strength_exercise".data, target := 1,
             exerciseName := "Bench Press".data, exWeight := 60, exSets := 3, exReps := 8 }] ∧
      " Bench Press".data ≠ "Bench Press".data ∧
      (addGoal (Char.ofNat 160 :: "Run".data) 0 10 60 [] 0 0 0 {} (fun _ => none)).1.goals
        = [{ name := "Run".data, type := "cardio_km".data, target := 10, targetTime := 60 }] := by
  decide!

/-- C26 (as amended). Logging a cardio workout, a strength workout, adding an
exercise or a goal and deleting any record leave every profile field
(username, name, gender, weight, target bodyweight, height, age) unchanged;
`saveBodyweight` leaves every profile field but the weight unchanged and sets
the profile weight to the logged weight. -/
theorem profile_frame (date type goalName goalExName exName : QString) (m idx r : Int)
    (x weight target goalExWeight exWeight : ℚ) (targetTime goalExSets goalExReps : Int)
    (rows : List (Option Int × Option ℚ)) (perSet : Bool) (st : State) (fs : Files) :
    (∃ st1 fs1, saveCardio date type m x st fs = some (st1, fs1) ∧ st1.user = st.user) ∧
      (saveStrength date st fs).1.user = st.user ∧
      (addExercise exName rows exWeight perSet st).user = st.user ∧
      (addGoal goalName idx target targetTime goalExName goalExWeight goalExSets goalExReps
          st fs).1.user = st.user ∧
      (delCardio r st fs).1.user = st.user ∧
      (delStrength r st fs).1.user = st.user ∧
      (delBodyweight r st fs).1.user = st.user ∧
      (delGoal r st fs).1.user = st.user ∧
      (saveBodyweight date weight st fs).1.user = { st.user with weight := weight } := by
  refine ⟨?_, ?_, ?_, ?_, ?_, ?_, ?_, ?_, rfl⟩
  · unfold saveCardio
    rw [avgSpeedOf_eq]
    exact ⟨_, _, rfl, rfl⟩
  · unfold saveStrength
    cases st.curEx <;> rfl
  · unfold addExercise
    cases trimmed exName <;> rfl
  · unfold addGoal
    cases trimmed goalName with
    | nil => rfl
    | cons c t =>
      simp only
      split_ifs
      · rfl
      · cases trimmed goalExName <;> rfl
  · unfold delCardio
    split_ifs <;> rfl
  · unfold delStrength
    split_ifs <;> rfl
  · unfold delBodyweight
    split_ifs <;> rfl
  · unfold delGoal
    split_ifs <;> rfl

/-- C26 as stated fails. On a profile of 70 kg, logging a bodyweight of 82.5 kg
with `saveBodyweight` sets the profile weight to 82.5. -/
theorem profile_frame_fails :
    (saveBodyweight "2024-01-10".data 82.5
        { user := { username := "bob".data, weight := 70, height := 170 } }
        (fun _ => none)).1.user.weight = 82.5 ∧
      (saveBodyweight "2024-01-10".data 82.5
        { user := { username := "bob".data, weight := 70, height := 170 } }
        (fun _ => none)).1.user.weight
        ≠ ({ username := "bob".data, weight := 70, height := 170 } : UserProfile).weight := by
  decide!

theorem eraseIdx_eq_removeAt {α : Type} (l : List α) (r : Int)
    (h : 0 ≤ r ∧ r < (l.length : Int)) : l.eraseIdx r.toNat = removeAt l r := by
  unfold removeAt
  rw [if_pos h, List.eraseIdx_eq_take_drop_succ]

/-- C28. Each delete action removes by index: with `0 ≤ r < length` the
collection loses exactly the element at position `r`, the others keeping their
order, so that the length drops by 1, and with `r` negative or beyond the end
the collection is unchanged; in both cases the other three collections, and the
rest of the state, are unchanged. -/
theorem delete_by_index (r : Int) (st : State) (fs : Files) :
    (delCardio r st fs).1 = { st with cardio := removeAt st.cardio r } ∧
      (delStrength r st fs).1 = { st with strength := removeAt st.strength r } ∧
      (delBodyweight r st fs).1 = { st with weightLogs := removeAt st.weightLogs r } ∧
      (delGoal r st fs).1 = { st with goals := removeAt st.goals r } ∧
      (∀ (α : Type) (l : List α),
        (0 ≤ r → r < (l.length : Int) →
          removeAt l r = l.take r.toNat ++ l.drop (r.toNat + 1) ∧
            (removeAt l r).length + 1 = l.length ∧
            (∀ i : Nat, i < r.toNat → (removeAt l r)[i]? = l[i]?) ∧
            (∀ i : Nat, r.toNat ≤ i → (removeAt l r)[i]? = l[i + 1]?)) ∧
        ((r < 0 ∨ (l.length : Int) ≤ r) → removeAt l r = l)) := by
  refine ⟨?_, ?_, ?_, ?_, ?_⟩
  · unfold delCardio
    by_cases h : 0 ≤ r ∧ r < (st.cardio.length : Int)
    · rw [if_pos h, eraseIdx_eq_removeAt _ _ h]
    · rw [if_neg h]
      simp [removeAt, h]
  · unfold delStrength
    by_cases h : 0 ≤ r ∧ r < (st.strength.length : Int)
    · rw [if_pos h, eraseIdx_eq_removeAt _ _ h]
    · rw [if_neg h]
      simp [removeAt, h]
  · unfold delBodyweight
    by_cases h : 0 ≤ r ∧ r < (st.weightLogs.length : Int)
    · rw [if_pos h, eraseIdx_eq_removeAt _ _ h]
    · rw [if_neg h]
      simp [removeAt, h]
  · unfold delGoal
    by_cases h : 0 ≤ r ∧ r < (st.goals.length : Int)
    · rw [if_pos h, eraseIdx_eq_removeAt _ _ h]
    · rw [if_neg h]
      simp [removeAt, h]
  · intro α l
    constructor
    · intro h0 h1
      have hr : r.toNat < l.length := by omega
      have he : removeAt l r = l.take r.toNat ++ l.drop (r.toNat + 1) := by
        unfold removeAt
        rw [if_pos ⟨h0, h1⟩]
      refine ⟨he, ?_, ?_, ?_⟩
      · rw [he, List.length_append, List.length_take, List.length_drop]
        omega
      · intro i hi
        rw [he, List.getElem?_append_left (by rw [List.length_take]; omega),
          List.getElem?_take_of_lt hi]
      · intro i hi
        have hl : (l.take r.toNat).length = r.toNat := by
          rw [List.length_take]; omega
        rw [he, List.getElem?_append_right (by omega), hl, List.getElem?_drop]
        congr 1
        omega
    · intro h
      unfold removeAt
      rw [if_neg (by omega)]

/-- Witness for C28: deleting row 1 of three bodyweight entries, and row 3,
which does not exist. -/
theorem delete_by_index_witness :
    (delBodyweight 1
        { weightLogs := [{ date := "2024-01-08".data, weight := 80 },
                         { date := "2024-01-09".data, weight := 81 },
                         { date := "2024-01-10".data, weight := 82 }] }
        (fun _ => none)).1.weightLogs
      = [{ date := "2024-01-08".data, weight := 80 },
         { date := "2024-01-10".data, weight := 82 }] ∧
      (delBodyweight 3
        { weightLogs := [{ date := "2024-01-08".data, weight := 80 },
                         { date := "2024-01-09".data, weight := 81 },
                         { date := "2024-01-10".data, weight := 82 }] }
        (fun _ => none)).1.weightLogs
      = [{ date := "2024-01-08".data, weight := 80 },
         { date := "2024-01-09".data, weight := 81 },
         { date := "2024-01-10".data, weight := 82 }] := by
  constructor
  · rw [(delete_by_index 1 _ (fun _ => none)).2.2.1]
    decide!
  · rw [(delete_by_index 3 _ (fun _ => none)).2.2.1]
    decide!

/-! ## The chart widget -/

/-- An input of at most seven values is stored right-aligned after leading
zeros. -/
theorem setData_short (vals : List ℚ) (h : vals.length ≤ 7) :
    setData vals = some (List.replicate (7 - vals.length) 0 ++ vals) := by
  match vals, h with
  | [], _ => norm_num [setData, writeAt, List.range, List.range.loop, List.replicate]
  | [a], _ =>
    norm_num [setData, writeAt, List.range, List.range.loop, List.replicate]
    rfl
  | [a, b], _ =>
    norm_num [setData, writeAt, List.range, List.range.loop, List.replicate]
    rfl
  | [a, b, c], _ =>
    norm_num [setData, writeAt, List.range, List.range.loop, List.replicate]
    rfl
  | [a, b, c, d], _ =>
    norm_num [setData, writeAt, List.range, List.range.loop, List.replicate]
    rfl
  | [a, b, c, d, e], _ =>
    norm_num [setData, writeAt, List.range, List.range.loop, List.replicate]
    rfl
  | [a, b, c, d, e, f], _ =>
    norm_num [setData, writeAt, List.range, List.range.loop, List.replicate]
    rfl
  | [a, b, c, d, e, f, g], _ => simp [setData]
  | _ :: _ :: _ :: _ :: _ :: _ :: _ :: _ :: _, h => simp at h

/-- On an input of more than seven values the first write of the loop has a
negative index. -/
theorem setData_long (vals : List ℚ) (h : 7 < vals.length) : setData vals = none := by
  have hm : min vals.length 7 = 7 := by omega
  have hneg : ¬ (0 ≤ 7 - (vals.length : Int)) := by omega
  unfold setData
  rw [if_neg (by omega), hm]
  simp [List.range, List.range.loop, writeAt, hneg]

end FitTrackPro
